import Mathlib

/-!
# WindowsPerf kernel driver: the PMI interrupt service routine and the counter reservation

A shallow embedding of `arm64_clear_ov_flags` and `arm64_pmi_ISR` from
`wperf-driver/device.c`; further down, of `default_events`, `free_pmu_resource`
and `get_pmu_resource` from the same file.

* The per-core record `CoreInfo` is a Lean structure holding the fields the
  ISR reads or writes.
* The system registers and kernel primitives the ISR touches (PMOVSCLR_EL0,
  PMCCNTR_EL0, the spin lock, `CoreCounterStop`, `CoreCounterStart`,
  `CoreWriteCounter`) are recorded, in program order, in a list of `Effect`s
  returned next to the new core state.
* `SAMPLE_CHAIN_BUFFER_SIZE` is a constant of a header that is not part of the
  sources at hand; every definition and theorem takes it as a parameter.
-/

namespace WPerf

/-! ## Data model -/

/-- One entry of the per-core sample ring (`core->samples[k]`): the three
fields the ISR assigns. -/
structure FrameChain where
  lr : Nat
  pc : Nat
  ov_flags : Nat
deriving DecidableEq, Repr

/-- The part of the trap frame the ISR reads: `pTrapFrame->Pc` and
`pTrapFrame->Lr`. -/
structure KTRAP_FRAME where
  Pc : Nat
  Lr : Nat
deriving DecidableEq, Repr

/-- Modelled from the spec: the per-core record `CoreInfo`, whose declaration
(core.h) is not among the sources. Only the fields used by `arm64_pmi_ISR` are
kept. `samples` is the ring (`samples[k]` is `samples k`), `sample_interval`
the per-slot reload interval, `SampleLock` is `true` while the spin lock is
held. The spec calls `sample_generated` and `sample_dropped` monotonic
counters and gives no width for them or for `sample_idx`; they are naturals
here, so `++` is `+ 1`. -/
structure CoreInfo where
  ov_mask : Nat
  sample_generated : Nat
  sample_dropped : Nat
  sample_idx : Nat
  samples : Nat → FrameChain
  sample_interval : Nat → Nat
  SampleLock : Bool

/-- What the ISR does to the machine outside of the core record, one
constructor per register access or kernel/helper call made in
`arm64_clear_ov_flags` and `arm64_pmi_ISR`. `sampleStore idx fc` stands for the
three field stores into `samples[idx]`, `fc` being the entry once they are
done. -/
inductive Effect where
  | readPMOVSCLR
  | writePMOVSCLR (v : Nat)
  | isb
  | tryAcquireSampleLock (acquired : Bool)
  | releaseSampleLock
  | CoreCounterStop
  | CoreCounterStart
  | sampleStore (idx : Nat) (fc : FrameChain)
  | writePMCCNTR (v : Nat)
  | CoreWriteCounter (i : Nat) (v : Nat)
deriving DecidableEq, Repr

/-! ## The code -/

/-- `#define PMOVSCLR_VALID_BITS_MASK 0xffffffffULL`. -/
def PMOVSCLR_VALID_BITS_MASK : Nat := 0xffffffff

/-- `arm64_clear_ov_flags`: read PMOVSCLR_EL0, keep the low 32 bits, write
them back (which clears those flags), barrier, return the value. The argument
is what the register read returns. -/
def arm64_clear_ov_flags (PMOVSCLR_EL0 : Nat) : Nat × List Effect :=
  let pmov_value := PMOVSCLR_EL0
  let pmov_value := pmov_value &&& PMOVSCLR_VALID_BITS_MASK
  (pmov_value, [Effect.readPMOVSCLR, Effect.writePMOVSCLR pmov_value, Effect.isb])

/-- `KeTryToAcquireSpinLockAtDpcLevel(&lock)`: one attempt, no spinning. On a
held lock it fails and leaves it held by its owner; on a free lock it succeeds
and the lock is now held. Returns `(acquired, new lock state)`. -/
def KeTryToAcquireSpinLockAtDpcLevel (lock : Bool) : Bool × Bool :=
  if lock then (false, true) else (true, true)

/-- `KeReleaseSpinLockFromDpcLevel(&lock)`: the lock is free afterwards. -/
def KeReleaseSpinLockFromDpcLevel (_lock : Bool) : Bool := false

/-- `UINT32 val = 0xFFFFFFFF - core->sample_interval[i];` in unsigned 32-bit
arithmetic (the result is reduced modulo 2^32 whatever the width of the
interval field). -/
def reloadValue (sample_interval : Nat) : Nat :=
  (0xFFFFFFFF + 2 ^ 32 - sample_interval % 2 ^ 32) % 2 ^ 32

/-- The body of the reload loop for one `i` whose overflow bit is set:
`if (i == 31) _WriteStatusReg(PMCCNTR_EL0, (__int64)val); else
CoreWriteCounter(i, (__int64)val);`. The cast of the `UINT32` to `__int64`
zero-extends, so the value written is `val` itself. -/
def reloadCounter (sample_interval : Nat → Nat) (i : Nat) : Effect :=
  let val := reloadValue (sample_interval i)
  if i = 31 then Effect.writePMCCNTR val else Effect.CoreWriteCounter i val

/-- `for (int i = 0; i < 32; i++) { if (!(ov_flags & (1ULL << i))) continue;
... }`, reading the intervals from `core->sample_interval`. -/
def reloadLoop (sample_interval : Nat → Nat) (ov_flags : Nat) : List Effect :=
  (List.range 32).flatMap fun i =>
    if ov_flags &&& (1 <<< i) = 0 then [] else [reloadCounter sample_interval i]

/-- A store into one field of `samples[idx]`: entry `idx` becomes `f` of its
old value, every other entry is kept. -/
def storeAt (samples : Nat → FrameChain) (idx : Nat) (f : FrameChain → FrameChain) :
    Nat → FrameChain :=
  fun k => if k = idx then f (samples k) else samples k

/-- `arm64_pmi_ISR`, run on the record `core = core_info + core_idx` of the
interrupted processor. `PMOVSCLR_EL0` is the value the overflow status register
holds when the interrupt is taken. Returns the new core record and the effects
in program order. -/
def arm64_pmi_ISR (SAMPLE_CHAIN_BUFFER_SIZE : Nat) (PMOVSCLR_EL0 : Nat)
    (pTrapFrame : KTRAP_FRAME) (core : CoreInfo) : CoreInfo × List Effect :=
  let (ov_flags, tr) := arm64_clear_ov_flags PMOVSCLR_EL0
  let ov_flags := ov_flags &&& core.ov_mask
  if ov_flags = 0 then
    (core, tr)
  else
    let core := { core with sample_generated := core.sample_generated + 1 }
    let (acquired, lock) := KeTryToAcquireSpinLockAtDpcLevel core.SampleLock
    let core := { core with SampleLock := lock }
    let tr := tr ++ [Effect.tryAcquireSampleLock acquired]
    if !acquired then
      ({ core with sample_dropped := core.sample_dropped + 1 }, tr)
    else if core.sample_idx = SAMPLE_CHAIN_BUFFER_SIZE then
      let core := { core with SampleLock := KeReleaseSpinLockFromDpcLevel core.SampleLock }
      let tr := tr ++ [Effect.releaseSampleLock]
      ({ core with sample_dropped := core.sample_dropped + 1 }, tr)
    else
      let tr := tr ++ [Effect.CoreCounterStop]
      let idx := core.sample_idx
      let core := { core with
        samples := storeAt core.samples idx fun fc => { fc with lr := pTrapFrame.Lr } }
      let core := { core with
        samples := storeAt core.samples idx fun fc => { fc with pc := pTrapFrame.Pc } }
      let core := { core with
        samples := storeAt core.samples idx fun fc => { fc with ov_flags := ov_flags } }
      let tr := tr ++ [Effect.sampleStore idx (core.samples idx)]
      let core := { core with sample_idx := core.sample_idx + 1 }
      let core := { core with SampleLock := KeReleaseSpinLockFromDpcLevel core.SampleLock }
      let tr := tr ++ [Effect.releaseSampleLock]
      let tr := tr ++ reloadLoop core.sample_interval ov_flags
      let tr := tr ++ [Effect.CoreCounterStart]
      (core, tr)

/-- The masked overflow flags the ISR works with:
`(PMOVSCLR_EL0 & 0xffffffff) & core->ov_mask`. -/
def maskedOv (PMOVSCLR_EL0 : Nat) (core : CoreInfo) : Nat :=
  (PMOVSCLR_EL0 &&& 0xffffffff) &&& core.ov_mask


/-! ## Reading the effect list -/

/-- The counter an effect writes, if it writes one: PMCCNTR_EL0 is counter 31,
`CoreWriteCounter(i, .)` writes counter `i`. -/
def counterWritten : Effect → Option Nat
  | Effect.writePMCCNTR _ => some 31
  | Effect.CoreWriteCounter i _ => some i
  | _ => none

/-- Number of writes to counter `i` in a list of effects. -/
def writesTo (i : Nat) (tr : List Effect) : Nat :=
  tr.countP fun e => counterWritten e = some i

/-- The effect is `CoreCounterStop` or `CoreCounterStart`. -/
def isStopStart : Effect → Bool
  | Effect.CoreCounterStop => true
  | Effect.CoreCounterStart => true
  | _ => false

/-- The effect is an operation on `SampleLock`. -/
def isLockOp : Effect → Bool
  | Effect.tryAcquireSampleLock _ => true
  | Effect.releaseSampleLock => true
  | _ => false

/-- The ring entry an effect stores, if it is a store into the ring. -/
def storedSample : Effect → Option FrameChain
  | Effect.sampleStore _ fc => some fc
  | _ => none

/-- The samples stored into the ring by a list of effects, in program order. -/
def capturedSamples (tr : List Effect) : List FrameChain :=
  tr.filterMap storedSample

/-- One interrupt as the core sees it: the value of PMOVSCLR_EL0 when it is
taken, the trap frame, and whether some other context holds `SampleLock` at
that moment. -/
structure PmiEvent where
  PMOVSCLR_EL0 : Nat
  frame : KTRAP_FRAME
  lockHeld : Bool
deriving DecidableEq, Repr

/-- A finite sequence of invocations of `arm64_pmi_ISR` on one core, with
nothing but the lock changing hands in between (no drain of the ring). Returns
the final core record and all effects in order. -/
def runISR (SAMPLE_CHAIN_BUFFER_SIZE : Nat) : CoreInfo → List PmiEvent → CoreInfo × List Effect
  | core, [] => (core, [])
  | core, e :: es =>
    let r := arm64_pmi_ISR SAMPLE_CHAIN_BUFFER_SIZE e.PMOVSCLR_EL0 e.frame
      { core with SampleLock := e.lockHeld }
    let rs := runISR SAMPLE_CHAIN_BUFFER_SIZE r.1 es
    (rs.1, r.2 ++ rs.2)

/-- The ring entry the ISR builds for an interrupt: the frame's LR and PC and
the masked overflow flags. -/
def sampleOf (core : CoreInfo) (e : PmiEvent) : FrameChain :=
  { lr := e.frame.Lr, pc := e.frame.Pc, ov_flags := maskedOv e.PMOVSCLR_EL0 core }

/-! ## Concrete inputs used to exercise the theorems -/

/-- Three interrupts on one core: a capture, a contended one, a spurious
one. -/
def eventsA : List PmiEvent :=
  [{ PMOVSCLR_EL0 := 1, frame := { Pc := 0x1000, Lr := 0x2000 }, lockHeld := false },
   { PMOVSCLR_EL0 := 4, frame := { Pc := 0x1004, Lr := 0x2000 }, lockHeld := true },
   { PMOVSCLR_EL0 := 2, frame := { Pc := 0x1008, Lr := 0x2000 }, lockHeld := false }]

/-- A core whose only sampling slot, counter 0, has interval 0. -/
def coreZeroInterval : CoreInfo :=
  { ov_mask := 1, sample_generated := 0, sample_dropped := 0, sample_idx := 0,
    samples := fun _ => { lr := 0, pc := 0, ov_flags := 0 },
    sample_interval := fun _ => 0, SampleLock := false }


/-- A trap frame. -/
def frameA : KTRAP_FRAME := { Pc := 0x1000, Lr := 0x2000 }

/-- A core sampling on counters 0 and 2, ring empty, lock free. -/
def coreA : CoreInfo :=
  { ov_mask := 5, sample_generated := 0, sample_dropped := 0, sample_idx := 0,
    samples := fun _ => { lr := 0, pc := 0, ov_flags := 0 },
    sample_interval := fun _ => 100000, SampleLock := false }

/-- The core `coreA` with a full ring of capacity 4. -/
def coreFull : CoreInfo := { coreA with sample_idx := 4 }

/-- The core `coreA` while another context holds `SampleLock`. -/
def coreBusy : CoreInfo := { coreA with SampleLock := true }

/-! ## Counter reservation: data model

The embedding of `default_events`, `free_pmu_resource` and `get_pmu_resource`
from `wperf-driver/device.c`. The host kernel's answers are inputs (`Host`);
the calls made to it are returned, in program order, as a list of `DevEffect`s
next to the new driver state. -/

/-- An `NTSTATUS`. The three codes `get_pmu_resource` compares against are
constructors of their own; any other code is `other code`. -/
inductive NTSTATUS where
  | STATUS_SUCCESS
  | STATUS_INSUFFICIENT_RESOURCES
  | STATUS_WMI_ALREADY_ENABLED
  | other (code : Nat)
deriving DecidableEq, Repr

/-- Modelled from the spec: `CYCLE_COUNTER_IDX`, a macro of a header that is not
among the sources; the spec gives "cycle counter slot = 31". -/
def CYCLE_COUNTER_IDX : Nat := 31

/-- Modelled from the spec: `CYCLE_EVENT_IDX`, a macro of a header that is not
among the sources; the spec gives "cycle event index = 0x11". -/
def CYCLE_EVENT_IDX : Nat := 0x11

/-- Modelled from the spec: `numFPC`, the number of fixed-purpose counters, a
macro of a header that is not among the sources; the spec has one dedicated
cycle counter and sizes `events[]` as `free_gpc + 1`. -/
def numFPC : Nat := 1

/-- Modelled from the spec: `AARCH64_MAX_HWC_SUPP`, a macro of a header that is
not among the sources. The spec numbers the general-purpose slots `0..N-1`
below the cycle counter's slot 31; `counter_idx_map[AARCH64_MAX_HWC_SUPP + 1]`
is indexed at `CYCLE_COUNTER_IDX` and `default_events[AARCH64_MAX_HWC_SUPP +
numFPC]` is given 32 initialisers, so the value is 31. -/
def AARCH64_MAX_HWC_SUPP : Nat := 31

/-- Modelled from the spec: `ARMV8_PMCR_N_SHIFT`, a macro of a header that is
not among the sources: the position of the field N (number of general-purpose
counters, the spec's `N`) in PMCR, bits [15:11]. -/
def ARMV8_PMCR_N_SHIFT : Nat := 11

/-- Modelled from the spec: `ARMV8_PMCR_N_MASK`, a macro of a header that is not
among the sources: the five-bit mask of the field N of PMCR, which keeps the
general-purpose slots `0..N-1` below slot 31. -/
def ARMV8_PMCR_N_MASK : Nat := 0x1f

/-- The architectural events named in `default_events` (the `PMU_EVENT_*`
enumerators). -/
inductive ArchEvent where
  | INST_RETIRED | STALL_FRONTEND | STALL_BACKEND | L1I_CACHE_REFILL | L1I_CACHE
  | L1D_CACHE_REFILL | L1D_CACHE | BR_RETIRED | BR_MIS_PRED_RETIRED | INST_SPEC
  | ASE_SPEC | VFP_SPEC | BUS_ACCESS | BUS_CYCLES | LDST_SPEC | DP_SPEC | CRYPTO_SPEC
  | STREX_FAIL_SPEC | BR_IMMED_SPEC | BR_RETURN_SPEC | BR_INDIRECT_SPEC | L2I_CACHE
  | L2I_CACHE_REFILL | L2D_CACHE | L2D_CACHE_REFILL | L1I_TLB | L1I_TLB_REFILL
  | L1D_TLB | L1D_TLB_REFILL | L2I_TLB | L2I_TLB_REFILL
deriving DecidableEq, Repr

/-- The values of the enumerators `PMU_EVENT_*` (generated from
`armv8-arch-events.def`) and of the macro `FILTER_EXCL_EL1`. Neither file is
among the sources, so the values are parameters of the embedding. -/
structure ArchDefs where
  PMU_EVENT : ArchEvent → Nat
  FILTER_EXCL_EL1 : Nat

/-- `struct pmu_event_kernel`, with the four fields that the initialisers of
`default_events` fill, in order. -/
structure pmu_event_kernel where
  event_idx : Nat
  filter_bits : Nat
  counter_idx : Nat
  enable_irq : Nat
deriving DecidableEq, Repr

/-- `default_events`: "Default events that will be assigned to counters when
driver loaded". The array has `AARCH64_MAX_HWC_SUPP + numFPC = 32` entries, all
of them initialised. -/
def default_events (A : ArchDefs) : List pmu_event_kernel :=
  [ ⟨CYCLE_EVENT_IDX, A.FILTER_EXCL_EL1, CYCLE_COUNTER_IDX, 0⟩,
    ⟨A.PMU_EVENT ArchEvent.INST_RETIRED, A.FILTER_EXCL_EL1, 0, 0⟩,
    ⟨A.PMU_EVENT ArchEvent.STALL_FRONTEND, A.FILTER_EXCL_EL1, 1, 0⟩,
    ⟨A.PMU_EVENT ArchEvent.STALL_BACKEND, A.FILTER_EXCL_EL1, 2, 0⟩,
    ⟨A.PMU_EVENT ArchEvent.L1I_CACHE_REFILL, A.FILTER_EXCL_EL1, 3, 0⟩,
    ⟨A.PMU_EVENT ArchEvent.L1I_CACHE, A.FILTER_EXCL_EL1, 4, 0⟩,
    ⟨A.PMU_EVENT ArchEvent.L1D_CACHE_REFILL, A.FILTER_EXCL_EL1, 5, 0⟩,
    ⟨A.PMU_EVENT ArchEvent.L1D_CACHE, A.FILTER_EXCL_EL1, 6, 0⟩,
    ⟨A.PMU_EVENT ArchEvent.BR_RETIRED, A.FILTER_EXCL_EL1, 7, 0⟩,
    ⟨A.PMU_EVENT ArchEvent.BR_MIS_PRED_RETIRED, A.FILTER_EXCL_EL1, 8, 0⟩,
    ⟨A.PMU_EVENT ArchEvent.INST_SPEC, A.FILTER_EXCL_EL1, 9, 0⟩,
    ⟨A.PMU_EVENT ArchEvent.ASE_SPEC, A.FILTER_EXCL_EL1, 10, 0⟩,
    ⟨A.PMU_EVENT ArchEvent.VFP_SPEC, A.FILTER_EXCL_EL1, 11, 0⟩,
    ⟨A.PMU_EVENT ArchEvent.BUS_ACCESS, A.FILTER_EXCL_EL1, 12, 0⟩,
    ⟨A.PMU_EVENT ArchEvent.BUS_CYCLES, A.FILTER_EXCL_EL1, 13, 0⟩,
    ⟨A.PMU_EVENT ArchEvent.LDST_SPEC, A.FILTER_EXCL_EL1, 14, 0⟩,
    ⟨A.PMU_EVENT ArchEvent.DP_SPEC, A.FILTER_EXCL_EL1, 15, 0⟩,
    ⟨A.PMU_EVENT ArchEvent.CRYPTO_SPEC, A.FILTER_EXCL_EL1, 16, 0⟩,
    ⟨A.PMU_EVENT ArchEvent.STREX_FAIL_SPEC, A.FILTER_EXCL_EL1, 17, 0⟩,
    ⟨A.PMU_EVENT ArchEvent.BR_IMMED_SPEC, A.FILTER_EXCL_EL1, 18, 0⟩,
    ⟨A.PMU_EVENT ArchEvent.BR_RETURN_SPEC, A.FILTER_EXCL_EL1, 19, 0⟩,
    ⟨A.PMU_EVENT ArchEvent.BR_INDIRECT_SPEC, A.FILTER_EXCL_EL1, 20, 0⟩,
    ⟨A.PMU_EVENT ArchEvent.L2I_CACHE, A.FILTER_EXCL_EL1, 21, 0⟩,
    ⟨A.PMU_EVENT ArchEvent.L2I_CACHE_REFILL, A.FILTER_EXCL_EL1, 22, 0⟩,
    ⟨A.PMU_EVENT ArchEvent.L2D_CACHE, A.FILTER_EXCL_EL1, 23, 0⟩,
    ⟨A.PMU_EVENT ArchEvent.L2D_CACHE_REFILL, A.FILTER_EXCL_EL1, 24, 0⟩,
    ⟨A.PMU_EVENT ArchEvent.L1I_TLB, A.FILTER_EXCL_EL1, 25, 0⟩,
    ⟨A.PMU_EVENT ArchEvent.L1I_TLB_REFILL, A.FILTER_EXCL_EL1, 26, 0⟩,
    ⟨A.PMU_EVENT ArchEvent.L1D_TLB, A.FILTER_EXCL_EL1, 27, 0⟩,
    ⟨A.PMU_EVENT ArchEvent.L1D_TLB_REFILL, A.FILTER_EXCL_EL1, 28, 0⟩,
    ⟨A.PMU_EVENT ArchEvent.L2I_TLB, A.FILTER_EXCL_EL1, 29, 0⟩,
    ⟨A.PMU_EVENT ArchEvent.L2I_TLB_REFILL, A.FILTER_EXCL_EL1, 30, 0⟩ ]

/-- `default_events[k]` as read by `RtlCopyMemory(core->events + k,
default_events + k, ...)`. -/
def default_event (A : ArchDefs) (k : Nat) : pmu_event_kernel :=
  (default_events A).getD k ⟨0, 0, 0, 0⟩

/-- Modelled from the spec: the fields of the per-core record `CoreInfo`
(core.h, not among the sources) that `free_pmu_resource` and `get_pmu_resource`
write: `idx`, `events_num`, `events[]`, `timer_round`, `timer_running`. The
sampling fields of the same record are in `CoreInfo` above; these two functions
do not touch them. -/
structure CoreSlots where
  idx : Nat
  events_num : Nat
  events : Nat → pmu_event_kernel
  timer_round : Nat
  timer_running : Nat

/-- The four per-core DPC objects. -/
inductive Dpc where
  | dpc_queue | dpc_reset | dpc_multiplex | dpc_overflow
deriving DecidableEq, Repr

/-- The calls `free_pmu_resource` and `get_pmu_resource` make to the host, one
constructor per kernel routine. `HalAllocateHardwareCounters` carries the
counter indices of the descriptors of the request and the status returned;
`HalFreeHardwareCounters` the handle passed; `KeSetHardwareCounterConfiguration`
the counter index of the descriptor and the status returned; the per-core
routines carry the index of the core whose object they are applied to. -/
inductive DevEffect where
  | HalAllocateHardwareCounters (CounterIndex : List Nat) (status : NTSTATUS)
  | HalFreeHardwareCounters (handle : Option Nat)
  | ExAllocatePool2 (ok : Bool)
  | ExFreePoolWithTag
  | KeSetHardwareCounterConfiguration (Index : Nat) (status : NTSTATUS)
  | KeSetImportanceDpc (core : Nat) (dpc : Dpc)
  | KeInsertQueueDpc (core : Nat) (dpc : Dpc)
  | KeCancelTimer (core : Nat)
  | KeRemoveQueueDpc (core : Nat) (dpc : Dpc)
deriving DecidableEq, Repr

/-- What the host answers during one run of `get_pmu_resource`.
`HalAllocateSingle i` is the status of the single-slot request for slot `i` and
the handle it stores on success; `HalAllocateBulk` the same for the bulk
request, given its counter indices; `ExAllocatePool2` says whether the pool
allocation returns non-NULL; `KeSetHardwareCounterConfiguration i` is the
status of the call made in iteration `i` of the configuration loop. A failed
`HalAllocateHardwareCounters` is taken to leave the caller's handle variable as
it was. -/
structure Host where
  CorePmcrGet : Nat
  KeQueryActiveProcessorCountEx : Nat
  HalAllocateSingle : Nat → NTSTATUS × Nat
  ExAllocatePool2 : Bool
  HalAllocateBulk : List Nat → NTSTATUS × Nat
  KeSetHardwareCounterConfiguration : Nat → NTSTATUS

/-- The globals of `device.c` that `free_pmu_resource` and `get_pmu_resource`
read or write, and the list of host calls made so far. `pmc_resource_handle` is
`none` for `NULL`; `counter_idx_map[k]` is `counter_idx_map k`; `core_info[i]`
is `core_info i`. -/
structure Driver where
  numCores : Nat
  numGPC : Nat
  numFreeGPC : Nat
  pmc_resource_handle : Option Nat
  counter_idx_map : Nat → Nat
  core_info : Nat → CoreSlots
  calls : List DevEffect

/-- A loop `for (i = 0; i < n; i++) body` without early exit. -/
def forRange {σ : Type} (n : Nat) (body : Nat → σ → σ) (s : σ) : σ :=
  (List.range n).foldl (fun s i => body i s) s

/-- Append one host call to the list of calls. -/
def Driver.call (s : Driver) (e : DevEffect) : Driver :=
  { s with calls := s.calls ++ [e] }

/-- Apply `f` to `core_info[i]`. -/
def Driver.onCore (s : Driver) (i : Nat) (f : CoreSlots → CoreSlots) : Driver :=
  { s with core_info := fun j => if j = i then f (s.core_info j) else s.core_info j }

/-! ## Counter reservation: the code -/

/-- `free_pmu_resource`. `status` is what `HalFreeHardwareCounters` returns if
it is called; it only selects the message printed. -/
def free_pmu_resource (status : NTSTATUS) (s : Driver) : Driver :=
  let s := forRange s.numCores (fun i s =>
    let s := s.call (DevEffect.KeCancelTimer i)
    let s := s.onCore i fun core => { core with timer_running := 0 }
    let s := s.call (DevEffect.KeRemoveQueueDpc i Dpc.dpc_queue)
    let s := s.call (DevEffect.KeRemoveQueueDpc i Dpc.dpc_reset)
    let s := s.call (DevEffect.KeRemoveQueueDpc i Dpc.dpc_multiplex)
    let s := s.call (DevEffect.KeRemoveQueueDpc i Dpc.dpc_overflow)
    s) s
  if s.pmc_resource_handle ≠ none then
    let s := s.call (DevEffect.HalFreeHardwareCounters s.pmc_resource_handle)
    let s := { s with pmc_resource_handle := none }
    if status ≠ NTSTATUS.STATUS_SUCCESS then s else s
  else
    s

/-- The driver state together with the locals `numFreeCounters` and `status`
of `get_pmu_resource` during the probing loop. -/
structure Probe where
  drv : Driver
  numFreeCounters : Nat
  status : NTSTATUS

/-- The body of the probing loop for slot `i`: a single-slot request; on
`STATUS_SUCCESS` the slot is recorded in `counter_idx_map[numFreeCounters]`,
`numFreeCounters` is incremented and the reservation just obtained is
released. -/
def probeSlot (host : Host) (i : Nat) (p : Probe) : Probe :=
  let r := host.HalAllocateSingle i
  let status := r.1
  let drv := p.drv.call (DevEffect.HalAllocateHardwareCounters [i] status)
  if status = NTSTATUS.STATUS_SUCCESS then
    let drv := { drv with pmc_resource_handle := some r.2 }
    let drv := { drv with counter_idx_map := fun k =>
      if k = p.numFreeCounters then i else drv.counter_idx_map k }
    let numFreeCounters := p.numFreeCounters + 1
    let drv := drv.call (DevEffect.HalFreeHardwareCounters drv.pmc_resource_handle)
    { drv := drv, numFreeCounters := numFreeCounters, status := status }
  else
    { drv := drv, numFreeCounters := p.numFreeCounters, status := status }

/-- `numGPC = (pmcr >> ARMV8_PMCR_N_SHIFT) & ARMV8_PMCR_N_MASK;` stored in a
`UINT8`. -/
def numGPC_of (pmcr : Nat) : Nat :=
  ((pmcr >>> ARMV8_PMCR_N_SHIFT) &&& ARMV8_PMCR_N_MASK) % 256

/-- The start of `get_pmu_resource` up to the end of "1) Query for free PMU
counters": `numGPC` and `numCores` are read, `counter_idx_map` is zeroed and
every slot `0..numGPC-1` is probed. The `UINT8` counters `i` and
`numFreeCounters` stay at most `numGPC <= 31`. -/
def queryFree (host : Host) (s : Driver) : Probe :=
  let pmcr := host.CorePmcrGet
  let s := { s with numGPC := numGPC_of pmcr }
  let s := { s with numCores := host.KeQueryActiveProcessorCountEx }
  let s := { s with counter_idx_map := fun _ => 0 }
  forRange s.numGPC (probeSlot host)
    { drv := s, numFreeCounters := 0, status := NTSTATUS.STATUS_SUCCESS }

/-- "2) Alloc PMU counters that are free": the pool allocation, the bulk
request listing `counter_idx_map[0..numFreeCounters-1]`, and the two failure
returns. The first component is the status returned early, `none` when the
function goes on. -/
def allocFree (host : Host) (numFreeCounters : Nat) (s : Driver) : Option NTSTATUS × Driver :=
  let s := s.call (DevEffect.ExAllocatePool2 host.ExAllocatePool2)
  if !host.ExAllocatePool2 then
    (some NTSTATUS.STATUS_INSUFFICIENT_RESOURCES, s)
  else
    let CounterResourceList := (List.range numFreeCounters).map s.counter_idx_map
    let r := host.HalAllocateBulk CounterResourceList
    let status := r.1
    let s := s.call (DevEffect.HalAllocateHardwareCounters CounterResourceList status)
    let s := if status = NTSTATUS.STATUS_SUCCESS then
      { s with pmc_resource_handle := some r.2 } else s
    let s := s.call DevEffect.ExFreePoolWithTag
    if status = NTSTATUS.STATUS_INSUFFICIENT_RESOURCES then
      (some status, s)
    else if status ≠ NTSTATUS.STATUS_SUCCESS then
      (some status, s)
    else
      (none, s)

/-- The thread-profiling loop `for (int i = 0; i < numFreeGPC; i++)` over the
remaining indices: `STATUS_WMI_ALREADY_ENABLED` is only reported, any other
status than `STATUS_SUCCESS` is returned at once. The first component is the
status returned early, `none` when the loop runs to its end. -/
def configLoop (host : Host) : List Nat → Driver → Option NTSTATUS × Driver
  | [], s => (none, s)
  | i :: rest, s =>
    let status := host.KeSetHardwareCounterConfiguration i
    let s := s.call (DevEffect.KeSetHardwareCounterConfiguration (s.counter_idx_map i) status)
    if status = NTSTATUS.STATUS_WMI_ALREADY_ENABLED then
      configLoop host rest s
    else if status ≠ NTSTATUS.STATUS_SUCCESS then
      (some status, s)
    else
      configLoop host rest s

/-- `RtlCopyMemory(events + k, src, sizeof(struct pmu_event_kernel))`: entry `k`
becomes `e`, every other entry is kept. -/
def copyEvent (events : Nat → pmu_event_kernel) (k : Nat) (e : pmu_event_kernel) :
    Nat → pmu_event_kernel :=
  fun j => if j = k then e else events j

/-- The body of the first per-core loop: `core->idx = i; core->events_num =
numFPC + numFreeGPC;`, the copy of `default_events[0..events_num-1]` and the
queueing of `dpc_queue`. -/
def assignCore (A : ArchDefs) (i : Nat) (s : Driver) : Driver :=
  let s := s.onCore i fun core => { core with idx := i }
  let s := s.onCore i fun core => { core with events_num := numFPC + s.numFreeGPC }
  let s := forRange (s.core_info i).events_num (fun k s =>
    s.onCore i fun core => { core with events := copyEvent core.events k (default_event A k) }) s
  let s := s.call (DevEffect.KeSetImportanceDpc i Dpc.dpc_queue)
  let s := s.call (DevEffect.KeInsertQueueDpc i Dpc.dpc_queue)
  s

/-- The body of the second per-core loop: `core->timer_round = 0;` and the
queueing of `dpc_reset`. -/
def resetCore (i : Nat) (s : Driver) : Driver :=
  let s := s.onCore i fun core => { core with timer_round := 0 }
  let s := s.call (DevEffect.KeInsertQueueDpc i Dpc.dpc_reset)
  s

/-- `get_pmu_resource`. Returns the status and the new driver state (whose
`calls` has the host calls appended in program order). The `KdPrintEx` lines
and the loop that prints `counter_idx_map` in debug builds change nothing in
the state and are left out. -/
def get_pmu_resource (A : ArchDefs) (host : Host) (s : Driver) : NTSTATUS × Driver :=
  let p := queryFree host s
  let s := p.drv
  let numFreeCounters := p.numFreeCounters
  if numFreeCounters = 0 then
    (NTSTATUS.STATUS_INSUFFICIENT_RESOURCES, s)
  else
    let s := { s with counter_idx_map := fun k =>
      if k = CYCLE_COUNTER_IDX then CYCLE_COUNTER_IDX else s.counter_idx_map k }
    match allocFree host numFreeCounters s with
    | (some status, s) => (status, s)
    | (none, s) =>
      let s := { s with numFreeGPC := numFreeCounters }
      match configLoop host (List.range s.numFreeGPC) s with
      | (some status, s) => (status, s)
      | (none, s) =>
        let s := forRange s.numCores (assignCore A) s
        let s := forRange s.numCores resetCore s
        (NTSTATUS.STATUS_SUCCESS, s)

/-! ## Reading the list of host calls -/

/-- The slots `0..n-1` whose single-slot request the host answers with
`STATUS_SUCCESS`, in increasing order. -/
def freeSlots (host : Host) (n : Nat) : List Nat :=
  (List.range n).filter fun i => (host.HalAllocateSingle i).1 = NTSTATUS.STATUS_SUCCESS

/-- The host calls of one iteration of the probing loop. -/
def probeCalls (host : Host) (i : Nat) : List DevEffect :=
  if (host.HalAllocateSingle i).1 = NTSTATUS.STATUS_SUCCESS then
    [DevEffect.HalAllocateHardwareCounters [i] NTSTATUS.STATUS_SUCCESS,
     DevEffect.HalFreeHardwareCounters (some (host.HalAllocateSingle i).2)]
  else
    [DevEffect.HalAllocateHardwareCounters [i] (host.HalAllocateSingle i).1]

/-- The call made in iteration `i` of the thread-profiling loop: the
descriptor's index is `counter_idx_map[i]`, the status is the host's answer. -/
def configCall (host : Host) (s : Driver) (i : Nat) : DevEffect :=
  DevEffect.KeSetHardwareCounterConfiguration (s.counter_idx_map i)
    (host.KeSetHardwareCounterConfiguration i)

/-- An `events` array whose first `n` entries have been overwritten with
those of `default_events`. -/
def copiedEvents (A : ArchDefs) (n : Nat) (events : Nat → pmu_event_kernel) :
    Nat → pmu_event_kernel :=
  fun k => if k < n then default_event A k else events k

/-- The record of core `i` once the first per-core loop has handled it, with
`m` the value of `numFreeGPC`: `idx = i`, `events_num = numFPC + m`, and the
first `events_num` entries of `events` are those of `default_events`. -/
def assigned (A : ArchDefs) (m i : Nat) (c : CoreSlots) : CoreSlots :=
  { c with
    idx := i
    events_num := numFPC + m
    events := copiedEvents A (numFPC + m) c.events }

/-- The array `core_info` with `f` applied to entry `i`. -/
def atCore (i : Nat) (f : CoreSlots → CoreSlots) (ci : Nat → CoreSlots) : Nat → CoreSlots :=
  fun j => if j = i then f (ci j) else ci j

/-- The array `core_info` with `f j` applied to every entry `j < n`. -/
def belowCore (n : Nat) (f : Nat → CoreSlots → CoreSlots) (ci : Nat → CoreSlots) :
    Nat → CoreSlots :=
  fun j => if j < n then f j (ci j) else ci j

/-- The host calls of the first per-core loop for core `i`. -/
def assignCalls (i : Nat) : List DevEffect :=
  [DevEffect.KeSetImportanceDpc i Dpc.dpc_queue, DevEffect.KeInsertQueueDpc i Dpc.dpc_queue]

/-- The free slots found by the probing loop of `get_pmu_resource` on this
host. -/
def probedSlots (host : Host) : List Nat :=
  freeSlots host (numGPC_of host.CorePmcrGet)

/-- The state after `counter_idx_map[CYCLE_COUNTER_IDX] = CYCLE_COUNTER_IDX;`. -/
def cycleMapped (s : Driver) : Driver :=
  { s with counter_idx_map := fun k =>
      if k = CYCLE_COUNTER_IDX then CYCLE_COUNTER_IDX else s.counter_idx_map k }

/-- The three calls of a bulk request that reaches the host. -/
def bulkCalls (slots : List Nat) (status : NTSTATUS) : List DevEffect :=
  [DevEffect.ExAllocatePool2 true, DevEffect.HalAllocateHardwareCounters slots status,
   DevEffect.ExFreePoolWithTag]

/-- The calls of the second per-core loop over `n` cores. -/
def resetCalls (n : Nat) : List DevEffect :=
  (List.range n).map fun i => DevEffect.KeInsertQueueDpc i Dpc.dpc_reset

/-- The calls of `free_pmu_resource` for core `i`. -/
def cancelCalls (i : Nat) : List DevEffect :=
  [DevEffect.KeCancelTimer i, DevEffect.KeRemoveQueueDpc i Dpc.dpc_queue,
   DevEffect.KeRemoveQueueDpc i Dpc.dpc_reset, DevEffect.KeRemoveQueueDpc i Dpc.dpc_multiplex,
   DevEffect.KeRemoveQueueDpc i Dpc.dpc_overflow]

/-- The status is one the thread-profiling loop goes on after. -/
def tolerated (status : NTSTATUS) : Bool :=
  status = NTSTATUS.STATUS_SUCCESS || status = NTSTATUS.STATUS_WMI_ALREADY_ENABLED

/-- The counter indices passed to `KeSetHardwareCounterConfiguration`, in
call order. -/
def configured : List DevEffect → List Nat
  | [] => []
  | DevEffect.KeSetHardwareCounterConfiguration idx _ :: tr => idx :: configured tr
  | _ :: tr => configured tr

/-- The call queues a DPC. -/
def isInsertQueueDpc : DevEffect → Bool
  | DevEffect.KeInsertQueueDpc _ _ => true
  | _ => false

/-- The call is a `HalFreeHardwareCounters`. -/
def isHalFree : DevEffect → Bool
  | DevEffect.HalFreeHardwareCounters _ => true
  | _ => false

/-- The driver state without its list of host calls. -/
def Driver.globals (s : Driver) : Driver := { s with calls := [] }

/-! ## Concrete hosts and driver states -/

/-- Enumerator values and filter bit used in the examples. -/
def archA : ArchDefs :=
  { PMU_EVENT := fun a => match a with
      | ArchEvent.INST_RETIRED => 0x08 | ArchEvent.STALL_FRONTEND => 0x23
      | ArchEvent.STALL_BACKEND => 0x24 | ArchEvent.L1I_CACHE_REFILL => 0x01
      | ArchEvent.L1I_CACHE => 0x14 | ArchEvent.L1D_CACHE_REFILL => 0x03
      | ArchEvent.L1D_CACHE => 0x04 | ArchEvent.BR_RETIRED => 0x21
      | ArchEvent.BR_MIS_PRED_RETIRED => 0x22 | ArchEvent.INST_SPEC => 0x1B
      | ArchEvent.ASE_SPEC => 0x74 | ArchEvent.VFP_SPEC => 0x75
      | ArchEvent.BUS_ACCESS => 0x19 | ArchEvent.BUS_CYCLES => 0x1D
      | ArchEvent.LDST_SPEC => 0x72 | ArchEvent.DP_SPEC => 0x73
      | ArchEvent.CRYPTO_SPEC => 0x77 | ArchEvent.STREX_FAIL_SPEC => 0x6E
      | ArchEvent.BR_IMMED_SPEC => 0x78 | ArchEvent.BR_RETURN_SPEC => 0x79
      | ArchEvent.BR_INDIRECT_SPEC => 0x7A | ArchEvent.L2I_CACHE => 0x27
      | ArchEvent.L2I_CACHE_REFILL => 0x28 | ArchEvent.L2D_CACHE => 0x16
      | ArchEvent.L2D_CACHE_REFILL => 0x17 | ArchEvent.L1I_TLB => 0x26
      | ArchEvent.L1I_TLB_REFILL => 0x02 | ArchEvent.L1D_TLB => 0x25
      | ArchEvent.L1D_TLB_REFILL => 0x05 | ArchEvent.L2I_TLB => 0x30
      | ArchEvent.L2I_TLB_REFILL => 0x2E,
    FILTER_EXCL_EL1 := 1 }

/-- A freshly loaded driver on a machine whose `core_info` is zeroed. -/
def driverA : Driver :=
  { numCores := 0, numGPC := 0, numFreeGPC := 0, pmc_resource_handle := none,
    counter_idx_map := fun _ => 0,
    core_info := fun _ =>
      { idx := 0, events_num := 0, events := fun _ => ⟨0, 0, 0, 0⟩,
        timer_round := 0, timer_running := 0 },
    calls := [] }

/-- A host with 2 cores and 4 general-purpose counters (PMCR.N = 4) of which
slot 1 is held by someone else; everything else succeeds. -/
def hostA : Host :=
  { CorePmcrGet := 0x2000, KeQueryActiveProcessorCountEx := 2,
    HalAllocateSingle := fun i =>
      if i = 1 then (NTSTATUS.STATUS_INSUFFICIENT_RESOURCES, 0) else (NTSTATUS.STATUS_SUCCESS, 100 + i),
    ExAllocatePool2 := true,
    HalAllocateBulk := fun _ => (NTSTATUS.STATUS_SUCCESS, 200),
    KeSetHardwareCounterConfiguration := fun i =>
      if i = 0 then NTSTATUS.STATUS_WMI_ALREADY_ENABLED else NTSTATUS.STATUS_SUCCESS }

/-- The host `hostA` with every slot held by someone else. -/
def hostNoFree : Host :=
  { hostA with HalAllocateSingle := fun _ => (NTSTATUS.STATUS_INSUFFICIENT_RESOURCES, 0) }

/-- The host `hostA` refusing the bulk request. -/
def hostBulkFails : Host :=
  { hostA with HalAllocateBulk := fun _ => (NTSTATUS.STATUS_INSUFFICIENT_RESOURCES, 0) }

/-- The host `hostA` failing the first thread-profiling configuration. -/
def hostConfigFails : Host :=
  { hostA with KeSetHardwareCounterConfiguration := fun _ => NTSTATUS.other 0xC0000001 }

/-- The effects of a list, each paired with whether `SampleLock` is held by the
ISR when the effect happens: a successful try-acquire takes the lock, a release
gives it back. -/
def withLock : Bool → List Effect → List (Effect × Bool)
  | _, [] => []
  | held, Effect.tryAcquireSampleLock true :: tr =>
    (Effect.tryAcquireSampleLock true, held) :: withLock true tr
  | held, Effect.releaseSampleLock :: tr => (Effect.releaseSampleLock, held) :: withLock false tr
  | held, e :: tr => (e, held) :: withLock held tr

/-- Number of counter writes made while the ISR holds `SampleLock`. -/
def writesUnderLock (tr : List Effect) : Nat :=
  (withLock false tr).countP fun p => (counterWritten p.1).isSome && p.2

/-- Number of counter writes made while the ISR does not hold `SampleLock`. -/
def writesWithoutLock (tr : List Effect) : Nat :=
  (withLock false tr).countP fun p => (counterWritten p.1).isSome && !p.2

/-- Number of hardware-counter reservations obtained and not yet given back
after a list of host calls, starting from `n`: a `HalAllocateHardwareCounters`
that returns `STATUS_SUCCESS` obtains one, a `HalFreeHardwareCounters` gives one
back. -/
def heldCount : List DevEffect → Nat → Nat
  | [], n => n
  | DevEffect.HalAllocateHardwareCounters _ NTSTATUS.STATUS_SUCCESS :: tr, n => heldCount tr (n + 1)
  | DevEffect.HalFreeHardwareCounters _ :: tr, n => heldCount tr (n - 1)
  | _ :: tr, n => heldCount tr n

/-- The handles passed to `HalFreeHardwareCounters`, in call order. -/
def freedHandles : List DevEffect → List (Option Nat)
  | [] => []
  | DevEffect.HalFreeHardwareCounters h :: tr => h :: freedHandles tr
  | _ :: tr => freedHandles tr

/-! ## Device creation and teardown: data model and code

The embedding of `FileCreate`, `FileClose`, `WindowsPerfDeviceQueryRemove`,
`WindowsPerfDeviceIOCleanup` and `WindowsPerfDeviceCreate` from
`wperf-driver/device.c`. -/

/-- `STATUS_FAIL_CHECK` of ntstatus.h, an error status. -/
def STATUS_FAIL_CHECK : NTSTATUS := NTSTATUS.other 0xC0000229

/-- The macro `NT_SUCCESS(status)`: the status, read as a signed 32-bit value,
is not negative. The two error codes that are constructors of `NTSTATUS` have
their top bit set. -/
def NT_SUCCESS : NTSTATUS → Bool
  | NTSTATUS.STATUS_SUCCESS => true
  | NTSTATUS.STATUS_INSUFFICIENT_RESOURCES => false
  | NTSTATUS.STATUS_WMI_ALREADY_ENABLED => false
  | NTSTATUS.other code => code % 2 ^ 32 < 2 ^ 31

/-- The fields of `DEVICE_EXTENSION` used in `device.c`. The declaration is in a
header that is not among the sources; `InUse` is an integer here. -/
structure DEVICE_EXTENSION where
  PrivateDeviceData : Nat
  InUse : Int
  AskedToRemove : Nat
deriving DecidableEq, Repr

/-- `FileCreate`: `pDevExt->InUse++` (the request is then completed). -/
def FileCreate (pDevExt : DEVICE_EXTENSION) : DEVICE_EXTENSION :=
  { pDevExt with InUse := pDevExt.InUse + 1 }

/-- `FileClose`: `pDevExt->InUse--`. -/
def FileClose (pDevExt : DEVICE_EXTENSION) : DEVICE_EXTENSION :=
  { pDevExt with InUse := pDevExt.InUse - 1 }

/-- A call of one of the two file-object callbacks. -/
inductive FileEvent where
  | create
  | close
deriving DecidableEq, Repr

/-- The device extension after a sequence of file-object callbacks, run one
after the other. -/
def fileEvents (evs : List FileEvent) (d : DEVICE_EXTENSION) : DEVICE_EXTENSION :=
  evs.foldl (fun d e => match e with
    | FileEvent.create => FileCreate d
    | FileEvent.close => FileClose d) d

/-- The steps of `WindowsPerfDeviceQueryRemove`. -/
inductive RemoveStep where
  | setAskedToRemove
  | setRunning (v : Nat)
  | waitEvt
  | waitSyncResetDpc
  | KeRemoveQueueDpc (core : Nat) (dpc : Dpc)
  | KeCancelTimer (core : Nat)
  | WdfWorkItemFlush
deriving DecidableEq, Repr

/-- The result of a run of `WindowsPerfDeviceQueryRemove` that returns: the
status, the device extension and `running` at the return, the value of `InUse`
that ended the polling loop, and the steps in program order. Nothing waits
after the wait on `sync_reset_dpc`, so `ext.InUse` is also the value of `InUse`
while the DPCs and timers are cancelled. -/
structure RemoveResult where
  status : NTSTATUS
  ext : DEVICE_EXTENSION
  running : Nat
  observed : Int
  steps : List RemoveStep

/-- The polling loop `while (pDevExt->InUse) KeWaitForSingleObject(&evt, ...)`.
`env` lists, wait after wait, the file-object callbacks that other threads run
while this thread waits. Returns the extension when `InUse == 0` is read, the
rest of `env` and the number of waits; `none` if `env` ends while the loop is
still waiting. -/
def pollInUse : List (List FileEvent) → DEVICE_EXTENSION → Nat →
    Option (DEVICE_EXTENSION × List (List FileEvent) × Nat)
  | [], d, waits => if d.InUse = 0 then some (d, [], waits) else none
  | batch :: env, d, waits =>
    if d.InUse = 0 then some (d, batch :: env, waits)
    else pollInUse env (fileEvents batch d) (waits + 1)

/-- The per-core cancellations of `WindowsPerfDeviceQueryRemove` for core `i`. -/
def removeCalls (i : Nat) : List RemoveStep :=
  [RemoveStep.KeRemoveQueueDpc i Dpc.dpc_queue, RemoveStep.KeRemoveQueueDpc i Dpc.dpc_reset,
   RemoveStep.KeRemoveQueueDpc i Dpc.dpc_overflow, RemoveStep.KeRemoveQueueDpc i Dpc.dpc_multiplex,
   RemoveStep.KeCancelTimer i]

/-- `WindowsPerfDeviceQueryRemove`. `env` is as in `pollInUse`; the wait on
`sync_reset_dpc` that follows the polling loop is one more wait, during which
the next batch of `env` (if any) runs. `none` when the polling loop does not
end within `env`. -/
def WindowsPerfDeviceQueryRemove (numCores : Nat) (env : List (List FileEvent))
    (pDevExt : DEVICE_EXTENSION) : Option RemoveResult :=
  let pDevExt := { pDevExt with AskedToRemove := 1 }
  let running := 0
  match pollInUse env pDevExt 0 with
  | none => none
  | some (d, rest, waits) =>
    let observed := d.InUse
    let d := fileEvents (rest.headD []) d
    some
      { status := NTSTATUS.STATUS_SUCCESS
        ext := d
        running := running
        observed := observed
        steps := [RemoveStep.setAskedToRemove, RemoveStep.setRunning 0] ++
          List.replicate waits RemoveStep.waitEvt ++ [RemoveStep.waitSyncResetDpc] ++
          (List.range numCores).flatMap removeCalls ++ [RemoveStep.WdfWorkItemFlush] }

/-- The steps of `WindowsPerfDeviceIOCleanup`. `pmu e` is a host call made by
`free_pmu_resource`; `nullAccess i` is the store `core->timer_running = 0` of
`free_pmu_resource` for core `i` made while `core_info` is NULL, after which
nothing runs; `MmUnmapIoSpace i` unmaps `dmc_array.dmcs[i]`;
`HalSetSystemInformation` is the call that uninstalls the PMI handler. -/
inductive CleanupStep where
  | setAskedToRemove
  | setRunning (v : Nat)
  | pmu (e : DevEffect)
  | nullAccess (core : Nat)
  | freeCoreInfo
  | freeLastFpcRead
  | spe_destroy
  | MmUnmapIoSpace (i : Nat)
  | freeDmcs
  | HalSetSystemInformation (status : NTSTATUS)
deriving DecidableEq, Repr

/-- What `WindowsPerfDeviceIOCleanup` finds: the driver globals (`drv`), whether
`core_info` and `last_fpc_read` are non-NULL, `dmc_array.dmc_num` when
`dmc_array.dmcs` is non-NULL, and the statuses the host returns to
`HalFreeHardwareCounters` and `HalSetSystemInformation`. -/
structure CleanupInput where
  drv : Driver
  core_info : Bool
  last_fpc_read : Bool
  dmcs : Option Nat
  HalFreeHardwareCounters : NTSTATUS
  HalSetSystemInformation : NTSTATUS

/-- `WindowsPerfDeviceIOCleanup`: its steps in program order. When `core_info`
is NULL and `numCores > 0`, the first pass of the per-core loop of
`free_pmu_resource` passes `&core->timer`, an address computed from NULL, to
`KeCancelTimer` and then stores to `core->timer_running` through the NULL
pointer: the run ends there, with `nullAccess 0` as the last step, and the
function does not return. Otherwise `free_pmu_resource` runs on allocated
per-core records (or its loop has no pass) and the function runs to its end. -/
def WindowsPerfDeviceIOCleanup (c : CleanupInput) : List CleanupStep :=
  let steps := [CleanupStep.setAskedToRemove]
  let steps := steps ++ [CleanupStep.setRunning 0]
  if c.core_info = false ∧ 0 < c.drv.numCores then
    steps ++ [CleanupStep.pmu (DevEffect.KeCancelTimer 0), CleanupStep.nullAccess 0]
  else
    let steps := steps ++
      (free_pmu_resource c.HalFreeHardwareCounters { c.drv with calls := [] }).calls.map
        CleanupStep.pmu
    let steps := if c.core_info then steps ++ [CleanupStep.freeCoreInfo] else steps
    let steps := if c.last_fpc_read then steps ++ [CleanupStep.freeLastFpcRead] else steps
    let steps := steps ++ [CleanupStep.spe_destroy]
    let steps := match c.dmcs with
      | some dmc_num =>
        steps ++ (List.range dmc_num).map CleanupStep.MmUnmapIoSpace ++ [CleanupStep.freeDmcs]
      | none => steps
    steps ++ [CleanupStep.HalSetSystemInformation c.HalSetSystemInformation]

/-- The calls of `WindowsPerfDeviceCreate` kept in the embedding. -/
inductive CreateCall where
  | WdfDeviceCreate (status : NTSTATUS)
  | WdfDeviceCreateDeviceInterface (status : NTSTATUS)
  | WindowsPerfQueueInitialize (status : NTSTATUS)
  | CpuHasLongEventSupportSet (v : Nat)
  | ExAllocatePool2 (tag : String) (ok : Bool)
  | spe_setup (numCores : Nat) (status : NTSTATUS)
  | KeGetProcessorNumberFromIndex (core : Nat) (status : NTSTATUS)
  | KeInitializeSpinLock (core : Nat)
  | KeInitializeDpc (core : Nat) (dpc : Dpc)
  | KeSetTargetProcessorDpcEx (core : Nat) (dpc : Dpc)
  | KeSetImportanceDpc (core : Nat) (dpc : Dpc)
  | KeInsertQueueDpc (core : Nat) (dpc : Dpc)
  | KeInitializeEvent
  | HalSetSystemInformation (status : NTSTATUS)
deriving DecidableEq, Repr

/-- What the host answers during one run of `WindowsPerfDeviceCreate`: the
statuses of the framework calls, the values of the ID registers, the results of
the macros `ID_AA64DFR0_EL1_PMSVer` and `ID_AA64DFR0_EL1_PMUVer` (a header that
is not among the sources) as functions of the register value, the processor
count, whether the two pool allocations return non-NULL, and the statuses of
`spe_setup`, of `KeGetProcessorNumberFromIndex` and of
`KeSetTargetProcessorDpcEx` on `dpc_queue` for each core, and of
`HalSetSystemInformation`. -/
structure CreateHost where
  WdfDeviceCreate : NTSTATUS
  WdfDeviceCreateDeviceInterface : NTSTATUS
  WindowsPerfQueueInitialize : NTSTATUS
  ID_DFR0_EL1 : Nat
  MIDR_EL1 : Nat
  ID_AA64DFR0_EL1 : Nat
  PMBIDR_EL1 : Nat
  PMSIDR_EL1 : Nat
  PMSVer : Nat → Nat
  PMUVer : Nat → Nat
  KeQueryActiveProcessorCountEx : Nat
  allocCoreInfo : Bool
  spe_setup : NTSTATUS
  allocLastFpcRead : Bool
  KeGetProcessorNumberFromIndex : Nat → NTSTATUS
  KeSetTargetProcessorDpcEx : Nat → NTSTATUS
  HalSetSystemInformation : NTSTATUS

/-- The globals `WindowsPerfDeviceCreate` writes. `core_info` and
`last_fpc_read` say whether the pointer is non-NULL; `coreIdx i` is
`core_info[i].idx`; `ext` is the device extension, present once `WdfDeviceCreate`
has succeeded. -/
structure DeviceGlobals where
  dfr0_value : Nat
  midr_value : Nat
  id_aa64dfr0_el1_value : Nat
  pmbidr_el1_value : Nat
  pmsidr_el1_value : Nat
  numCores : Nat
  core_info : Bool
  coreIdx : Nat → Nat
  last_fpc_read : Bool
  ext : Option DEVICE_EXTENSION
  calls : List CreateCall

/-- Append one call to the list of calls. -/
def DeviceGlobals.call (g : DeviceGlobals) (e : CreateCall) : DeviceGlobals :=
  { g with calls := g.calls ++ [e] }

/-- `core_info[i].idx = v`. -/
def setCoreIdx (coreIdx : Nat → Nat) (i v : Nat) : Nat → Nat :=
  fun j => if j = i then v else coreIdx j

/-- The calls of one iteration of the per-core loop of `WindowsPerfDeviceCreate`
that follow the successful `KeSetTargetProcessorDpcEx` on `dpc_queue`. -/
def coreDpcCalls (i : Nat) : List CreateCall :=
  [CreateCall.KeSetImportanceDpc i Dpc.dpc_queue, CreateCall.KeInsertQueueDpc i Dpc.dpc_queue,
   CreateCall.KeInitializeDpc i Dpc.dpc_overflow, CreateCall.KeInitializeDpc i Dpc.dpc_multiplex,
   CreateCall.KeInitializeDpc i Dpc.dpc_reset,
   CreateCall.KeSetTargetProcessorDpcEx i Dpc.dpc_overflow,
   CreateCall.KeSetTargetProcessorDpcEx i Dpc.dpc_multiplex,
   CreateCall.KeSetTargetProcessorDpcEx i Dpc.dpc_reset,
   CreateCall.KeSetImportanceDpc i Dpc.dpc_overflow,
   CreateCall.KeSetImportanceDpc i Dpc.dpc_multiplex,
   CreateCall.KeSetImportanceDpc i Dpc.dpc_reset]

/-- The per-core loop of `WindowsPerfDeviceCreate` over the remaining cores. The
first component is the status returned from inside the loop, `none` when the
loop runs to its end. -/
def perCoreInit (host : CreateHost) : List Nat → DeviceGlobals → Option NTSTATUS × DeviceGlobals
  | [], g => (none, g)
  | i :: rest, g =>
    let g := { g with coreIdx := setCoreIdx g.coreIdx i i }
    let status := host.KeGetProcessorNumberFromIndex i
    let g := g.call (CreateCall.KeGetProcessorNumberFromIndex i status)
    if status ≠ NTSTATUS.STATUS_SUCCESS then
      (some status, g)
    else
      let g := g.call (CreateCall.KeInitializeSpinLock i)
      let g := g.call (CreateCall.KeInitializeDpc i Dpc.dpc_queue)
      let status := host.KeSetTargetProcessorDpcEx i
      let g := g.call (CreateCall.KeSetTargetProcessorDpcEx i Dpc.dpc_queue)
      if status ≠ NTSTATUS.STATUS_SUCCESS then
        (some status, g)
      else
        let g := { g with calls := g.calls ++ coreDpcCalls i }
        perCoreInit host rest g

/-- The framework steps at the start of `WindowsPerfDeviceCreate`:
`WdfDeviceCreate`, then, nested under `NT_SUCCESS(status)`, the initialisation
of the device extension, `WdfDeviceCreateDeviceInterface` and
`WindowsPerfQueueInitialize`. Returns the value of the local `status` after
them. -/
def frameworkSteps (host : CreateHost) (g : DeviceGlobals) : NTSTATUS × DeviceGlobals :=
  let status := host.WdfDeviceCreate
  let g := g.call (CreateCall.WdfDeviceCreate status)
  if NT_SUCCESS status then
    let g := { g with ext := some { PrivateDeviceData := 0, InUse := 0, AskedToRemove := 0 } }
    let status := host.WdfDeviceCreateDeviceInterface
    let g := g.call (CreateCall.WdfDeviceCreateDeviceInterface status)
    if NT_SUCCESS status then
      let status := host.WindowsPerfQueueInitialize
      let g := g.call (CreateCall.WindowsPerfQueueInitialize status)
      (status, g)
    else
      (status, g)
  else
    (status, g)

/-- `int pmu_ver = (dfr0_value >> 8) & 0xf;`. -/
def pmu_ver_of (dfr0_value : Nat) : Nat := (dfr0_value >>> 8) &&& 0xf

/-- `WindowsPerfDeviceCreate`. Returns the status and the globals (with the
calls appended in program order). The `KdPrintEx` lines and the debug-only
decoding of MIDR change nothing and are left out; `_status` is the local
`status` left by the framework steps, which the code does not test before
going on. -/
def WindowsPerfDeviceCreate (host : CreateHost) (g : DeviceGlobals) : NTSTATUS × DeviceGlobals :=
  let r := frameworkSteps host g
  let _status := r.1
  let g := r.2
  let g := { g with dfr0_value := host.ID_DFR0_EL1 }
  let pmu_ver := pmu_ver_of g.dfr0_value
  if pmu_ver = 0 then
    (STATUS_FAIL_CHECK, g)
  else
    let g := { g with midr_value := host.MIDR_EL1 }
    let g := if pmu_ver = 6 ∨ pmu_ver = 7 then g.call (CreateCall.CpuHasLongEventSupportSet 1) else g
    let g := { g with id_aa64dfr0_el1_value := host.ID_AA64DFR0_EL1 }
    let aa64_pms_ver := host.PMSVer g.id_aa64dfr0_el1_value % 256
    let _aa64_pmu_ver := host.PMUVer g.id_aa64dfr0_el1_value % 256
    let g := if aa64_pms_ver ≥ 1 then
      { g with pmbidr_el1_value := host.PMBIDR_EL1, pmsidr_el1_value := host.PMSIDR_EL1 } else g
    let g := { g with numCores := host.KeQueryActiveProcessorCountEx }
    let g := { g with core_info := host.allocCoreInfo }
    let g := g.call (CreateCall.ExAllocatePool2 "CORE" host.allocCoreInfo)
    if !g.core_info then
      (NTSTATUS.STATUS_INSUFFICIENT_RESOURCES, g)
    else
      let g := { g with coreIdx := fun _ => 0 }
      let st := host.spe_setup
      let g := g.call (CreateCall.spe_setup g.numCores st)
      if st ≠ NTSTATUS.STATUS_SUCCESS then
        (st, g)
      else
        let g := { g with last_fpc_read := host.allocLastFpcRead }
        let g := g.call (CreateCall.ExAllocatePool2 "LAST" host.allocLastFpcRead)
        if !g.last_fpc_read then
          (NTSTATUS.STATUS_INSUFFICIENT_RESOURCES, g)
        else
          match perCoreInit host (List.range g.numCores) g with
          | (some status, g) => (status, g)
          | (none, g) =>
            let g := g.call CreateCall.KeInitializeEvent
            let status := host.HalSetSystemInformation
            let g := g.call (CreateCall.HalSetSystemInformation status)
            if status ≠ NTSTATUS.STATUS_SUCCESS then
              (status, g)
            else
              (status, g)

/-- The call enables long-event support. -/
def isLongEventSet : CreateCall → Bool
  | CreateCall.CpuHasLongEventSupportSet _ => true
  | _ => false

/-- The globals of a driver that has just been loaded: everything zero or
NULL. -/
def globals0 : DeviceGlobals :=
  { dfr0_value := 0, midr_value := 0, id_aa64dfr0_el1_value := 0, pmbidr_el1_value := 0,
    pmsidr_el1_value := 0, numCores := 0, core_info := false, coreIdx := fun _ => 0,
    last_fpc_read := false, ext := none, calls := [] }

/-- A host on which every step of `WindowsPerfDeviceCreate` succeeds: 2 cores,
bits [11:8] of ID_DFR0_EL1 equal to 1, PMUVer of ID_AA64DFR0_EL1 equal to 6. -/
def createHostA : CreateHost :=
  { WdfDeviceCreate := NTSTATUS.STATUS_SUCCESS,
    WdfDeviceCreateDeviceInterface := NTSTATUS.STATUS_SUCCESS,
    WindowsPerfQueueInitialize := NTSTATUS.STATUS_SUCCESS,
    ID_DFR0_EL1 := 0x100, MIDR_EL1 := 0, ID_AA64DFR0_EL1 := 0x600, PMBIDR_EL1 := 0,
    PMSIDR_EL1 := 0,
    PMSVer := fun v => (v >>> 32) &&& 0xf, PMUVer := fun v => (v >>> 8) &&& 0xf,
    KeQueryActiveProcessorCountEx := 2, allocCoreInfo := true,
    spe_setup := NTSTATUS.STATUS_SUCCESS, allocLastFpcRead := true,
    KeGetProcessorNumberFromIndex := fun _ => NTSTATUS.STATUS_SUCCESS,
    KeSetTargetProcessorDpcEx := fun _ => NTSTATUS.STATUS_SUCCESS,
    HalSetSystemInformation := NTSTATUS.STATUS_SUCCESS }

/-- The host `createHostA` with bits [11:8] of ID_DFR0_EL1 equal to 8 and PMUVer
of ID_AA64DFR0_EL1 equal to 8. -/
def createHostV8 : CreateHost :=
  { createHostA with ID_DFR0_EL1 := 0x800, ID_AA64DFR0_EL1 := 0x800 }

/-- The host `createHostA` with bits [11:8] of ID_DFR0_EL1 equal to 6 and PMUVer
of ID_AA64DFR0_EL1 equal to 1. -/
def createHostV6 : CreateHost :=
  { createHostA with ID_DFR0_EL1 := 0x600, ID_AA64DFR0_EL1 := 0x100 }

/-- The host `createHostA` on which `WdfDeviceCreate` fails. -/
def createHostWdfFails : CreateHost :=
  { createHostA with WdfDeviceCreate := NTSTATUS.other 0xC0000001 }

/-- The host `createHostA` on which `WindowsPerfQueueInitialize` fails. -/
def createHostQueueFails : CreateHost :=
  { createHostA with WindowsPerfQueueInitialize := NTSTATUS.STATUS_INSUFFICIENT_RESOURCES }

/-- The host `createHostA` on which the allocation of `core_info` fails. -/
def createHostNoPool : CreateHost :=
  { createHostA with allocCoreInfo := false }

/-- A device extension right after device creation. -/
def ext0 : DEVICE_EXTENSION := { PrivateDeviceData := 0, InUse := 0, AskedToRemove := 0 }

/-- What teardown finds after the run of `WindowsPerfDeviceCreate` on
`createHostNoPool`: `numCores`, `core_info` and `last_fpc_read` as that run left
them, no reservation. -/
def cleanupNoPool : CleanupInput :=
  { drv := { driverA with numCores := (WindowsPerfDeviceCreate createHostNoPool globals0).2.numCores },
    core_info := (WindowsPerfDeviceCreate createHostNoPool globals0).2.core_info,
    last_fpc_read := (WindowsPerfDeviceCreate createHostNoPool globals0).2.last_fpc_read,
    dmcs := none,
    HalFreeHardwareCounters := NTSTATUS.STATUS_SUCCESS,
    HalSetSystemInformation := NTSTATUS.STATUS_SUCCESS }

/-! ## The counting client

The counting branch of `wmain` in `wperf/main.cpp`, as the list of the
`pmu_device` methods it calls that talk to the driver, in program order. The
printing methods and the two sleep loops are left out. -/

/-- The methods of `pmu_device` called by the counting branch. -/
inductive PmuCall where
  | stop (bits : Nat)
  | timeline_params
  | events_assign (core_idx : Nat)
  | timeline_header
  | reset (bits : Nat)
  | start (bits : Nat)
  | core_events_read
  | dsu_events_read
  | dmc_events_read
deriving DecidableEq, Repr

/-- The flag bits tested by the counting loop; their values are in a header
that is not among the sources. -/
structure CtlFlags where
  CTL_FLAG_CORE : Nat
  CTL_FLAG_DSU : Nat
  CTL_FLAG_DMC : Nat

/-- One pass through the body of the `do ... while` loop of the counting
branch. -/
def countingBody (F : CtlFlags) (enable_bits : Nat) : List PmuCall :=
  [PmuCall.reset enable_bits, PmuCall.start enable_bits, PmuCall.stop enable_bits] ++
  (if enable_bits &&& F.CTL_FLAG_CORE ≠ 0 then [PmuCall.core_events_read] else []) ++
  (if enable_bits &&& F.CTL_FLAG_DSU ≠ 0 then [PmuCall.dsu_events_read] else []) ++
  (if enable_bits &&& F.CTL_FLAG_DMC ≠ 0 then [PmuCall.dmc_events_read] else [])

/-- The `do ... while (request.do_timeline && no_ctrl_c)` loop.
`counting_timeline_times` is the local of that name; `ctrl` lists the values of
`no_ctrl_c` read by the loop condition, pass after pass. `none` when `ctrl`
ends while the loop is still going. -/
def countingLoop (F : CtlFlags) (enable_bits : Nat) (do_timeline : Bool) :
    Int → List Bool → Option (List PmuCall)
  | counting_timeline_times, [] =>
    if counting_timeline_times > 0 ∧ counting_timeline_times - 1 ≤ 0 then
      some (countingBody F enable_bits)
    else if do_timeline then none
    else some (countingBody F enable_bits)
  | counting_timeline_times, no_ctrl_c :: ctrl =>
    if counting_timeline_times > 0 ∧ counting_timeline_times - 1 ≤ 0 then
      some (countingBody F enable_bits)
    else if do_timeline && no_ctrl_c then
      (countingLoop F enable_bits do_timeline
        (if counting_timeline_times > 0 then counting_timeline_times - 1
         else counting_timeline_times) ctrl).map
        (fun calls => countingBody F enable_bits ++ calls)
    else some (countingBody F enable_bits)

/-- The counting branch of `wmain` (`request.do_count`, with events): the
methods of `pmu_device` it calls. -/
def wmainCount (F : CtlFlags) (stop_bits enable_bits : Nat) (cores_idx : List Nat)
    (do_timeline : Bool) (count_timeline : Int) (ctrl : List Bool) : Option (List PmuCall) :=
  (countingLoop F enable_bits do_timeline count_timeline ctrl).map (fun calls =>
    [PmuCall.stop stop_bits, PmuCall.timeline_params] ++ cores_idx.map PmuCall.events_assign ++
    [PmuCall.timeline_header] ++ calls)

/-- The two states of the command state machine. -/
inductive PmuState where
  | IDLE
  | COUNTING
deriving DecidableEq, Repr

/-- Modelled from the spec: "START moves state to COUNTING; STOP returns to
IDLE". `start` issues START, `stop` issues STOP; the other methods leave the
state as it is. -/
def commandStep : PmuState → PmuCall → PmuState
  | _, PmuCall.start _ => PmuState.COUNTING
  | _, PmuCall.stop _ => PmuState.IDLE
  | s, _ => s

/-- Each call of a list paired with the state of the command state machine at
the moment it is issued. -/
def statesAt : PmuState → List PmuCall → List (PmuCall × PmuState)
  | _, [] => []
  | s, c :: calls => (c, s) :: statesAt (commandStep s c) calls

/-- The state of the command state machine after a list of calls. -/
def stateAfter (s : PmuState) (calls : List PmuCall) : PmuState :=
  calls.foldl commandStep s

/-- Flag values with one bit per class. -/
def flagsA : CtlFlags := { CTL_FLAG_CORE := 1, CTL_FLAG_DSU := 2, CTL_FLAG_DMC := 4 }

/-! ## The client's sample aggregation

The loop over `raw_samples` in the sampling branch of `wmain`. -/

/-- The fields of `SampleDesc` the loop uses: `desc.name`, `event_src`, `freq`
and the per-PC hit list `pc`. The declaration is not among the sources; the
counts are naturals. -/
structure SampleDesc where
  name : String
  event_src : Nat
  freq : Nat
  pc : List (Nat × Nat)
deriving DecidableEq, Repr

/-- The inner loop over `c.pc`: add 1 to the count of the first pair whose PC is
`a_pc`; `none` when there is none (`pc_found` stays false). -/
def pcIncrement (a_pc : Nat) : List (Nat × Nat) → Option (List (Nat × Nat))
  | [] => none
  | p :: rest =>
    if p.1 = a_pc then some ((p.1, p.2 + 1) :: rest)
    else (pcIncrement a_pc rest).map (fun r => p :: r)

/-- The loop over `resolved_samples` for one overflow bit: the first entry with
the same name and event source gets `freq++` and the PC counted; `none` when
there is none (`inserted` stays false). -/
def insertSample (name : String) (event_src a_pc : Nat) : List SampleDesc → Option (List SampleDesc)
  | [] => none
  | c :: rest =>
    if c.name = name ∧ c.event_src = event_src then
      let c := { c with freq := c.freq + 1 }
      let c := match pcIncrement a_pc c.pc with
        | some pc => { c with pc := pc }
        | none => { c with pc := c.pc ++ [(a_pc, 1)] }
      some (c :: rest)
    else (insertSample name event_src a_pc rest).map (fun r => c :: r)

/-- One pass of the loop over `counter_idx` for the raw sample `a`; `sd` is the
local `SampleDesc` of the enclosing pass. -/
def attributeBit (CYCLE_EVT_IDX : Nat) (ioctl_events_sample : Nat → Nat) (a : FrameChain)
    (counter_idx : Nat) (st : SampleDesc × List SampleDesc) : SampleDesc × List SampleDesc :=
  let sd := st.1
  let resolved_samples := st.2
  if a.ov_flags &&& (1 <<< counter_idx) = 0 then
    (sd, resolved_samples)
  else
    let event_src := if counter_idx = 31 then CYCLE_EVT_IDX else ioctl_events_sample counter_idx
    match insertSample sd.name event_src a.pc resolved_samples with
    | some r => (sd, r)
    | none =>
      let sd := { sd with freq := 1 }
      let sd := { sd with event_src := event_src }
      let sd := { sd with pc := sd.pc ++ [(a.pc, 1)] }
      (sd, resolved_samples ++ [sd])

/-- The aggregation loop. `resolve pc` is the name the symbol search leaves in
`sd.desc.name` for a sample at `pc` ("unknown" when nothing is found);
`ioctl_events_sample i` is `request.ioctl_events_sample[i].index`. A fresh `sd`
is declared for every raw sample; its `event_src` and `freq` are assigned before
they are read, so their initial values do not matter. -/
def aggregate (CYCLE_EVT_IDX : Nat) (ioctl_events_sample : Nat → Nat) (resolve : Nat → String)
    (raw_samples : List FrameChain) : List SampleDesc :=
  raw_samples.foldl (fun resolved_samples a =>
    let sd : SampleDesc := { name := resolve a.pc, event_src := 0, freq := 0, pc := [] }
    (forRange 32 (attributeBit CYCLE_EVT_IDX ioctl_events_sample a) (sd, resolved_samples)).2) []

/-- The sum of the hit counts of a per-PC list. -/
def hitSum (pc : List (Nat × Nat)) : Nat := (pc.map (fun p => p.2)).sum

/-! ## Closed forms of the four paths -/

theorem isr_spurious (N pmov : Nat) (tf : KTRAP_FRAME) (core : CoreInfo)
    (h : maskedOv pmov core = 0) :
    arm64_pmi_ISR N pmov tf core =
      (core, [Effect.readPMOVSCLR, Effect.writePMOVSCLR (pmov &&& 0xffffffff), Effect.isb]) := by
  simp only [maskedOv] at h
  simp [arm64_pmi_ISR, arm64_clear_ov_flags, PMOVSCLR_VALID_BITS_MASK, h]

theorem isr_contended (N pmov : Nat) (tf : KTRAP_FRAME) (core : CoreInfo)
    (h : maskedOv pmov core ≠ 0) (hl : core.SampleLock = true) :
    arm64_pmi_ISR N pmov tf core =
      ({ core with sample_generated := core.sample_generated + 1,
                   sample_dropped := core.sample_dropped + 1 },
       [Effect.readPMOVSCLR, Effect.writePMOVSCLR (pmov &&& 0xffffffff), Effect.isb,
        Effect.tryAcquireSampleLock false]) := by
  simp only [maskedOv] at h
  simp [arm64_pmi_ISR, arm64_clear_ov_flags, PMOVSCLR_VALID_BITS_MASK, h,
    KeTryToAcquireSpinLockAtDpcLevel, hl]

theorem isr_full (N pmov : Nat) (tf : KTRAP_FRAME) (core : CoreInfo)
    (h : maskedOv pmov core ≠ 0) (hl : core.SampleLock = false)
    (hf : core.sample_idx = N) :
    arm64_pmi_ISR N pmov tf core =
      ({ core with sample_generated := core.sample_generated + 1,
                   sample_dropped := core.sample_dropped + 1 },
       [Effect.readPMOVSCLR, Effect.writePMOVSCLR (pmov &&& 0xffffffff), Effect.isb,
        Effect.tryAcquireSampleLock true, Effect.releaseSampleLock]) := by
  simp only [maskedOv] at h
  simp [arm64_pmi_ISR, arm64_clear_ov_flags, PMOVSCLR_VALID_BITS_MASK, h,
    KeTryToAcquireSpinLockAtDpcLevel, KeReleaseSpinLockFromDpcLevel, hl, hf]

theorem isr_capture (N pmov : Nat) (tf : KTRAP_FRAME) (core : CoreInfo)
    (h : maskedOv pmov core ≠ 0) (hl : core.SampleLock = false)
    (hf : core.sample_idx ≠ N) :
    arm64_pmi_ISR N pmov tf core =
      ({ core with
          sample_generated := core.sample_generated + 1,
          sample_idx := core.sample_idx + 1,
          samples := fun k =>
            if k = core.sample_idx then ⟨tf.Lr, tf.Pc, maskedOv pmov core⟩
            else core.samples k },
       [Effect.readPMOVSCLR, Effect.writePMOVSCLR (pmov &&& 0xffffffff), Effect.isb,
        Effect.tryAcquireSampleLock true, Effect.CoreCounterStop,
        Effect.sampleStore core.sample_idx ⟨tf.Lr, tf.Pc, maskedOv pmov core⟩,
        Effect.releaseSampleLock]
        ++ reloadLoop core.sample_interval (maskedOv pmov core) ++ [Effect.CoreCounterStart]) := by
  simp only [maskedOv] at h
  simp [arm64_pmi_ISR, arm64_clear_ov_flags, PMOVSCLR_VALID_BITS_MASK, h,
    KeTryToAcquireSpinLockAtDpcLevel, KeReleaseSpinLockFromDpcLevel, hl, hf, maskedOv, storeAt]
  funext k
  by_cases hk : k = core.sample_idx <;> simp [hk, storeAt]

/-! ## Bit tests and the reload loop -/

theorem and_one_shiftLeft_eq_zero_iff (x i : Nat) :
    x &&& (1 <<< i) = 0 ↔ x.testBit i = false := by
  rw [Nat.one_shiftLeft]
  constructor
  · intro h
    have := congrArg (fun y => Nat.testBit y i) h
    simpa [Nat.testBit_two_pow_self] using this
  · intro h
    apply Nat.eq_of_testBit_eq
    intro j
    by_cases hj : i = j
    · subst hj; simp [h]
    · simp [Nat.testBit_two_pow_of_ne hj]

theorem tryAcquire_succeeds_iff (lock : Bool) :
    (KeTryToAcquireSpinLockAtDpcLevel lock).1 = true ↔ lock = false := by
  cases lock <;> simp [KeTryToAcquireSpinLockAtDpcLevel]

theorem testBit_maskedOv (pmov : Nat) (core : CoreInfo) (i : Nat) :
    (maskedOv pmov core).testBit i =
      ((pmov &&& 0xffffffff).testBit i && core.ov_mask.testBit i) := by
  simp [maskedOv]

theorem counterWritten_reloadCounter (si : Nat → Nat) (j : Nat) :
    counterWritten (reloadCounter si j) = some j := by
  unfold reloadCounter
  by_cases h : j = 31 <;> simp [h, counterWritten]

theorem reloadValue_lt (v : Nat) : reloadValue v < 2 ^ 32 := by
  unfold reloadValue
  exact Nat.mod_lt _ (by norm_num)

theorem reloadValue_eq (v : Nat) (hv : v < 2 ^ 32) : reloadValue v = 0xFFFFFFFF - v := by
  unfold reloadValue
  rw [Nat.mod_eq_of_lt hv]
  omega

theorem writesTo_append (i : Nat) (a b : List Effect) :
    writesTo i (a ++ b) = writesTo i a + writesTo i b := by
  simp [writesTo]

theorem writesTo_flatMap (si : Nat → Nat) (ov i : Nat) (l : List Nat) (hnd : l.Nodup) :
    writesTo i (l.flatMap fun j =>
        if ov &&& (1 <<< j) = 0 then [] else [reloadCounter si j]) =
      if i ∈ l ∧ ov.testBit i = true then 1 else 0 := by
  induction l with
  | nil => simp [writesTo]
  | cons a l ih =>
    have hnd' := List.nodup_cons.mp hnd
    rw [List.flatMap_cons, writesTo_append, ih hnd'.2]
    by_cases hbit : ov &&& (1 <<< a) = 0
    · have hb := (and_one_shiftLeft_eq_zero_iff ov a).mp hbit
      by_cases hia : i = a
      · subst hia
        simp [hbit, hb, writesTo]
      · simp [hbit, hia, writesTo]
    · have hb : ov.testBit a = true := by
        by_contra hc
        exact hbit ((and_one_shiftLeft_eq_zero_iff ov a).mpr (by simpa using hc))
      by_cases hia : i = a
      · subst hia
        simp [hbit, hb, writesTo, counterWritten_reloadCounter, hnd'.1]
      · have : ¬ a = i := fun h => hia h.symm
        simp [hbit, hia, writesTo, counterWritten_reloadCounter, this]

theorem writesTo_reloadLoop (si : Nat → Nat) (ov i : Nat) :
    writesTo i (reloadLoop si ov) = if i < 32 ∧ ov.testBit i = true then 1 else 0 := by
  unfold reloadLoop
  rw [writesTo_flatMap si ov i _ (List.nodup_range 32)]
  simp [List.mem_range]

theorem mem_reloadLoop (si : Nat → Nat) (ov : Nat) (e : Effect) :
    e ∈ reloadLoop si ov ↔ ∃ j, j < 32 ∧ ov.testBit j = true ∧ e = reloadCounter si j := by
  unfold reloadLoop
  rw [List.mem_flatMap]
  constructor
  · rintro ⟨j, hj, he⟩
    by_cases hbit : ov &&& (1 <<< j) = 0
    · simp [hbit] at he
    · refine ⟨j, List.mem_range.mp hj, ?_, by simpa [hbit] using he⟩
      by_contra hc
      exact hbit ((and_one_shiftLeft_eq_zero_iff ov j).mpr (by simpa using hc))
  · rintro ⟨j, hj, hb, he⟩
    refine ⟨j, List.mem_range.mpr hj, ?_⟩
    have hbit : ¬ ov &&& (1 <<< j) = 0 := by
      intro h0
      rw [(and_one_shiftLeft_eq_zero_iff ov j).mp h0] at hb
      exact Bool.false_ne_true hb
    simp [hbit, he]

theorem reloadLoop_no_stopStart (si : Nat → Nat) (ov : Nat) :
    ∀ e ∈ reloadLoop si ov, isStopStart e = false ∧ isLockOp e = false ∧ storedSample e = none := by
  intro e he
  obtain ⟨j, _, _, rfl⟩ := (mem_reloadLoop si ov e).mp he
  unfold reloadCounter
  by_cases h : j = 31 <;> simp [h, isStopStart, isLockOp, storedSample]

theorem capturedSamples_reloadLoop (si : Nat → Nat) (ov : Nat) :
    capturedSamples (reloadLoop si ov) = [] := by
  unfold capturedSamples
  rw [List.filterMap_eq_nil_iff]
  intro e he
  exact (reloadLoop_no_stopStart si ov e he).2.2

theorem one_shiftLeft_and (i m : Nat) :
    (1 <<< i) &&& m = if m.testBit i = true then 1 <<< i else 0 := by
  rw [Nat.one_shiftLeft]
  apply Nat.eq_of_testBit_eq
  intro j
  by_cases hij : i = j
  · subst hij
    by_cases hb : m.testBit i = true
    · simp [hb, Nat.testBit_two_pow_self]
    · have hb : m.testBit i = false := by simpa using hb
      simp [hb]
  · by_cases hb : m.testBit i = true
    · simp [hb, Nat.testBit_two_pow_of_ne hij]
    · have hb : m.testBit i = false := by simpa using hb
      simp [hb, Nat.testBit_two_pow_of_ne hij]

/-! ## One invocation, summarised -/

theorem capturedSamples_append (a b : List Effect) :
    capturedSamples (a ++ b) = capturedSamples a ++ capturedSamples b := by
  simp [capturedSamples]

/-- Every invocation either stores nothing (spurious, contended, ring full) or
appends exactly one entry at the old `sample_idx` (capture). -/
theorem isr_step (N pmov : Nat) (tf : KTRAP_FRAME) (core : CoreInfo) :
    (arm64_pmi_ISR N pmov tf core).1.ov_mask = core.ov_mask ∧
    (((arm64_pmi_ISR N pmov tf core).1.sample_idx = core.sample_idx ∧
        (arm64_pmi_ISR N pmov tf core).1.samples = core.samples ∧
        capturedSamples (arm64_pmi_ISR N pmov tf core).2 = [] ∧
        (arm64_pmi_ISR N pmov tf core).1.sample_generated + core.sample_dropped =
          core.sample_generated + (arm64_pmi_ISR N pmov tf core).1.sample_dropped) ∨
      ((arm64_pmi_ISR N pmov tf core).1.sample_idx = core.sample_idx + 1 ∧
        (arm64_pmi_ISR N pmov tf core).1.samples =
          (fun k => if k = core.sample_idx then ⟨tf.Lr, tf.Pc, maskedOv pmov core⟩
            else core.samples k) ∧
        capturedSamples (arm64_pmi_ISR N pmov tf core).2 =
          [⟨tf.Lr, tf.Pc, maskedOv pmov core⟩] ∧
        (arm64_pmi_ISR N pmov tf core).1.sample_generated = core.sample_generated + 1 ∧
        (arm64_pmi_ISR N pmov tf core).1.sample_dropped = core.sample_dropped)) := by
  by_cases hov : maskedOv pmov core = 0
  · rw [isr_spurious N pmov tf core hov]
    exact ⟨rfl, Or.inl ⟨rfl, rfl, by simp [capturedSamples, storedSample], rfl⟩⟩
  · by_cases hl : core.SampleLock = true
    · rw [isr_contended N pmov tf core hov hl]
      refine ⟨rfl, Or.inl ⟨rfl, rfl, by simp [capturedSamples, storedSample], ?_⟩⟩
      simp only
      omega
    · have hl : core.SampleLock = false := by simpa using hl
      by_cases hf : core.sample_idx = N
      · rw [isr_full N pmov tf core hov hl hf]
        refine ⟨rfl, Or.inl ⟨rfl, rfl, by simp [capturedSamples, storedSample], ?_⟩⟩
        simp only
        omega
      · rw [isr_capture N pmov tf core hov hl hf]
        refine ⟨rfl, Or.inr ⟨rfl, rfl, ?_, rfl, rfl⟩⟩
        simp only
        rw [capturedSamples_append, capturedSamples_append, capturedSamples_reloadLoop]
        simp [capturedSamples, storedSample]

/-! ## Sequences of invocations -/

theorem runISR_cons (N : Nat) (core : CoreInfo) (e : PmiEvent) (es : List PmiEvent) :
    runISR N core (e :: es) =
      ((runISR N (arm64_pmi_ISR N e.PMOVSCLR_EL0 e.frame
          { core with SampleLock := e.lockHeld }).1 es).1,
        (arm64_pmi_ISR N e.PMOVSCLR_EL0 e.frame { core with SampleLock := e.lockHeld }).2 ++
          (runISR N (arm64_pmi_ISR N e.PMOVSCLR_EL0 e.frame
            { core with SampleLock := e.lockHeld }).1 es).2) := rfl

theorem runISR_accounting (N : Nat) (evs : List PmiEvent) :
    ∀ core : CoreInfo,
      (runISR N core evs).1.sample_generated + core.sample_dropped =
        core.sample_generated + (runISR N core evs).1.sample_dropped +
          (capturedSamples (runISR N core evs).2).length := by
  induction evs with
  | nil => intro core; simp [runISR, capturedSamples]
  | cons e es ih =>
    intro core
    rw [runISR_cons]
    simp only [capturedSamples_append, List.length_append]
    have hstep := (isr_step N e.PMOVSCLR_EL0 e.frame { core with SampleLock := e.lockHeld }).2
    have hrest := ih (arm64_pmi_ISR N e.PMOVSCLR_EL0 e.frame
      { core with SampleLock := e.lockHeld }).1
    rcases hstep with ⟨_, _, hc, hacc⟩ | ⟨_, _, hc, hg, hd⟩
    · rw [hc]
      simp only [List.length_nil] at *
      omega
    · rw [hc]
      simp only [List.length_singleton] at *
      omega

theorem runISR_ring (N : Nat) (evs : List PmiEvent) :
    ∀ core : CoreInfo,
      (runISR N core evs).1.sample_idx =
          core.sample_idx + (capturedSamples (runISR N core evs).2).length ∧
        (∀ k, k < core.sample_idx → (runISR N core evs).1.samples k = core.samples k) ∧
        (List.range' core.sample_idx (capturedSamples (runISR N core evs).2).length).map
            (runISR N core evs).1.samples = capturedSamples (runISR N core evs).2 ∧
        List.Sublist (capturedSamples (runISR N core evs).2) (evs.map (sampleOf core)) := by
  induction evs with
  | nil => intro core; simp [runISR, capturedSamples]
  | cons e es ih =>
    intro core
    rw [runISR_cons]
    simp only [capturedSamples_append, List.length_append]
    obtain ⟨hmask, hstep⟩ :=
      isr_step N e.PMOVSCLR_EL0 e.frame { core with SampleLock := e.lockHeld }
    obtain ⟨hidx, hkeep, hmap, hsub⟩ := ih (arm64_pmi_ISR N e.PMOVSCLR_EL0 e.frame
      { core with SampleLock := e.lockHeld }).1
    have hso : ∀ x : PmiEvent, sampleOf (arm64_pmi_ISR N e.PMOVSCLR_EL0 e.frame
        { core with SampleLock := e.lockHeld }).1 x = sampleOf core x := by
      intro x
      simp only [sampleOf, maskedOv, hmask]
    have hsub' : List.Sublist
        (capturedSamples (runISR N (arm64_pmi_ISR N e.PMOVSCLR_EL0 e.frame
          { core with SampleLock := e.lockHeld }).1 es).2) (es.map (sampleOf core)) := by
      have : es.map (sampleOf core) = es.map (sampleOf (arm64_pmi_ISR N e.PMOVSCLR_EL0 e.frame
          { core with SampleLock := e.lockHeld }).1) :=
        List.map_congr_left fun x _ => (hso x).symm
      rw [this]
      exact hsub
    rcases hstep with ⟨hi, hs, hc, _⟩ | ⟨hi, hs, hc, _, _⟩
    · simp only [hi, hs] at hidx hkeep hmap
      rw [hc]
      simp only [List.length_nil, Nat.zero_add, List.nil_append, List.map_cons]
      exact ⟨hidx, hkeep, hmap, List.Sublist.cons _ hsub'⟩
    · simp only [hi] at hidx hkeep hmap
      rw [hc]
      have hat : (runISR N (arm64_pmi_ISR N e.PMOVSCLR_EL0 e.frame
          { core with SampleLock := e.lockHeld }).1 es).1.samples core.sample_idx =
          ⟨e.frame.Lr, e.frame.Pc, maskedOv e.PMOVSCLR_EL0 core⟩ := by
        rw [hkeep core.sample_idx (Nat.lt_succ_self _), hs]
        simp [maskedOv]
      refine ⟨?_, ?_, ?_, ?_⟩
      · simp only [List.length_singleton]
        omega
      · intro k hk
        rw [hkeep k (Nat.lt_succ_of_lt hk), hs]
        simp [Nat.ne_of_lt hk]
      · simp only [List.length_singleton, List.singleton_append]
        rw [Nat.add_comm 1, List.range'_succ, List.map_cons, hat, hmap]
        simp [maskedOv]
      · simp only [List.singleton_append, List.map_cons]
        have : sampleOf core e = ⟨e.frame.Lr, e.frame.Pc,
            maskedOv e.PMOVSCLR_EL0 { core with SampleLock := e.lockHeld }⟩ := by
          simp [sampleOf, maskedOv]
        rw [this]
        exact List.Sublist.cons₂ _ hsub'

/-! ## The ISR contract -/

/-- C1: when the masked overflow flags are non-zero, the try-acquire of
`SampleLock` succeeds and `sample_idx < SAMPLE_CHAIN_BUFFER_SIZE`, the ISR
stores `{pc = TrapFrame.Pc, lr = TrapFrame.Lr, ov_flags = ov}` at the old
`sample_idx`, advances `sample_idx` by one, increments `sample_generated` by
one and leaves `sample_dropped` alone. -/
theorem pmi_capture_records_sample (N pmov : Nat) (tf : KTRAP_FRAME) (core : CoreInfo)
    (hov : maskedOv pmov core ≠ 0)
    (hacq : (KeTryToAcquireSpinLockAtDpcLevel core.SampleLock).1 = true)
    (hidx : core.sample_idx < N) :
    (arm64_pmi_ISR N pmov tf core).1.samples core.sample_idx =
        { pc := tf.Pc, lr := tf.Lr, ov_flags := maskedOv pmov core } ∧
      (arm64_pmi_ISR N pmov tf core).1.sample_idx = core.sample_idx + 1 ∧
      (arm64_pmi_ISR N pmov tf core).1.sample_generated = core.sample_generated + 1 ∧
      (arm64_pmi_ISR N pmov tf core).1.sample_dropped = core.sample_dropped := by
  have hl := (tryAcquire_succeeds_iff _).mp hacq
  rw [isr_capture N pmov tf core hov hl (Nat.ne_of_lt hidx)]
  simp

theorem pmi_capture_records_sample_witness :
    maskedOv 7 coreA ≠ 0 ∧
      (KeTryToAcquireSpinLockAtDpcLevel coreA.SampleLock).1 = true ∧
      coreA.sample_idx < 128 ∧
      (arm64_pmi_ISR 128 7 frameA coreA).1.samples coreA.sample_idx =
        { pc := frameA.Pc, lr := frameA.Lr, ov_flags := maskedOv 7 coreA } ∧
      (arm64_pmi_ISR 128 7 frameA coreA).1.sample_idx = coreA.sample_idx + 1 ∧
      (arm64_pmi_ISR 128 7 frameA coreA).1.sample_generated = coreA.sample_generated + 1 ∧
      (arm64_pmi_ISR 128 7 frameA coreA).1.sample_dropped = coreA.sample_dropped :=
  ⟨by decide, by decide, by decide,
    pmi_capture_records_sample 128 7 frameA coreA (by decide) (by decide) (by decide)⟩

/-- C2: in the capture path, for every `i < 32`: if bit `i` of the masked
overflow flags is set, counter `i` is written exactly once, and the write is
`PMCCNTR_EL0 := val` when `i = 31` and `CoreWriteCounter(i, val)` otherwise,
with `val` the 32-bit value `0xFFFFFFFF - sample_interval[i]`; if bit `i` is
clear, counter `i` is not written. On every path, a counter the ISR writes has
its bit set in `core.ov_mask`. -/
theorem pmi_capture_reloads_overflowed (N pmov : Nat) (tf : KTRAP_FRAME) (core : CoreInfo)
    (i : Nat) (hi : i < 32) :
    (maskedOv pmov core ≠ 0 →
      (KeTryToAcquireSpinLockAtDpcLevel core.SampleLock).1 = true →
      core.sample_idx ≠ N →
        ((maskedOv pmov core).testBit i = true →
          writesTo i (arm64_pmi_ISR N pmov tf core).2 = 1 ∧
          (∀ e ∈ (arm64_pmi_ISR N pmov tf core).2, counterWritten e = some i →
            e = if i = 31 then Effect.writePMCCNTR (reloadValue (core.sample_interval i))
                else Effect.CoreWriteCounter i (reloadValue (core.sample_interval i))) ∧
          reloadValue (core.sample_interval i) < 2 ^ 32 ∧
          (core.sample_interval i < 2 ^ 32 →
            reloadValue (core.sample_interval i) = 0xFFFFFFFF - core.sample_interval i)) ∧
        ((maskedOv pmov core).testBit i = false →
          writesTo i (arm64_pmi_ISR N pmov tf core).2 = 0)) ∧
    (∀ e ∈ (arm64_pmi_ISR N pmov tf core).2, ∀ j, counterWritten e = some j →
      j < 32 ∧ core.ov_mask.testBit j = true) := by
  constructor
  · intro hov hacq hidx
    have hl := (tryAcquire_succeeds_iff _).mp hacq
    rw [isr_capture N pmov tf core hov hl hidx]
    have hw : writesTo i
        ([Effect.readPMOVSCLR, Effect.writePMOVSCLR (pmov &&& 0xffffffff), Effect.isb,
          Effect.tryAcquireSampleLock true, Effect.CoreCounterStop,
          Effect.sampleStore core.sample_idx ⟨tf.Lr, tf.Pc, maskedOv pmov core⟩,
          Effect.releaseSampleLock]
          ++ reloadLoop core.sample_interval (maskedOv pmov core) ++ [Effect.CoreCounterStart]) =
        if (maskedOv pmov core).testBit i = true then 1 else 0 := by
      rw [writesTo_append, writesTo_append, writesTo_reloadLoop]
      simp [writesTo, counterWritten, hi]
    refine ⟨fun hb => ⟨by rw [hw]; simp [hb], ?_, reloadValue_lt _, reloadValue_eq _⟩,
      fun hb => by rw [hw]; simp [hb]⟩
    intro e he hc
    simp only [List.mem_append, List.mem_cons, List.mem_singleton, List.not_mem_nil,
      or_false] at he
    rcases he with (he | he) | he
    · rcases he with rfl | rfl | rfl | rfl | rfl | rfl | rfl <;> simp [counterWritten] at hc
    · obtain ⟨j, _, _, rfl⟩ := (mem_reloadLoop _ _ e).mp he
      rw [counterWritten_reloadCounter] at hc
      have hji : j = i := Option.some.inj hc
      subst hji
      rfl
    · subst he
      simp [counterWritten] at hc
  · intro e he j hc
    by_cases hov : maskedOv pmov core = 0
    · rw [isr_spurious N pmov tf core hov] at he
      simp only [List.mem_cons, List.mem_singleton, List.not_mem_nil, or_false] at he
      rcases he with rfl | rfl | rfl <;> simp [counterWritten] at hc
    · by_cases hl : core.SampleLock = true
      · rw [isr_contended N pmov tf core hov hl] at he
        simp only [List.mem_cons, List.mem_singleton, List.not_mem_nil, or_false] at he
        rcases he with rfl | rfl | rfl | rfl <;> simp [counterWritten] at hc
      · have hl : core.SampleLock = false := by simpa using hl
        by_cases hf : core.sample_idx = N
        · rw [isr_full N pmov tf core hov hl hf] at he
          simp only [List.mem_cons, List.mem_singleton, List.not_mem_nil, or_false] at he
          rcases he with rfl | rfl | rfl | rfl | rfl <;> simp [counterWritten] at hc
        · rw [isr_capture N pmov tf core hov hl hf] at he
          simp only [List.mem_append, List.mem_cons, List.mem_singleton, List.not_mem_nil,
            or_false] at he
          rcases he with (he | he) | he
          · rcases he with rfl | rfl | rfl | rfl | rfl | rfl | rfl <;>
              simp [counterWritten] at hc
          · obtain ⟨k, hk, hb, rfl⟩ := (mem_reloadLoop _ _ e).mp he
            rw [counterWritten_reloadCounter] at hc
            have hkj : k = j := Option.some.inj hc
            subst hkj
            rw [testBit_maskedOv] at hb
            exact ⟨hk, (Bool.and_eq_true _ _ ▸ hb).2⟩
          · subst he
            simp [counterWritten] at hc

theorem pmi_capture_reloads_overflowed_witness :
    (2 : Nat) < 32 ∧ maskedOv 7 coreA ≠ 0 ∧
      (KeTryToAcquireSpinLockAtDpcLevel coreA.SampleLock).1 = true ∧
      coreA.sample_idx ≠ 128 ∧ (maskedOv 7 coreA).testBit 2 = true ∧
      writesTo 2 (arm64_pmi_ISR 128 7 frameA coreA).2 = 1 :=
  ⟨by decide, by decide, by decide, by decide, by decide,
    (((pmi_capture_reloads_overflowed 128 7 frameA coreA 2 (by decide)).1
      (by decide) (by decide) (by decide)).1 (by decide)).1⟩

/-- C3: with `sample_idx == SAMPLE_CHAIN_BUFFER_SIZE`, a non-spurious
invocation that acquires `SampleLock` releases it, increments `sample_dropped`
by exactly one, leaves `sample_idx` and every ring entry unchanged, and neither
stops, reloads nor starts a counter: after the flag clear its only operations
are the try-acquire and the release. -/
theorem pmi_ring_full_drops (N pmov : Nat) (tf : KTRAP_FRAME) (core : CoreInfo)
    (hov : maskedOv pmov core ≠ 0)
    (hacq : (KeTryToAcquireSpinLockAtDpcLevel core.SampleLock).1 = true)
    (hfull : core.sample_idx = N) :
    (arm64_pmi_ISR N pmov tf core).2 =
        [Effect.readPMOVSCLR, Effect.writePMOVSCLR (pmov &&& 0xffffffff), Effect.isb,
          Effect.tryAcquireSampleLock true, Effect.releaseSampleLock] ∧
      (arm64_pmi_ISR N pmov tf core).1.SampleLock = false ∧
      (arm64_pmi_ISR N pmov tf core).1.sample_dropped = core.sample_dropped + 1 ∧
      (arm64_pmi_ISR N pmov tf core).1.sample_idx = core.sample_idx ∧
      (arm64_pmi_ISR N pmov tf core).1.samples = core.samples ∧
      (∀ e ∈ (arm64_pmi_ISR N pmov tf core).2,
        isStopStart e = false ∧ counterWritten e = none ∧ storedSample e = none) := by
  have hl := (tryAcquire_succeeds_iff _).mp hacq
  rw [isr_full N pmov tf core hov hl hfull]
  simp [hl, isStopStart, counterWritten, storedSample]

theorem pmi_ring_full_drops_witness :
    maskedOv 7 coreFull ≠ 0 ∧
      (KeTryToAcquireSpinLockAtDpcLevel coreFull.SampleLock).1 = true ∧
      coreFull.sample_idx = 4 ∧
      (arm64_pmi_ISR 4 7 frameA coreFull).1.sample_dropped = coreFull.sample_dropped + 1 ∧
      (arm64_pmi_ISR 4 7 frameA coreFull).1.sample_idx = coreFull.sample_idx :=
  ⟨by decide, by decide, by decide,
    (pmi_ring_full_drops 4 7 frameA coreFull (by decide) (by decide) (by decide)).2.2.1,
    (pmi_ring_full_drops 4 7 frameA coreFull (by decide) (by decide) (by decide)).2.2.2.1⟩

/-- C4: a non-spurious invocation whose try-acquire of `SampleLock` fails
increments `sample_dropped` by exactly one and returns at once (the failed
attempt is its last operation, made once), leaving `sample_idx` and every ring
entry unchanged and neither stopping, reloading nor starting a counter. -/
theorem pmi_contended_drops (N pmov : Nat) (tf : KTRAP_FRAME) (core : CoreInfo)
    (hov : maskedOv pmov core ≠ 0)
    (hacq : (KeTryToAcquireSpinLockAtDpcLevel core.SampleLock).1 = false) :
    (arm64_pmi_ISR N pmov tf core).2 =
        [Effect.readPMOVSCLR, Effect.writePMOVSCLR (pmov &&& 0xffffffff), Effect.isb,
          Effect.tryAcquireSampleLock false] ∧
      (arm64_pmi_ISR N pmov tf core).1.sample_dropped = core.sample_dropped + 1 ∧
      (arm64_pmi_ISR N pmov tf core).1.sample_idx = core.sample_idx ∧
      (arm64_pmi_ISR N pmov tf core).1.samples = core.samples ∧
      (∀ e ∈ (arm64_pmi_ISR N pmov tf core).2,
        isStopStart e = false ∧ counterWritten e = none ∧ storedSample e = none) := by
  have hl : core.SampleLock = true := by
    cases h : core.SampleLock
    · rw [(tryAcquire_succeeds_iff _).mpr h] at hacq
      exact absurd hacq (by decide)
    · rfl
  rw [isr_contended N pmov tf core hov hl]
  simp [isStopStart, counterWritten, storedSample]

theorem pmi_contended_drops_witness :
    maskedOv 7 coreBusy ≠ 0 ∧
      (KeTryToAcquireSpinLockAtDpcLevel coreBusy.SampleLock).1 = false ∧
      (arm64_pmi_ISR 128 7 frameA coreBusy).1.sample_dropped = coreBusy.sample_dropped + 1 ∧
      (arm64_pmi_ISR 128 7 frameA coreBusy).1.sample_idx = coreBusy.sample_idx :=
  ⟨by decide, by decide,
    (pmi_contended_drops 128 7 frameA coreBusy (by decide) (by decide)).2.1,
    (pmi_contended_drops 128 7 frameA coreBusy (by decide) (by decide)).2.2.1⟩

/-- C5: if `(PMOVSCLR_EL0 & 0xffffffff & core.ov_mask) == 0` the ISR returns the
core record unchanged (so `sample_generated`, `sample_dropped`, `sample_idx`,
the ring and `SampleLock` are as before), and all it did is the work of
`arm64_clear_ov_flags`: read PMOVSCLR_EL0, write its low 32 bits back, barrier.
It makes no lock operation and writes no counter. -/
theorem pmi_spurious_only_clears_flags (N pmov : Nat) (tf : KTRAP_FRAME) (core : CoreInfo)
    (hov : maskedOv pmov core = 0) :
    (arm64_pmi_ISR N pmov tf core).1 = core ∧
      (arm64_pmi_ISR N pmov tf core).2 = (arm64_clear_ov_flags pmov).2 ∧
      (arm64_clear_ov_flags pmov).2 =
        [Effect.readPMOVSCLR, Effect.writePMOVSCLR (pmov % 2 ^ 32), Effect.isb] ∧
      (∀ e ∈ (arm64_pmi_ISR N pmov tf core).2,
        isLockOp e = false ∧ counterWritten e = none ∧ isStopStart e = false ∧
          storedSample e = none) := by
  rw [isr_spurious N pmov tf core hov]
  have h32 : pmov &&& 4294967295 = pmov % 2 ^ 32 := by
    have := Nat.and_pow_two_sub_one_eq_mod pmov 32
    simpa using this
  simp [arm64_clear_ov_flags, PMOVSCLR_VALID_BITS_MASK, h32, isLockOp, counterWritten,
    isStopStart, storedSample]

theorem pmi_spurious_only_clears_flags_witness :
    maskedOv 2 coreA = 0 ∧ (arm64_pmi_ISR 128 2 frameA coreA).1 = coreA :=
  ⟨by decide, (pmi_spurious_only_clears_flags 128 2 frameA coreA (by decide)).1⟩

/-- C6: `sample_idx <= SAMPLE_CHAIN_BUFFER_SIZE` is preserved by every
invocation of the ISR, whichever path it takes, and every store the ISR makes
into the ring is at an index `< SAMPLE_CHAIN_BUFFER_SIZE` (no entry at or
beyond the capacity changes). -/
theorem pmi_preserves_index_bound (N pmov : Nat) (tf : KTRAP_FRAME) (core : CoreInfo)
    (hinv : core.sample_idx ≤ N) :
    (arm64_pmi_ISR N pmov tf core).1.sample_idx ≤ N ∧
      (∀ idx fc, Effect.sampleStore idx fc ∈ (arm64_pmi_ISR N pmov tf core).2 → idx < N) ∧
      (∀ k, N ≤ k → (arm64_pmi_ISR N pmov tf core).1.samples k = core.samples k) := by
  by_cases hov : maskedOv pmov core = 0
  · rw [isr_spurious N pmov tf core hov]
    simp [hinv]
  · by_cases hl : core.SampleLock = true
    · rw [isr_contended N pmov tf core hov hl]
      simp [hinv]
    · have hl : core.SampleLock = false := by simpa using hl
      by_cases hf : core.sample_idx = N
      · rw [isr_full N pmov tf core hov hl hf]
        simp [hinv]
      · have hlt : core.sample_idx < N := lt_of_le_of_ne hinv hf
        rw [isr_capture N pmov tf core hov hl hf]
        refine ⟨hlt, ?_, ?_⟩
        · intro idx fc hmem
          simp only [List.mem_append, List.mem_cons, List.mem_singleton, List.not_mem_nil,
            or_false] at hmem
          rcases hmem with (hmem | hmem) | hmem
          · simp at hmem
            rw [hmem.1]
            exact hlt
          · have := (reloadLoop_no_stopStart _ _ _ hmem).2.2
            simp [storedSample] at this
          · simp at hmem
        · intro k hk
          have : k ≠ core.sample_idx := by omega
          simp [this]

theorem pmi_preserves_index_bound_witness :
    coreFull.sample_idx ≤ 4 ∧ (arm64_pmi_ISR 4 7 frameA coreFull).1.sample_idx ≤ 4 :=
  ⟨by decide, (pmi_preserves_index_bound 4 7 frameA coreFull (by decide)).1⟩

/-- C7: starting from `sample_generated = sample_dropped = sample_idx = 0`,
after every finite sequence of invocations of the ISR (naturals for the
counters, no drain in between) `sample_generated >= sample_dropped +` the number
of samples stored into the ring. -/
theorem run_generated_ge_dropped_plus_captured (N : Nat) (core : CoreInfo)
    (evs : List PmiEvent)
    (hg : core.sample_generated = 0) (hd : core.sample_dropped = 0)
    (hi : core.sample_idx = 0) :
    (runISR N core evs).1.sample_generated ≥
      (runISR N core evs).1.sample_dropped +
        (capturedSamples (runISR N core evs).2).length ∧
    (capturedSamples (runISR N core evs).2).length = (runISR N core evs).1.sample_idx := by
  have hacc := runISR_accounting N evs core
  have hidx := (runISR_ring N evs core).1
  rw [hg, hd] at hacc
  rw [hi] at hidx
  omega

theorem run_generated_ge_dropped_plus_captured_witness :
    coreA.sample_generated = 0 ∧ coreA.sample_dropped = 0 ∧ coreA.sample_idx = 0 ∧
      (runISR 128 coreA eventsA).1.sample_generated ≥
        (runISR 128 coreA eventsA).1.sample_dropped +
          (capturedSamples (runISR 128 coreA eventsA).2).length :=
  ⟨by decide, by decide, by decide,
    (run_generated_ge_dropped_plus_captured 128 coreA eventsA
      (by decide) (by decide) (by decide)).1⟩

/-- C8: the ISR only appends to the ring. One invocation leaves every ring
entry at an index other than the old `sample_idx` unchanged; and after a run of
invocations started at `sample_idx = 0` that made `n` captures, `sample_idx = n`
and entries `0..n-1` are the captured samples in the order they were stored,
which is the order of the interrupts they come from. -/
theorem ring_is_append_only (N pmov : Nat) (tf : KTRAP_FRAME) (core : CoreInfo)
    (evs : List PmiEvent) :
    (∀ k, k ≠ core.sample_idx → (arm64_pmi_ISR N pmov tf core).1.samples k = core.samples k) ∧
    (core.sample_idx = 0 →
      (runISR N core evs).1.sample_idx = (capturedSamples (runISR N core evs).2).length ∧
      (List.range (runISR N core evs).1.sample_idx).map (runISR N core evs).1.samples =
        capturedSamples (runISR N core evs).2 ∧
      List.Sublist (capturedSamples (runISR N core evs).2) (evs.map (sampleOf core))) := by
  constructor
  · intro k hk
    rcases (isr_step N pmov tf core).2 with ⟨_, hs, _, _⟩ | ⟨_, hs, _, _, _⟩
    · rw [hs]
    · rw [hs]
      simp [hk]
  · intro h0
    obtain ⟨hidx, _, hmap, hsub⟩ := runISR_ring N evs core
    rw [h0] at hidx hmap
    rw [Nat.zero_add] at hidx
    refine ⟨hidx, ?_, hsub⟩
    rw [hidx, List.range_eq_range']
    exact hmap

theorem ring_is_append_only_witness :
    coreA.sample_idx = 0 ∧
      (List.range (runISR 128 coreA eventsA).1.sample_idx).map
          (runISR 128 coreA eventsA).1.samples =
        capturedSamples (runISR 128 coreA eventsA).2 :=
  ⟨by decide, ((ring_is_append_only 128 0 frameA coreA eventsA).2 (by decide)).2.1⟩

/-- C9: for every sample interval `v < 2^32` the reload value computed by the
ISR is `0xFFFFFFFF - v` without wrap-around, and the least `n >= 1` with
`(r + n) mod 2^32 = 0` is `v + 1`, which differs from `v` by at most one. -/
theorem reload_next_overflow (v : Nat) (hv : v < 2 ^ 32) :
    v ≤ 0xFFFFFFFF ∧ reloadValue v = 0xFFFFFFFF - v ∧
      ∃ n, IsLeast {m : Nat | 1 ≤ m ∧ (reloadValue v + m) % 2 ^ 32 = 0} n ∧
        n ≤ v + 1 ∧ v ≤ n + 1 := by
  have hr := reloadValue_eq v hv
  refine ⟨by omega, hr, v + 1, ⟨⟨by omega, ?_⟩, ?_⟩, le_refl _, by omega⟩
  · rw [hr]
    have : 0xFFFFFFFF - v + (v + 1) = 2 ^ 32 := by omega
    rw [this]
    exact Nat.mod_self _
  · rintro m ⟨hm1, hm⟩
    rw [hr] at hm
    by_contra hlt
    have hlt : m < v + 1 := Nat.lt_of_not_le hlt
    have hsmall : 0xFFFFFFFF - v + m < 2 ^ 32 := by omega
    rw [Nat.mod_eq_of_lt hsmall] at hm
    omega

theorem reload_next_overflow_witness :
    (100000 : Nat) < 2 ^ 32 ∧ reloadValue 100000 = 0xFFFFFFFF - 100000 :=
  ⟨by decide, (reload_next_overflow 100000 (by decide)).2.1⟩

/-- C10, as stated, fails: on a core whose slot 0 has `sample_interval = 0`, an
interrupt whose overflow flags are exactly bit 0 records a sample
(`sample_idx` goes from 0 to 1 and the ring entry 0 is overwritten). -/
theorem zero_interval_still_samples :
    coreZeroInterval.sample_interval 0 = 0 ∧
      maskedOv 1 coreZeroInterval = 1 <<< 0 ∧
      coreZeroInterval.sample_idx = 0 ∧
      (arm64_pmi_ISR 128 1 frameA coreZeroInterval).1.sample_idx = 1 ∧
      (arm64_pmi_ISR 128 1 frameA coreZeroInterval).1.samples 0 ≠
        coreZeroInterval.samples 0 := by
  decide

/-- C10, amended: with `sample_interval[i] = 0` and overflow flags containing
only bit `i`, no sample is recorded when bit `i` of `core.ov_mask` is clear
(the invocation is spurious); when the bit is set, the lock is acquired and
`sample_idx` is not the capacity, the sample is recorded as for any other
interval and counter `i` is reloaded with `0xFFFFFFFF`. -/
theorem zero_interval_sampling (N pmov : Nat) (tf : KTRAP_FRAME) (core : CoreInfo) (i : Nat)
    (hi : i < 32) (hint : core.sample_interval i = 0)
    (hflags : pmov &&& 0xffffffff = 1 <<< i) :
    (core.ov_mask.testBit i = false →
      (arm64_pmi_ISR N pmov tf core).1.sample_idx = core.sample_idx ∧
      (arm64_pmi_ISR N pmov tf core).1.samples = core.samples ∧
      (arm64_pmi_ISR N pmov tf core).1.sample_generated = core.sample_generated) ∧
    (core.ov_mask.testBit i = true →
      (KeTryToAcquireSpinLockAtDpcLevel core.SampleLock).1 = true →
      core.sample_idx ≠ N →
        (arm64_pmi_ISR N pmov tf core).1.sample_idx = core.sample_idx + 1 ∧
        (arm64_pmi_ISR N pmov tf core).1.samples core.sample_idx =
          { pc := tf.Pc, lr := tf.Lr, ov_flags := 1 <<< i } ∧
        (if i = 31 then Effect.writePMCCNTR 0xFFFFFFFF
          else Effect.CoreWriteCounter i 0xFFFFFFFF) ∈ (arm64_pmi_ISR N pmov tf core).2) := by
  have hm : maskedOv pmov core = if core.ov_mask.testBit i = true then 1 <<< i else 0 := by
    unfold maskedOv
    rw [hflags]
    exact one_shiftLeft_and i core.ov_mask
  constructor
  · intro hb
    have h0 : maskedOv pmov core = 0 := by rw [hm]; simp [hb]
    rw [isr_spurious N pmov tf core h0]
    exact ⟨rfl, rfl, rfl⟩
  · intro hb hacq hidx
    have h1 : maskedOv pmov core = 1 <<< i := by rw [hm]; simp [hb]
    have hne : maskedOv pmov core ≠ 0 := by
      rw [h1, Nat.one_shiftLeft]
      exact Nat.pos_iff_ne_zero.mp (Nat.two_pow_pos i)
    have hl := (tryAcquire_succeeds_iff _).mp hacq
    rw [isr_capture N pmov tf core hne hl hidx]
    refine ⟨rfl, by simp [h1], ?_⟩
    have hmem : reloadCounter core.sample_interval i ∈
        reloadLoop core.sample_interval (maskedOv pmov core) := by
      refine (mem_reloadLoop _ _ _).mpr ⟨i, hi, ?_, rfl⟩
      rw [h1, Nat.one_shiftLeft]
      exact Nat.testBit_two_pow_self
    have hval : reloadCounter core.sample_interval i =
        if i = 31 then Effect.writePMCCNTR 0xFFFFFFFF
        else Effect.CoreWriteCounter i 0xFFFFFFFF := by
      unfold reloadCounter
      rw [hint]
      have : reloadValue 0 = 0xFFFFFFFF := by decide
      rw [this]
    rw [← hval]
    exact List.mem_append_left _ (List.mem_append_right _ hmem)

theorem zero_interval_sampling_witness :
    (0 : Nat) < 32 ∧ coreZeroInterval.sample_interval 0 = 0 ∧
      (1 : Nat) &&& 0xffffffff = 1 <<< 0 ∧
      coreZeroInterval.ov_mask.testBit 0 = true ∧
      (KeTryToAcquireSpinLockAtDpcLevel coreZeroInterval.SampleLock).1 = true ∧
      coreZeroInterval.sample_idx ≠ 128 ∧
      (arm64_pmi_ISR 128 1 frameA coreZeroInterval).1.sample_idx =
        coreZeroInterval.sample_idx + 1 :=
  ⟨by decide, by decide, by decide, by decide, by decide, by decide,
    ((zero_interval_sampling 128 1 frameA coreZeroInterval 0 (by decide) (by decide)
      (by decide)).2 (by decide) (by decide) (by decide)).1⟩

/-! ## Counter reservation: loops -/

theorem forRange_zero {σ : Type} (body : Nat → σ → σ) (s : σ) : forRange 0 body s = s := rfl

theorem forRange_succ {σ : Type} (n : Nat) (body : Nat → σ → σ) (s : σ) :
    forRange (n + 1) body s = body n (forRange n body s) := by
  simp [forRange, List.range_succ, List.foldl_append]

theorem freeSlots_succ (host : Host) (n : Nat) :
    freeSlots host (n + 1) =
      freeSlots host n ++
        if (host.HalAllocateSingle n).1 = NTSTATUS.STATUS_SUCCESS then [n] else [] := by
  unfold freeSlots
  rw [List.range_succ, List.filter_append]
  by_cases h : (host.HalAllocateSingle n).1 = NTSTATUS.STATUS_SUCCESS <;> simp [h]

theorem freeSlots_lt (host : Host) (n : Nat) : ∀ i ∈ freeSlots host n, i < n := by
  intro i hi
  unfold freeSlots at hi
  exact List.mem_range.mp (List.mem_filter.mp hi).1

theorem freeSlots_success (host : Host) (n i : Nat) :
    i ∈ freeSlots host n ↔ i < n ∧ (host.HalAllocateSingle i).1 = NTSTATUS.STATUS_SUCCESS := by
  unfold freeSlots
  simp [List.mem_filter, List.mem_range]

theorem freeSlots_length_le (host : Host) (n : Nat) : (freeSlots host n).length ≤ n := by
  unfold freeSlots
  calc ((List.range n).filter _).length ≤ (List.range n).length := List.length_filter_le _ _
    _ = n := List.length_range n

theorem freeSlots_sorted (host : Host) (n : Nat) : (freeSlots host n).Pairwise (· < ·) := by
  unfold freeSlots
  exact List.Pairwise.filter _ (List.pairwise_lt_range n)

/-- The probing loop, from a state with `numFreeCounters = 0`. -/
theorem probe_loop (host : Host) (p0 : Probe) (h0 : p0.numFreeCounters = 0) (n : Nat) :
    (forRange n (probeSlot host) p0).numFreeCounters = (freeSlots host n).length ∧
    (∀ k, (forRange n (probeSlot host) p0).drv.counter_idx_map k =
      (freeSlots host n).getD k (p0.drv.counter_idx_map k)) ∧
    (forRange n (probeSlot host) p0).drv.calls =
      p0.drv.calls ++ (List.range n).flatMap (probeCalls host) ∧
    (forRange n (probeSlot host) p0).drv.numCores = p0.drv.numCores ∧
    (forRange n (probeSlot host) p0).drv.numGPC = p0.drv.numGPC ∧
    (forRange n (probeSlot host) p0).drv.numFreeGPC = p0.drv.numFreeGPC ∧
    (forRange n (probeSlot host) p0).drv.core_info = p0.drv.core_info := by
  induction n with
  | zero => simp [forRange_zero, freeSlots, h0]
  | succ n ih =>
    obtain ⟨hn, hmap, hcalls, hc, hg, hf, hci⟩ := ih
    rw [forRange_succ, freeSlots_succ, List.range_succ, List.flatMap_append]
    by_cases hs : (host.HalAllocateSingle n).1 = NTSTATUS.STATUS_SUCCESS
    · simp only [probeSlot, hs, if_true, Driver.call, hn, hcalls, hc, hg, hf, hci,
        List.length_append, List.length_singleton, List.flatMap_cons, List.flatMap_nil,
        List.append_nil, probeCalls, List.append_assoc, List.singleton_append, List.cons_append,
        List.nil_append, true_and, and_true]
      intro k
      rw [hmap k]
      by_cases hk : k = (freeSlots host n).length
      · subst hk
        simp [List.getD_eq_getElem?_getD]
      · simp only [hk, if_false]
        rcases Nat.lt_or_gt_of_ne hk with hlt | hgt
        · simp [List.getD_eq_getElem?_getD, List.getElem?_append_left hlt]
        · have h1 : (freeSlots host n).length ≤ k := Nat.le_of_lt hgt
          have h2 : (freeSlots host n ++ [n]).length ≤ k := by
            simp only [List.length_append, List.length_singleton]; omega
          simp [List.getD_eq_getElem?_getD, List.getElem?_eq_none h1, List.getElem?_eq_none h2]
    · simp only [probeSlot, hs, if_false, Driver.call, hn, hcalls, hc, hg, hf, hci,
        List.append_nil, List.flatMap_cons, List.flatMap_nil, probeCalls, List.append_assoc,
        true_and, and_true]
      exact hmap

theorem numGPC_of_le (pmcr : Nat) : numGPC_of pmcr ≤ 31 := by
  unfold numGPC_of ARMV8_PMCR_N_MASK
  have h : (pmcr >>> ARMV8_PMCR_N_SHIFT) &&& 0x1f < 2 ^ 5 :=
    Nat.and_lt_two_pow _ (by norm_num)
  have h2 : ((pmcr >>> ARMV8_PMCR_N_SHIFT) &&& 0x1f) % 256 ≤
      (pmcr >>> ARMV8_PMCR_N_SHIFT) &&& 0x1f := Nat.mod_le _ _
  omega

/-- The state after "1) Query for free PMU counters". -/
theorem queryFree_spec (host : Host) (s : Driver) :
    (queryFree host s).numFreeCounters =
        (freeSlots host (numGPC_of host.CorePmcrGet)).length ∧
    (∀ k, (queryFree host s).drv.counter_idx_map k =
        (freeSlots host (numGPC_of host.CorePmcrGet)).getD k 0) ∧
    (queryFree host s).drv.calls =
        s.calls ++ (List.range (numGPC_of host.CorePmcrGet)).flatMap (probeCalls host) ∧
    (queryFree host s).drv.numCores = host.KeQueryActiveProcessorCountEx ∧
    (queryFree host s).drv.numGPC = numGPC_of host.CorePmcrGet ∧
    (queryFree host s).drv.numFreeGPC = s.numFreeGPC ∧
    (queryFree host s).drv.core_info = s.core_info := by
  unfold queryFree
  exact probe_loop host _ rfl _

/-- `counter_idx_map[0..numFreeCounters-1]` after the probing loop. -/
theorem queryFree_map_list (host : Host) (s : Driver) :
    (List.range (queryFree host s).numFreeCounters).map (queryFree host s).drv.counter_idx_map =
      freeSlots host (numGPC_of host.CorePmcrGet) := by
  obtain ⟨hn, hmap, _⟩ := queryFree_spec host s
  rw [hn]
  apply List.ext_getElem
  · simp
  · intro k h1 h2
    simp only [List.getElem_map, List.getElem_range, hmap]
    simp [List.getD_eq_getElem?_getD, List.getElem?_eq_getElem h2]

/-- The two outcomes of "2) Alloc PMU counters that are free" with their
calls; only `pmc_resource_handle` and `calls` change. -/
theorem allocFree_spec (host : Host) (m : Nat) (s : Driver) :
    (allocFree host m s).2.numCores = s.numCores ∧
    (allocFree host m s).2.numGPC = s.numGPC ∧
    (allocFree host m s).2.numFreeGPC = s.numFreeGPC ∧
    (allocFree host m s).2.counter_idx_map = s.counter_idx_map ∧
    (allocFree host m s).2.core_info = s.core_info ∧
    (allocFree host m s).2.calls = s.calls ++
      (if host.ExAllocatePool2 = true then
        [DevEffect.ExAllocatePool2 true,
         DevEffect.HalAllocateHardwareCounters ((List.range m).map s.counter_idx_map)
           (host.HalAllocateBulk ((List.range m).map s.counter_idx_map)).1,
         DevEffect.ExFreePoolWithTag]
       else [DevEffect.ExAllocatePool2 false]) ∧
    (allocFree host m s).1 =
      (if host.ExAllocatePool2 = true then
        (if (host.HalAllocateBulk ((List.range m).map s.counter_idx_map)).1 =
            NTSTATUS.STATUS_SUCCESS then none
         else some (host.HalAllocateBulk ((List.range m).map s.counter_idx_map)).1)
       else some NTSTATUS.STATUS_INSUFFICIENT_RESOURCES) := by
  unfold allocFree
  cases hp : host.ExAllocatePool2
  · simp [Driver.call]
  · cases hb : (host.HalAllocateBulk ((List.range m).map s.counter_idx_map)).1 <;>
      simp [Driver.call, hb]

theorem configLoop_all (host : Host) (l : List Nat) :
    ∀ s : Driver, (∀ i ∈ l, tolerated (host.KeSetHardwareCounterConfiguration i) = true) →
      configLoop host l s =
        (none, { s with calls := s.calls ++ l.map (configCall host s) }) := by
  induction l with
  | nil => intro s _; simp [configLoop]
  | cons a l ih =>
    intro s h
    have ha := h a (List.mem_cons_self _ _)
    have hl : ∀ i ∈ l, tolerated (host.KeSetHardwareCounterConfiguration i) = true :=
      fun i hi => h i (List.mem_cons_of_mem _ hi)
    simp only [tolerated, Bool.or_eq_true, decide_eq_true_eq] at ha
    rcases ha with ha | ha
    · simp [configLoop, ha, ih _ hl, Driver.call, configCall]
    · simp [configLoop, ha, ih _ hl, Driver.call, configCall]

theorem configLoop_fail (host : Host) (pre : List Nat) (i : Nat) (post : List Nat) :
    ∀ s : Driver, (∀ j ∈ pre, tolerated (host.KeSetHardwareCounterConfiguration j) = true) →
      tolerated (host.KeSetHardwareCounterConfiguration i) = false →
      configLoop host (pre ++ i :: post) s =
        (some (host.KeSetHardwareCounterConfiguration i),
          { s with calls := s.calls ++ (pre ++ [i]).map (configCall host s) }) := by
  induction pre with
  | nil =>
    intro s _ hi
    simp only [tolerated, Bool.or_eq_false_iff, decide_eq_false_iff_not] at hi
    simp [configLoop, hi.1, hi.2, Driver.call, configCall]
  | cons a pre ih =>
    intro s h hi
    have ha := h a (List.mem_cons_self _ _)
    have hl : ∀ j ∈ pre, tolerated (host.KeSetHardwareCounterConfiguration j) = true :=
      fun j hj => h j (List.mem_cons_of_mem _ hj)
    simp only [tolerated, Bool.or_eq_true, decide_eq_true_eq] at ha
    rcases ha with ha | ha
    · simp [configLoop, ha, ih _ hl hi, Driver.call, configCall]
    · simp [configLoop, ha, ih _ hl hi, Driver.call, configCall]

theorem range_split (m i : Nat) (hi : i < m) :
    List.range m = List.range i ++ i :: List.range' (i + 1) (m - (i + 1)) := by
  have h1 : List.range m = List.range' 0 ((m - i) + i) := by
    rw [List.range_eq_range']
    congr 1
    omega
  have h2 : m - i = (m - (i + 1)) + 1 := by omega
  rw [h1, ← List.range'_append_1, List.range_eq_range', Nat.zero_add, h2, List.range'_succ]

theorem copiedEvents_zero (A : ArchDefs) (events : Nat → pmu_event_kernel) :
    copiedEvents A 0 events = events := by
  funext k
  simp [copiedEvents]

theorem belowCore_zero (f : Nat → CoreSlots → CoreSlots) (ci : Nat → CoreSlots) :
    belowCore 0 f ci = ci := by
  funext j
  simp [belowCore]

theorem copy_loop (A : ArchDefs) (i n : Nat) (s : Driver) :
    forRange n (fun k s => s.onCore i fun core =>
        { core with events := copyEvent core.events k (default_event A k) }) s =
      { s with core_info :=
          atCore i (fun c => { c with events := copiedEvents A n c.events }) s.core_info } := by
  induction n with
  | zero =>
    rw [forRange_zero]
    cases s
    simp only [Driver.mk.injEq, true_and, and_true]
    funext j
    simp only [atCore, copiedEvents_zero]
    split <;> rfl
  | succ n ih =>
    rw [forRange_succ, ih]
    simp only [Driver.onCore, Driver.mk.injEq, true_and, and_true]
    funext j
    by_cases hj : j = i
    · simp only [atCore, hj, if_true, CoreSlots.mk.injEq, true_and, and_true]
      funext k
      by_cases hk : k = n
      · simp [copyEvent, copiedEvents, hk]
      · by_cases hlt : k < n
        · have : k < n + 1 := by omega
          simp [copyEvent, copiedEvents, hk, hlt, this]
        · have : ¬ k < n + 1 := by omega
          simp [copyEvent, copiedEvents, hk, hlt, this]
    · simp [atCore, hj]

theorem assignCore_eq (A : ArchDefs) (i : Nat) (s : Driver) :
    assignCore A i s =
      { s with
        core_info := atCore i (assigned A s.numFreeGPC i) s.core_info
        calls := s.calls ++ assignCalls i } := by
  unfold assignCore
  simp only [copy_loop]
  simp only [Driver.onCore, Driver.call, if_true, assignCalls, List.append_assoc,
    List.singleton_append, Driver.mk.injEq, true_and, and_true]
  funext j
  by_cases hj : j = i
  · simp [atCore, hj, assigned]
  · simp [atCore, hj]

theorem assign_loop (A : ArchDefs) (n : Nat) (s : Driver) :
    forRange n (assignCore A) s =
      { s with
        core_info := belowCore n (assigned A s.numFreeGPC) s.core_info
        calls := s.calls ++ (List.range n).flatMap assignCalls } := by
  induction n with
  | zero =>
    rw [forRange_zero]
    cases s
    simp [belowCore_zero]
  | succ n ih =>
    rw [forRange_succ, ih, assignCore_eq]
    simp only [List.range_succ, List.flatMap_append, List.flatMap_cons, List.flatMap_nil,
      List.append_nil, List.append_assoc, Driver.mk.injEq, true_and, and_true]
    funext j
    by_cases hj : j = n
    · subst hj
      simp [atCore, belowCore]
    · by_cases hlt : j < n
      · have : j < n + 1 := by omega
        simp [atCore, belowCore, hj, hlt, this]
      · have : ¬ j < n + 1 := by omega
        simp [atCore, belowCore, hj, hlt, this]

theorem reset_loop (n : Nat) (s : Driver) :
    forRange n resetCore s =
      { s with
        core_info := belowCore n (fun _ c => { c with timer_round := 0 }) s.core_info
        calls := s.calls ++ (List.range n).map fun i => DevEffect.KeInsertQueueDpc i Dpc.dpc_reset } := by
  induction n with
  | zero =>
    rw [forRange_zero]
    cases s
    simp [belowCore_zero]
  | succ n ih =>
    rw [forRange_succ, ih]
    simp only [resetCore, Driver.onCore, Driver.call, List.range_succ, List.map_append,
      List.map_cons, List.map_nil, List.append_assoc, Driver.mk.injEq, true_and, and_true]
    funext j
    by_cases hj : j = n
    · subst hj
      simp [belowCore]
    · by_cases hlt : j < n
      · have : j < n + 1 := by omega
        simp [belowCore, hj, hlt, this]
      · have : ¬ j < n + 1 := by omega
        simp [belowCore, hj, hlt, this]

/-! ## Counter reservation: the outcomes of `get_pmu_resource` -/

theorem probedSlots_length_le (host : Host) : (probedSlots host).length ≤ 31 :=
  Nat.le_trans (freeSlots_length_le host _) (numGPC_of_le _)

theorem queryFree_numFree (host : Host) (s : Driver) :
    (queryFree host s).numFreeCounters = (probedSlots host).length :=
  (queryFree_spec host s).1

/-- The bulk request lists exactly the free slots: the write of slot 31 does not
touch `counter_idx_map[0..numFreeCounters-1]`. -/
theorem cycleMapped_list (host : Host) (s : Driver) :
    (List.range (probedSlots host).length).map
        (cycleMapped (queryFree host s).drv).counter_idx_map = probedSlots host := by
  have hle := probedSlots_length_le host
  have h := queryFree_map_list host s
  rw [queryFree_numFree] at h
  change _ = probedSlots host at h
  refine Eq.trans ?_ h
  apply List.map_congr_left
  intro k hk
  have hk' : k < (probedSlots host).length := List.mem_range.mp hk
  have : k ≠ CYCLE_COUNTER_IDX := by unfold CYCLE_COUNTER_IDX; omega
  simp [cycleMapped, this]

theorem cycleMapped_at (host : Host) (s : Driver) (k : Nat) (hk : k < (probedSlots host).length) :
    (cycleMapped (queryFree host s).drv).counter_idx_map k = (probedSlots host).getD k 0 := by
  have hle := probedSlots_length_le host
  have : k ≠ CYCLE_COUNTER_IDX := by unfold CYCLE_COUNTER_IDX; omega
  simp only [cycleMapped, this, if_false]
  exact (queryFree_spec host s).2.1 k

theorem gpr_no_free (A : ArchDefs) (host : Host) (s : Driver) (h : probedSlots host = []) :
    get_pmu_resource A host s =
      (NTSTATUS.STATUS_INSUFFICIENT_RESOURCES, (queryFree host s).drv) := by
  have hn := queryFree_numFree host s
  rw [h, List.length_nil] at hn
  simp [get_pmu_resource, hn]

theorem gpr_pool_fails (A : ArchDefs) (host : Host) (s : Driver) (h : probedSlots host ≠ [])
    (hp : host.ExAllocatePool2 = false) :
    get_pmu_resource A host s =
      (NTSTATUS.STATUS_INSUFFICIENT_RESOURCES,
        (cycleMapped (queryFree host s).drv).call (DevEffect.ExAllocatePool2 false)) := by
  have hn := queryFree_numFree host s
  have hne : (queryFree host s).numFreeCounters ≠ 0 := by
    rw [hn]; exact fun h0 => h (List.length_eq_zero.mp h0)
  simp [get_pmu_resource, hne, allocFree, hp, cycleMapped, Driver.call]

theorem gpr_bulk_fails (A : ArchDefs) (host : Host) (s : Driver) (h : probedSlots host ≠ [])
    (hp : host.ExAllocatePool2 = true)
    (hb : (host.HalAllocateBulk (probedSlots host)).1 ≠ NTSTATUS.STATUS_SUCCESS) :
    get_pmu_resource A host s =
      ((host.HalAllocateBulk (probedSlots host)).1,
        { cycleMapped (queryFree host s).drv with
          calls := (queryFree host s).drv.calls ++
            bulkCalls (probedSlots host) (host.HalAllocateBulk (probedSlots host)).1 }) := by
  have hn := queryFree_numFree host s
  have hne : (queryFree host s).numFreeCounters ≠ 0 := by
    rw [hn]; exact fun h0 => h (List.length_eq_zero.mp h0)
  have hlist := cycleMapped_list host s
  rw [← hn] at hlist
  simp only [cycleMapped] at hlist
  simp only [get_pmu_resource, hne, if_false, allocFree, hp, Bool.not_true, Driver.call, hlist]
  cases hst : (host.HalAllocateBulk (probedSlots host)).1 <;>
    simp_all [cycleMapped, bulkCalls]

theorem allocFree_success (host : Host) (m : Nat) (s : Driver)
    (hp : host.ExAllocatePool2 = true)
    (hb : (host.HalAllocateBulk ((List.range m).map s.counter_idx_map)).1 =
      NTSTATUS.STATUS_SUCCESS) :
    allocFree host m s =
      (none, { s with
        pmc_resource_handle := some (host.HalAllocateBulk ((List.range m).map s.counter_idx_map)).2
        calls := s.calls ++
          bulkCalls ((List.range m).map s.counter_idx_map) NTSTATUS.STATUS_SUCCESS }) := by
  simp [allocFree, hp, hb, Driver.call, bulkCalls]

theorem gpr_config_fails (A : ArchDefs) (host : Host) (s : Driver) (h : probedSlots host ≠ [])
    (hp : host.ExAllocatePool2 = true)
    (hb : (host.HalAllocateBulk (probedSlots host)).1 = NTSTATUS.STATUS_SUCCESS)
    (i : Nat) (hi : i < (probedSlots host).length)
    (hpre : ∀ j, j < i → tolerated (host.KeSetHardwareCounterConfiguration j) = true)
    (hfail : tolerated (host.KeSetHardwareCounterConfiguration i) = false) :
    get_pmu_resource A host s =
      (host.KeSetHardwareCounterConfiguration i,
        { cycleMapped (queryFree host s).drv with
          pmc_resource_handle := some (host.HalAllocateBulk (probedSlots host)).2
          numFreeGPC := (probedSlots host).length
          calls := (queryFree host s).drv.calls ++
            bulkCalls (probedSlots host) NTSTATUS.STATUS_SUCCESS ++
            (List.range (i + 1)).map (configCall host (cycleMapped (queryFree host s).drv)) }) := by
  have hn := queryFree_numFree host s
  have hne : (queryFree host s).numFreeCounters ≠ 0 := by
    rw [hn]; exact fun h0 => h (List.length_eq_zero.mp h0)
  have hlist := cycleMapped_list host s
  have hal := allocFree_success host (probedSlots host).length
    (cycleMapped (queryFree host s).drv) hp (by rw [hlist]; exact hb)
  rw [hlist] at hal
  have hcfg := configLoop_fail host (List.range i) i
    (List.range' (i + 1) ((probedSlots host).length - (i + 1)))
    { cycleMapped (queryFree host s).drv with
        pmc_resource_handle := some (host.HalAllocateBulk (probedSlots host)).2
        numFreeGPC := (probedSlots host).length
        calls := (cycleMapped (queryFree host s).drv).calls ++
          bulkCalls (probedSlots host) NTSTATUS.STATUS_SUCCESS }
    (fun j hj => hpre j (List.mem_range.mp hj)) hfail
  rw [← range_split _ _ hi] at hcfg
  have hr : List.range i ++ [i] = List.range (i + 1) := (List.range_succ i).symm
  rw [hr] at hcfg
  have hne' : (probedSlots host).length ≠ 0 := by rw [← hn]; exact hne
  simp only [cycleMapped] at hal hcfg
  simp only [get_pmu_resource, hn, hne', if_false, hal, hcfg]
  simp [cycleMapped, configCall, List.append_assoc]

theorem gpr_success (A : ArchDefs) (host : Host) (s : Driver) (h : probedSlots host ≠ [])
    (hp : host.ExAllocatePool2 = true)
    (hb : (host.HalAllocateBulk (probedSlots host)).1 = NTSTATUS.STATUS_SUCCESS)
    (hall : ∀ j, j < (probedSlots host).length →
      tolerated (host.KeSetHardwareCounterConfiguration j) = true) :
    get_pmu_resource A host s =
      (NTSTATUS.STATUS_SUCCESS,
        { cycleMapped (queryFree host s).drv with
          pmc_resource_handle := some (host.HalAllocateBulk (probedSlots host)).2
          numFreeGPC := (probedSlots host).length
          core_info := belowCore (queryFree host s).drv.numCores
            (fun _ c => { c with timer_round := 0 })
            (belowCore (queryFree host s).drv.numCores
              (assigned A (probedSlots host).length) (queryFree host s).drv.core_info)
          calls := (queryFree host s).drv.calls ++
            bulkCalls (probedSlots host) NTSTATUS.STATUS_SUCCESS ++
            (List.range (probedSlots host).length).map
              (configCall host (cycleMapped (queryFree host s).drv)) ++
            (List.range (queryFree host s).drv.numCores).flatMap assignCalls ++
            resetCalls (queryFree host s).drv.numCores }) := by
  have hn := queryFree_numFree host s
  have hne : (queryFree host s).numFreeCounters ≠ 0 := by
    rw [hn]; exact fun h0 => h (List.length_eq_zero.mp h0)
  have hlist := cycleMapped_list host s
  have hal := allocFree_success host (probedSlots host).length
    (cycleMapped (queryFree host s).drv) hp (by rw [hlist]; exact hb)
  rw [hlist] at hal
  have hcfg := configLoop_all host (List.range (probedSlots host).length)
    { cycleMapped (queryFree host s).drv with
        pmc_resource_handle := some (host.HalAllocateBulk (probedSlots host)).2
        numFreeGPC := (probedSlots host).length
        calls := (cycleMapped (queryFree host s).drv).calls ++
          bulkCalls (probedSlots host) NTSTATUS.STATUS_SUCCESS }
    (fun j hj => hall j (List.mem_range.mp hj))
  have hne' : (probedSlots host).length ≠ 0 := by rw [← hn]; exact hne
  simp only [cycleMapped] at hal hcfg
  simp only [get_pmu_resource, hn, hne', if_false, hal, hcfg, assign_loop, reset_loop]
  simp [cycleMapped, configCall, resetCalls, List.append_assoc]

/-! ## Counter reservation: facts about the host calls -/

theorem configured_append (a b : List DevEffect) :
    configured (a ++ b) = configured a ++ configured b := by
  induction a with
  | nil => rfl
  | cons e a ih => cases e <;> simp [configured, ih]

theorem configured_probe (host : Host) (l : List Nat) :
    configured (l.flatMap (probeCalls host)) = [] := by
  induction l with
  | nil => rfl
  | cons i l ih =>
    rw [List.flatMap_cons, configured_append, ih]
    unfold probeCalls
    split <;> simp [configured]

theorem configured_bulk (slots : List Nat) (status : NTSTATUS) :
    configured (bulkCalls slots status) = [] := rfl

theorem configured_config (host : Host) (s : Driver) (l : List Nat) :
    configured (l.map (configCall host s)) = l.map s.counter_idx_map := by
  induction l with
  | nil => rfl
  | cons i l ih => simp [configCall, configured, ih]

theorem configured_assign (l : List Nat) : configured (l.flatMap assignCalls) = [] := by
  induction l with
  | nil => rfl
  | cons i l ih =>
    rw [List.flatMap_cons, configured_append, ih]
    rfl

theorem configured_reset (n : Nat) : configured (resetCalls n) = [] := by
  unfold resetCalls
  induction (List.range n) with
  | nil => rfl
  | cons i l ih => simp [configured, ih]

theorem probeCalls_no_queue (host : Host) (l : List Nat) :
    ∀ e ∈ l.flatMap (probeCalls host), isInsertQueueDpc e = false := by
  intro e he
  obtain ⟨i, _, hi⟩ := List.mem_flatMap.mp he
  unfold probeCalls at hi
  split at hi <;> simp at hi <;> rcases hi with rfl | rfl <;> rfl

/-- If some call of the thread-profiling loop is not tolerated, there is a
first one. -/
theorem first_not_tolerated (host : Host) (m : Nat)
    (h : ¬ ∀ j, j < m → tolerated (host.KeSetHardwareCounterConfiguration j) = true) :
    ∃ i, i < m ∧ (∀ j, j < i → tolerated (host.KeSetHardwareCounterConfiguration j) = true) ∧
      tolerated (host.KeSetHardwareCounterConfiguration i) = false := by
  have hex : ∃ i, i < m ∧ tolerated (host.KeSetHardwareCounterConfiguration i) = false := by
    by_contra hne
    apply h
    intro j hj
    by_contra hj'
    exact hne ⟨j, hj, by simpa using hj'⟩
  refine ⟨Nat.find hex, (Nat.find_spec hex).1, ?_, (Nat.find_spec hex).2⟩
  intro j hj
  have := Nat.find_min hex hj
  by_contra hj'
  exact this ⟨Nat.lt_trans hj (Nat.find_spec hex).1, by simpa using hj'⟩

theorem not_tolerated_ne_success (st : NTSTATUS) (h : tolerated st = false) :
    st ≠ NTSTATUS.STATUS_SUCCESS := by
  intro hs
  rw [hs] at h
  exact absurd h (by decide)

/-- A run of `get_pmu_resource` that returns `STATUS_SUCCESS` found a free slot,
got its pool block and its bulk reservation, and had every thread-profiling
call tolerated. -/
theorem gpr_success_inv (A : ArchDefs) (host : Host) (s : Driver)
    (h : (get_pmu_resource A host s).1 = NTSTATUS.STATUS_SUCCESS) :
    probedSlots host ≠ [] ∧ host.ExAllocatePool2 = true ∧
      (host.HalAllocateBulk (probedSlots host)).1 = NTSTATUS.STATUS_SUCCESS ∧
      ∀ j, j < (probedSlots host).length →
        tolerated (host.KeSetHardwareCounterConfiguration j) = true := by
  by_cases h0 : probedSlots host = []
  · rw [gpr_no_free A host s h0] at h
    exact absurd h (by simp)
  · cases hp : host.ExAllocatePool2
    · rw [gpr_pool_fails A host s h0 hp] at h
      exact absurd h (by simp)
    · by_cases hb : (host.HalAllocateBulk (probedSlots host)).1 = NTSTATUS.STATUS_SUCCESS
      · refine ⟨h0, rfl, hb, ?_⟩
        by_contra hall
        obtain ⟨i, hi, hpre, hfail⟩ := first_not_tolerated host _ hall
        rw [gpr_config_fails A host s h0 hp hb i hi hpre hfail] at h
        exact not_tolerated_ne_success _ hfail h
      · rw [gpr_bulk_fails A host s h0 hp hb] at h
        exact absurd h hb

/-! ## Counter reservation: the contract -/

/-- C11: for every host answer to the single-slot requests on slots
`0..numGPC-1`, after the probing loop `numFreeCounters` is the number of slots
whose request returned `STATUS_SUCCESS`, `counter_idx_map[0..numFreeCounters-1]`
lists exactly those slots in increasing order, and the calls made are, slot by
slot, the request followed at once, when it succeeded, by the release of the
handle it stored. -/
theorem probing_lists_free_slots (host : Host) (s : Driver) :
    (queryFree host s).numFreeCounters =
        (List.range (queryFree host s).drv.numGPC).countP
          (fun i => (host.HalAllocateSingle i).1 = NTSTATUS.STATUS_SUCCESS) ∧
    ((List.range (queryFree host s).numFreeCounters).map
        (queryFree host s).drv.counter_idx_map).Pairwise (· < ·) ∧
    (∀ i, i ∈ (List.range (queryFree host s).numFreeCounters).map
          (queryFree host s).drv.counter_idx_map ↔
        i < (queryFree host s).drv.numGPC ∧
          (host.HalAllocateSingle i).1 = NTSTATUS.STATUS_SUCCESS) ∧
    (queryFree host s).drv.calls =
        s.calls ++ (List.range (queryFree host s).drv.numGPC).flatMap (probeCalls host) ∧
    (∀ i, (host.HalAllocateSingle i).1 = NTSTATUS.STATUS_SUCCESS →
        probeCalls host i =
          [DevEffect.HalAllocateHardwareCounters [i] NTSTATUS.STATUS_SUCCESS,
           DevEffect.HalFreeHardwareCounters (some (host.HalAllocateSingle i).2)]) ∧
    (∀ i, (host.HalAllocateSingle i).1 ≠ NTSTATUS.STATUS_SUCCESS →
        probeCalls host i =
          [DevEffect.HalAllocateHardwareCounters [i] (host.HalAllocateSingle i).1]) := by
  obtain ⟨hn, _, hcalls, _, hg, _, _⟩ := queryFree_spec host s
  have hlist := queryFree_map_list host s
  rw [hlist, hg]
  refine ⟨?_, freeSlots_sorted host _, freeSlots_success host _, hcalls, ?_, ?_⟩
  · rw [hn, List.countP_eq_length_filter]
    rfl
  · intro i hi
    simp [probeCalls, hi]
  · intro i hi
    simp [probeCalls, hi]

/-- C12: if no single-slot request for slots `0..numGPC-1` succeeds (also when
`numGPC = 0`), `get_pmu_resource` returns `STATUS_INSUFFICIENT_RESOURCES`, its
only host calls are the `numGPC` failed single-slot requests (no pool
allocation, no bulk request), and `numFreeGPC` and every core record are
unchanged. -/
theorem no_free_slot_is_insufficient (A : ArchDefs) (host : Host) (s : Driver)
    (hnone : ∀ i, i < numGPC_of host.CorePmcrGet →
      (host.HalAllocateSingle i).1 ≠ NTSTATUS.STATUS_SUCCESS) :
    (get_pmu_resource A host s).1 = NTSTATUS.STATUS_INSUFFICIENT_RESOURCES ∧
    (get_pmu_resource A host s).2.calls = s.calls ++
      (List.range (numGPC_of host.CorePmcrGet)).map (fun i =>
        DevEffect.HalAllocateHardwareCounters [i] (host.HalAllocateSingle i).1) ∧
    (get_pmu_resource A host s).2.numFreeGPC = s.numFreeGPC ∧
    (get_pmu_resource A host s).2.core_info = s.core_info := by
  have h0 : probedSlots host = [] := by
    unfold probedSlots freeSlots
    rw [List.filter_eq_nil_iff]
    intro i hi
    simpa using hnone i (List.mem_range.mp hi)
  obtain ⟨_, _, hcalls, _, _, hf, hci⟩ := queryFree_spec host s
  rw [gpr_no_free A host s h0]
  refine ⟨rfl, ?_, hf, hci⟩
  rw [hcalls]
  congr 1
  have : ∀ l : List Nat, (∀ i ∈ l, i < numGPC_of host.CorePmcrGet) →
      l.flatMap (probeCalls host) =
        l.map (fun i => DevEffect.HalAllocateHardwareCounters [i] (host.HalAllocateSingle i).1) := by
    intro l
    induction l with
    | nil => intro _; rfl
    | cons a l ih =>
      intro hl
      rw [List.flatMap_cons, ih (fun i hi => hl i (List.mem_cons_of_mem _ hi))]
      simp [probeCalls, hnone a (hl a (List.mem_cons_self _ _))]
  exact this _ (fun i hi => List.mem_range.mp hi)

theorem no_free_slot_is_insufficient_witness :
    (∀ i, i < numGPC_of hostNoFree.CorePmcrGet →
        (hostNoFree.HalAllocateSingle i).1 ≠ NTSTATUS.STATUS_SUCCESS) ∧
      (get_pmu_resource archA hostNoFree driverA).1 = NTSTATUS.STATUS_INSUFFICIENT_RESOURCES :=
  ⟨fun _ _ => by simp [hostNoFree],
    (no_free_slot_is_insufficient archA hostNoFree driverA (fun _ _ => by simp [hostNoFree])).1⟩

/-- C13: if the bulk `HalAllocateHardwareCounters` call returns a status other
than `STATUS_SUCCESS`, `get_pmu_resource` returns that status; `numFreeGPC` and
every core record are unchanged; the calls made are the probes and the bulk
request between the pool allocation and its release, so there is no
thread-profiling configuration and no DPC is queued. -/
theorem bulk_failure_is_returned (A : ArchDefs) (host : Host) (s : Driver)
    (hfree : probedSlots host ≠ []) (hpool : host.ExAllocatePool2 = true)
    (hbulk : (host.HalAllocateBulk (probedSlots host)).1 ≠ NTSTATUS.STATUS_SUCCESS) :
    (get_pmu_resource A host s).1 = (host.HalAllocateBulk (probedSlots host)).1 ∧
    (get_pmu_resource A host s).2.numFreeGPC = s.numFreeGPC ∧
    (get_pmu_resource A host s).2.core_info = s.core_info ∧
    (get_pmu_resource A host s).2.calls = s.calls ++
      ((List.range (numGPC_of host.CorePmcrGet)).flatMap (probeCalls host) ++
        bulkCalls (probedSlots host) (host.HalAllocateBulk (probedSlots host)).1) ∧
    configured ((List.range (numGPC_of host.CorePmcrGet)).flatMap (probeCalls host) ++
        bulkCalls (probedSlots host) (host.HalAllocateBulk (probedSlots host)).1) = [] ∧
    (∀ e ∈ (List.range (numGPC_of host.CorePmcrGet)).flatMap (probeCalls host) ++
        bulkCalls (probedSlots host) (host.HalAllocateBulk (probedSlots host)).1,
      isInsertQueueDpc e = false) := by
  obtain ⟨_, _, hcalls, _, _, hf, hci⟩ := queryFree_spec host s
  rw [gpr_bulk_fails A host s hfree hpool hbulk]
  refine ⟨rfl, hf, hci, ?_, ?_, ?_⟩
  · simp only [hcalls, List.append_assoc]
  · rw [configured_append, configured_probe, configured_bulk]
    rfl
  · intro e he
    rcases List.mem_append.mp he with he | he
    · exact probeCalls_no_queue host _ e he
    · simp only [bulkCalls, List.mem_cons, List.mem_singleton, List.not_mem_nil, or_false] at he
      rcases he with rfl | rfl | rfl <;> rfl

theorem bulk_failure_is_returned_witness :
    probedSlots hostBulkFails ≠ [] ∧ hostBulkFails.ExAllocatePool2 = true ∧
      (hostBulkFails.HalAllocateBulk (probedSlots hostBulkFails)).1 ≠ NTSTATUS.STATUS_SUCCESS ∧
      (get_pmu_resource archA hostBulkFails driverA).1 =
        (hostBulkFails.HalAllocateBulk (probedSlots hostBulkFails)).1 :=
  ⟨by decide, by decide, by decide,
    (bulk_failure_is_returned archA hostBulkFails driverA (by decide) (by decide)
      (by decide)).1⟩

theorem free_loop (n : Nat) (s : Driver) :
    forRange n (fun i s =>
        ((((((s.call (DevEffect.KeCancelTimer i)).onCore i fun core =>
          { core with timer_running := 0 }).call
            (DevEffect.KeRemoveQueueDpc i Dpc.dpc_queue)).call
            (DevEffect.KeRemoveQueueDpc i Dpc.dpc_reset)).call
            (DevEffect.KeRemoveQueueDpc i Dpc.dpc_multiplex)).call
            (DevEffect.KeRemoveQueueDpc i Dpc.dpc_overflow))) s =
      { s with
        core_info := belowCore n (fun _ c => { c with timer_running := 0 }) s.core_info
        calls := s.calls ++ (List.range n).flatMap cancelCalls } := by
  induction n with
  | zero =>
    rw [forRange_zero]
    cases s
    simp [belowCore_zero]
  | succ n ih =>
    rw [forRange_succ, ih]
    simp only [Driver.onCore, Driver.call, List.range_succ, List.flatMap_append,
      List.flatMap_cons, List.flatMap_nil, List.append_nil, cancelCalls, List.append_assoc,
      List.singleton_append, List.cons_append, List.nil_append, Driver.mk.injEq, true_and,
      and_true]
    funext j
    by_cases hj : j = n
    · subst hj
      simp [belowCore]
    · by_cases hlt : j < n
      · have : j < n + 1 := by omega
        simp [belowCore, hj, hlt, this]
      · have : ¬ j < n + 1 := by omega
        simp [belowCore, hj, hlt, this]

theorem free_pmu_resource_eq (status : NTSTATUS) (s : Driver) :
    free_pmu_resource status s =
      { s with
        core_info := belowCore s.numCores (fun _ c => { c with timer_running := 0 }) s.core_info
        pmc_resource_handle := none
        calls := s.calls ++ (List.range s.numCores).flatMap cancelCalls ++
          if s.pmc_resource_handle ≠ none then
            [DevEffect.HalFreeHardwareCounters s.pmc_resource_handle] else [] } := by
  unfold free_pmu_resource
  simp only [free_loop]
  cases hh : s.pmc_resource_handle with
  | none =>
    cases s
    simp_all
  | some h => simp [Driver.call]

/-- C14: after one call of `free_pmu_resource` the handle is `NULL`, whatever
`HalFreeHardwareCounters` returned, and `timer_running = 0` on every core; a
second call right after makes no `HalFreeHardwareCounters` call (its calls are
the per-core cancellations only) and leaves the state as the first call left
it. -/
theorem free_pmu_resource_idempotent (status1 status2 : NTSTATUS) (s : Driver) :
    (free_pmu_resource status1 s).pmc_resource_handle = none ∧
    (∀ i, i < s.numCores → ((free_pmu_resource status1 s).core_info i).timer_running = 0) ∧
    (free_pmu_resource status2 (free_pmu_resource status1 s)).globals =
      (free_pmu_resource status1 s).globals ∧
    (free_pmu_resource status2 (free_pmu_resource status1 s)).calls =
      (free_pmu_resource status1 s).calls ++ (List.range s.numCores).flatMap cancelCalls ∧
    (∀ e ∈ (List.range s.numCores).flatMap cancelCalls, isHalFree e = false) := by
  refine ⟨?_, ?_, ?_, ?_, ?_⟩
  · rw [free_pmu_resource_eq]
  · intro i hi
    rw [free_pmu_resource_eq]
    simp [belowCore, hi]
  · rw [free_pmu_resource_eq status2, free_pmu_resource_eq status1]
    simp only [Driver.globals, Driver.mk.injEq, true_and, and_true]
    funext j
    by_cases hj : j < s.numCores <;> simp [belowCore, hj]
  · rw [free_pmu_resource_eq status2, free_pmu_resource_eq status1]
    simp
  · intro e he
    obtain ⟨i, _, hi⟩ := List.mem_flatMap.mp he
    simp only [cancelCalls, List.mem_cons, List.mem_singleton, List.not_mem_nil, or_false] at hi
    rcases hi with rfl | rfl | rfl | rfl | rfl <;> rfl

theorem probedSlots_getD_lt (host : Host) (k : Nat) (hk : k < (probedSlots host).length) :
    (probedSlots host).getD k 0 < numGPC_of host.CorePmcrGet := by
  rw [List.getD_eq_getElem _ _ hk]
  exact freeSlots_lt host _ _ (List.getElem_mem hk)

theorem probedSlots_strict (host : Host) (k1 k2 : Nat) (h12 : k1 < k2)
    (hk : k2 < (probedSlots host).length) :
    (probedSlots host).getD k1 0 < (probedSlots host).getD k2 0 := by
  have hk1 : k1 < (probedSlots host).length := Nat.lt_trans h12 hk
  rw [List.getD_eq_getElem _ _ hk, List.getD_eq_getElem _ _ hk1]
  exact (List.pairwise_iff_getElem.mp (freeSlots_sorted host _)) k1 k2 hk1 hk h12

theorem configured_prefix (host : Host) (s : Driver) (i : Nat)
    (hi : i < (probedSlots host).length) :
    (List.range (i + 1)).map (cycleMapped (queryFree host s).drv).counter_idx_map =
      (probedSlots host).take (i + 1) := by
  have h := congrArg (List.take (i + 1)) (cycleMapped_list host s)
  rw [← List.map_take, List.take_range, Nat.min_eq_left (by omega)] at h
  exact h

/-- C15: after a successful probe and bulk reservation, `get_pmu_resource` calls
`KeSetHardwareCounterConfiguration` on the slots `counter_idx_map[0..
numFreeGPC-1]` in order, once each. If every status is `STATUS_SUCCESS` or
`STATUS_WMI_ALREADY_ENABLED` all slots are configured and the function returns
`STATUS_SUCCESS`. Otherwise it returns the first status that is neither, right
after that call (the slots after it are not configured), and no core record is
changed. -/
theorem thread_profiling_configuration (A : ArchDefs) (host : Host) (s : Driver)
    (hfree : probedSlots host ≠ []) (hpool : host.ExAllocatePool2 = true)
    (hbulk : (host.HalAllocateBulk (probedSlots host)).1 = NTSTATUS.STATUS_SUCCESS) :
    (List.range (get_pmu_resource A host s).2.numFreeGPC).map
        (get_pmu_resource A host s).2.counter_idx_map = probedSlots host ∧
    ((∀ j, j < (probedSlots host).length →
        tolerated (host.KeSetHardwareCounterConfiguration j) = true) →
      (get_pmu_resource A host s).1 = NTSTATUS.STATUS_SUCCESS ∧
      configured (get_pmu_resource A host s).2.calls =
        configured s.calls ++ probedSlots host) ∧
    (∀ i, i < (probedSlots host).length →
      (∀ j, j < i → tolerated (host.KeSetHardwareCounterConfiguration j) = true) →
      tolerated (host.KeSetHardwareCounterConfiguration i) = false →
        (get_pmu_resource A host s).1 = host.KeSetHardwareCounterConfiguration i ∧
        configured (get_pmu_resource A host s).2.calls =
          configured s.calls ++ (probedSlots host).take (i + 1) ∧
        (get_pmu_resource A host s).2.core_info = s.core_info) := by
  obtain ⟨_, _, hcalls, _, _, _, hci⟩ := queryFree_spec host s
  have hlist := cycleMapped_list host s
  refine ⟨?_, ?_, ?_⟩
  · by_cases hall : ∀ j, j < (probedSlots host).length →
        tolerated (host.KeSetHardwareCounterConfiguration j) = true
    · rw [gpr_success A host s hfree hpool hbulk hall]
      exact hlist
    · obtain ⟨i, hi, hpre, hfail⟩ := first_not_tolerated host _ hall
      rw [gpr_config_fails A host s hfree hpool hbulk i hi hpre hfail]
      exact hlist
  · intro hall
    rw [gpr_success A host s hfree hpool hbulk hall]
    refine ⟨rfl, ?_⟩
    simp only [hcalls, configured_append, configured_probe, configured_bulk, configured_config,
      configured_assign, configured_reset, List.append_nil, hlist]
  · intro i hi hpre hfail
    rw [gpr_config_fails A host s hfree hpool hbulk i hi hpre hfail]
    refine ⟨rfl, ?_, hci⟩
    simp only [hcalls, configured_append, configured_probe, configured_bulk, configured_config,
      List.append_nil, configured_prefix host s i hi]

theorem thread_profiling_configuration_witness :
    probedSlots hostConfigFails ≠ [] ∧ hostConfigFails.ExAllocatePool2 = true ∧
      (hostConfigFails.HalAllocateBulk (probedSlots hostConfigFails)).1 =
        NTSTATUS.STATUS_SUCCESS ∧
      0 < (probedSlots hostConfigFails).length ∧
      tolerated (hostConfigFails.KeSetHardwareCounterConfiguration 0) = false ∧
      (get_pmu_resource archA hostConfigFails driverA).1 =
        hostConfigFails.KeSetHardwareCounterConfiguration 0 ∧
      configured (get_pmu_resource archA hostConfigFails driverA).2.calls =
        configured driverA.calls ++ (probedSlots hostConfigFails).take (0 + 1) :=
  ⟨by decide, by decide, by decide, by decide, by decide,
    ((thread_profiling_configuration archA hostConfigFails driverA (by decide) (by decide)
      (by decide)).2.2 0 (by decide) (fun j hj => absurd hj (Nat.not_lt_zero j))
      (by decide)).1,
    ((thread_profiling_configuration archA hostConfigFails driverA (by decide) (by decide)
      (by decide)).2.2 0 (by decide) (fun j hj => absurd hj (Nat.not_lt_zero j))
      (by decide)).2.1⟩

/-- C16: after a successful `get_pmu_resource`, `1 <= numFreeGPC <= numGPC`, the
values `counter_idx_map[0..numFreeGPC-1]` are strictly increasing (so the map is
injective on the logical indices) and each is `< numGPC`. -/
theorem counter_map_strictly_increasing (A : ArchDefs) (host : Host) (s : Driver)
    (hok : (get_pmu_resource A host s).1 = NTSTATUS.STATUS_SUCCESS) :
    1 ≤ (get_pmu_resource A host s).2.numFreeGPC ∧
    (get_pmu_resource A host s).2.numFreeGPC ≤ (get_pmu_resource A host s).2.numGPC ∧
    (∀ k1 k2, k1 < k2 → k2 < (get_pmu_resource A host s).2.numFreeGPC →
      (get_pmu_resource A host s).2.counter_idx_map k1 <
        (get_pmu_resource A host s).2.counter_idx_map k2) ∧
    (∀ k1 k2, k1 < (get_pmu_resource A host s).2.numFreeGPC →
      k2 < (get_pmu_resource A host s).2.numFreeGPC →
      (get_pmu_resource A host s).2.counter_idx_map k1 =
        (get_pmu_resource A host s).2.counter_idx_map k2 → k1 = k2) ∧
    (∀ k, k < (get_pmu_resource A host s).2.numFreeGPC →
      (get_pmu_resource A host s).2.counter_idx_map k <
        (get_pmu_resource A host s).2.numGPC) := by
  obtain ⟨h0, hp, hb, hall⟩ := gpr_success_inv A host s hok
  obtain ⟨_, _, _, _, hg, _, _⟩ := queryFree_spec host s
  rw [gpr_success A host s h0 hp hb hall]
  have hmono : ∀ k1 k2, k1 < k2 → k2 < (probedSlots host).length →
      (cycleMapped (queryFree host s).drv).counter_idx_map k1 <
        (cycleMapped (queryFree host s).drv).counter_idx_map k2 := by
    intro k1 k2 h12 hk
    rw [cycleMapped_at host s k1 (Nat.lt_trans h12 hk), cycleMapped_at host s k2 hk]
    exact probedSlots_strict host k1 k2 h12 hk
  refine ⟨?_, ?_, hmono, ?_, ?_⟩
  · exact Nat.pos_of_ne_zero fun hz => h0 (List.length_eq_zero.mp hz)
  · show (probedSlots host).length ≤ (queryFree host s).drv.numGPC
    rw [hg]
    exact freeSlots_length_le host _
  · intro k1 k2 hk1 hk2 heq
    rcases Nat.lt_trichotomy k1 k2 with hlt | heq' | hgt
    · exact absurd heq (Nat.ne_of_lt (hmono k1 k2 hlt hk2))
    · exact heq'
    · exact absurd heq.symm (Nat.ne_of_lt (hmono k2 k1 hgt hk1))
  · intro k hk
    show (cycleMapped (queryFree host s).drv).counter_idx_map k < (queryFree host s).drv.numGPC
    rw [hg, cycleMapped_at host s k hk]
    exact probedSlots_getD_lt host k hk

theorem counter_map_strictly_increasing_witness :
    (get_pmu_resource archA hostA driverA).1 = NTSTATUS.STATUS_SUCCESS ∧
      1 ≤ (get_pmu_resource archA hostA driverA).2.numFreeGPC ∧
      (get_pmu_resource archA hostA driverA).2.numFreeGPC ≤
        (get_pmu_resource archA hostA driverA).2.numGPC :=
  ⟨by decide,
    (counter_map_strictly_increasing archA hostA driverA (by decide)).1,
    (counter_map_strictly_increasing archA hostA driverA (by decide)).2.1⟩

theorem default_events_length (A : ArchDefs) : (default_events A).length = 32 := rfl

/-- Once a free slot has been found, the state `get_pmu_resource` returns has
the map of the state after line `counter_idx_map[CYCLE_COUNTER_IDX] =
CYCLE_COUNTER_IDX`, whatever happens next. -/
theorem gpr_map_after_probe (A : ArchDefs) (host : Host) (s : Driver)
    (hfree : probedSlots host ≠ []) :
    (get_pmu_resource A host s).2.counter_idx_map =
      (cycleMapped (queryFree host s).drv).counter_idx_map := by
  cases hp : host.ExAllocatePool2
  · rw [gpr_pool_fails A host s hfree hp]
    rfl
  · by_cases hb : (host.HalAllocateBulk (probedSlots host)).1 = NTSTATUS.STATUS_SUCCESS
    · by_cases hall : ∀ j, j < (probedSlots host).length →
          tolerated (host.KeSetHardwareCounterConfiguration j) = true
      · rw [gpr_success A host s hfree hp hb hall]
      · obtain ⟨i, hi, hpre, hfail⟩ := first_not_tolerated host _ hall
        rw [gpr_config_fails A host s hfree hp hb i hi hpre hfail]
    · rw [gpr_bulk_fails A host s hfree hp hb]

/-- C17: among the default events, the one with index `CYCLE_EVENT_IDX` is entry
0 and only entry 0, its counter index is `CYCLE_COUNTER_IDX` and no other entry
has that counter index; and once the probe has found a free slot,
`counter_idx_map[CYCLE_COUNTER_IDX] = CYCLE_COUNTER_IDX` whichever slots were
free. The enumerators `PMU_EVENT_*` are taken to differ from
`CYCLE_EVENT_IDX`. -/
theorem cycle_event_uses_cycle_counter (A : ArchDefs) (host : Host) (s : Driver)
    (hA : ∀ a, A.PMU_EVENT a ≠ CYCLE_EVENT_IDX) :
    (∀ k, k < (default_events A).length →
      ((default_event A k).event_idx = CYCLE_EVENT_IDX ↔ k = 0)) ∧
    (∀ k, k < (default_events A).length →
      ((default_event A k).counter_idx = CYCLE_COUNTER_IDX ↔ k = 0)) ∧
    (probedSlots host ≠ [] →
      (get_pmu_resource A host s).2.counter_idx_map CYCLE_COUNTER_IDX = CYCLE_COUNTER_IDX) := by
  refine ⟨?_, ?_, ?_⟩
  · intro k hk
    rw [default_events_length] at hk
    interval_cases k <;> simp [default_event, default_events, hA]
  · intro k hk
    rw [default_events_length] at hk
    interval_cases k <;> simp [default_event, default_events, CYCLE_COUNTER_IDX]
  · intro hfree
    rw [gpr_map_after_probe A host s hfree]
    simp [cycleMapped]

theorem cycle_event_uses_cycle_counter_witness :
    (∀ a, archA.PMU_EVENT a ≠ CYCLE_EVENT_IDX) ∧ probedSlots hostA ≠ [] ∧
      ((default_event archA 0).event_idx = CYCLE_EVENT_IDX ↔ 0 = 0) ∧
      (get_pmu_resource archA hostA driverA).2.counter_idx_map CYCLE_COUNTER_IDX =
        CYCLE_COUNTER_IDX :=
  ⟨fun a => by cases a <;> decide, by decide,
    (cycle_event_uses_cycle_counter archA hostA driverA
      (fun a => by cases a <;> decide)).1 0 (by decide),
    (cycle_event_uses_cycle_counter archA hostA driverA
      (fun a => by cases a <;> decide)).2.2 (by decide)⟩

theorem default_counter_idx (A : ArchDefs) (k : Nat) (hk : k < 32) :
    (default_event A k).counter_idx = if k = 0 then CYCLE_COUNTER_IDX else k - 1 := by
  interval_cases k <;> simp [default_event, default_events, CYCLE_COUNTER_IDX]

theorem default_event_getElem? (A : ArchDefs) (k : Nat) (hk : k < 32) :
    (default_events A)[k]? = some (default_event A k) := by
  have hl : k < (default_events A).length := by rw [default_events_length]; exact hk
  rw [List.getElem?_eq_getElem hl]
  unfold default_event
  rw [List.getD_eq_getElem _ _ hl]

/-- The record of a core after a successful `get_pmu_resource`. -/
theorem gpr_success_core (A : ArchDefs) (host : Host) (s : Driver)
    (hok : (get_pmu_resource A host s).1 = NTSTATUS.STATUS_SUCCESS) :
    (get_pmu_resource A host s).2.numFreeGPC = (probedSlots host).length ∧
    (get_pmu_resource A host s).2.counter_idx_map =
      (cycleMapped (queryFree host s).drv).counter_idx_map ∧
    (∀ i, i < (get_pmu_resource A host s).2.numCores →
      (get_pmu_resource A host s).2.core_info i =
        { assigned A (probedSlots host).length i (s.core_info i) with timer_round := 0 }) := by
  obtain ⟨h0, hp, hb, hall⟩ := gpr_success_inv A host s hok
  obtain ⟨_, _, _, _, _, _, hci⟩ := queryFree_spec host s
  rw [gpr_success A host s h0 hp hb hall]
  refine ⟨rfl, rfl, ?_⟩
  intro i hi
  have hi' : i < (queryFree host s).drv.numCores := hi
  simp [belowCore, hi', hci]

/-- C18: after a successful `get_pmu_resource`, every core `i < numCores` has
`idx = i`, `events_num = numFPC + numFreeGPC` (at most the length of
`default_events`), `events[k] = default_events[k]` for every `k < events_num`,
and the entries of `events` from `events_num` on are as they were: the default
events at positions `>= numFPC + numFreeGPC` are not assigned. -/
theorem default_events_bound_in_order (A : ArchDefs) (host : Host) (s : Driver)
    (hok : (get_pmu_resource A host s).1 = NTSTATUS.STATUS_SUCCESS)
    (i : Nat) (hi : i < (get_pmu_resource A host s).2.numCores) :
    ((get_pmu_resource A host s).2.core_info i).idx = i ∧
    ((get_pmu_resource A host s).2.core_info i).events_num =
      numFPC + (get_pmu_resource A host s).2.numFreeGPC ∧
    ((get_pmu_resource A host s).2.core_info i).events_num ≤ (default_events A).length ∧
    (∀ k, k < ((get_pmu_resource A host s).2.core_info i).events_num →
      (default_events A)[k]? = some (((get_pmu_resource A host s).2.core_info i).events k)) ∧
    (∀ k, ((get_pmu_resource A host s).2.core_info i).events_num ≤ k →
      ((get_pmu_resource A host s).2.core_info i).events k = (s.core_info i).events k) := by
  obtain ⟨hm, _, hcore⟩ := gpr_success_core A host s hok
  have hle := probedSlots_length_le host
  rw [hcore i hi, hm]
  refine ⟨rfl, rfl, ?_, ?_, ?_⟩ <;> simp only [assigned]
  · rw [default_events_length]; unfold numFPC; omega
  · intro k hk
    have hk32 : k < 32 := by unfold numFPC at hk; omega
    rw [default_event_getElem? A k hk32]
    simp [copiedEvents, hk]
  · intro k hk
    have : ¬ k < numFPC + (probedSlots host).length := Nat.not_lt.mpr hk
    simp [copiedEvents, this]

theorem default_events_bound_in_order_witness :
    (get_pmu_resource archA hostA driverA).1 = NTSTATUS.STATUS_SUCCESS ∧
      1 < (get_pmu_resource archA hostA driverA).2.numCores ∧
      ((get_pmu_resource archA hostA driverA).2.core_info 1).idx = 1 ∧
      ((get_pmu_resource archA hostA driverA).2.core_info 1).events_num =
        numFPC + (get_pmu_resource archA hostA driverA).2.numFreeGPC :=
  ⟨by decide, by decide,
    (default_events_bound_in_order archA hostA driverA (by decide) 1 (by decide)).1,
    (default_events_bound_in_order archA hostA driverA (by decide) 1 (by decide)).2.1⟩

/-- The counter index of the event bound at position `k` of a core after a
successful `get_pmu_resource`. -/
theorem gpr_success_event_counter (A : ArchDefs) (host : Host) (s : Driver)
    (hok : (get_pmu_resource A host s).1 = NTSTATUS.STATUS_SUCCESS)
    (i : Nat) (hi : i < (get_pmu_resource A host s).2.numCores)
    (k : Nat) (hk : k < ((get_pmu_resource A host s).2.core_info i).events_num) :
    k < numFPC + (probedSlots host).length ∧
    (((get_pmu_resource A host s).2.core_info i).events k).counter_idx =
      if k = 0 then CYCLE_COUNTER_IDX else k - 1 := by
  obtain ⟨_, _, hcore⟩ := gpr_success_core A host s hok
  have hle := probedSlots_length_le host
  rw [hcore i hi] at hk ⊢
  simp only [assigned] at hk ⊢
  have hk32 : k < 32 := by unfold numFPC at hk; omega
  refine ⟨hk, ?_⟩
  simp only [copiedEvents, hk, if_true]
  exact default_counter_idx A k hk32

/-- C19: no two entries of `default_events` share a counter index (entry 0 has
`CYCLE_COUNTER_IDX`, entry `k >= 1` has `k - 1`), so after the default
assignment of a successful `get_pmu_resource` two different events of a core
have different counter indices, and `counter_idx_map` sends them to different
physical counters. -/
theorem default_events_distinct_counters (A : ArchDefs) (host : Host) (s : Driver) :
    ((default_events A).map fun e => e.counter_idx).Nodup ∧
    (default_event A 0).counter_idx = CYCLE_COUNTER_IDX ∧
    (∀ k, 1 ≤ k → k < (default_events A).length → (default_event A k).counter_idx = k - 1) ∧
    ((get_pmu_resource A host s).1 = NTSTATUS.STATUS_SUCCESS →
      ∀ i, i < (get_pmu_resource A host s).2.numCores →
      ∀ k1 k2, k1 < ((get_pmu_resource A host s).2.core_info i).events_num →
        k2 < ((get_pmu_resource A host s).2.core_info i).events_num → k1 ≠ k2 →
          (((get_pmu_resource A host s).2.core_info i).events k1).counter_idx ≠
            (((get_pmu_resource A host s).2.core_info i).events k2).counter_idx ∧
          (get_pmu_resource A host s).2.counter_idx_map
              (((get_pmu_resource A host s).2.core_info i).events k1).counter_idx ≠
            (get_pmu_resource A host s).2.counter_idx_map
              (((get_pmu_resource A host s).2.core_info i).events k2).counter_idx) := by
  refine ⟨by simp [default_events, CYCLE_COUNTER_IDX], rfl, ?_, ?_⟩
  · intro k h1 hk
    rw [default_events_length] at hk
    rw [default_counter_idx A k hk]
    have : k ≠ 0 := by omega
    simp [this]
  · intro hok i hi k1 k2 hk1 hk2 hne
    obtain ⟨_, hmap, _⟩ := gpr_success_core A host s hok
    obtain ⟨hb1, hc1⟩ := gpr_success_event_counter A host s hok i hi k1 hk1
    obtain ⟨hb2, hc2⟩ := gpr_success_event_counter A host s hok i hi k2 hk2
    have hle := probedSlots_length_le host
    have hn31 := numGPC_of_le host.CorePmcrGet
    rw [hc1, hc2, hmap]
    unfold numFPC at hb1 hb2
    have hcyc : (cycleMapped (queryFree host s).drv).counter_idx_map CYCLE_COUNTER_IDX =
        CYCLE_COUNTER_IDX := by simp [cycleMapped]
    have hphys : ∀ k, k ≠ 0 → k < 1 + (probedSlots host).length →
        (cycleMapped (queryFree host s).drv).counter_idx_map (k - 1) < 31 := by
      intro k hk0 hk
      rw [cycleMapped_at host s (k - 1) (by omega)]
      have := probedSlots_getD_lt host (k - 1) (by omega)
      omega
    by_cases h10 : k1 = 0
    · have h20 : k2 ≠ 0 := fun h => hne (h10.trans h.symm)
      have := hphys k2 h20 hb2
      simp only [h10, h20, if_true, if_false, hcyc]
      unfold CYCLE_COUNTER_IDX
      constructor <;> omega
    · by_cases h20 : k2 = 0
      · have := hphys k1 h10 hb1
        simp only [h10, h20, if_true, if_false, hcyc]
        unfold CYCLE_COUNTER_IDX
        constructor <;> omega
      · simp only [h10, h20, if_false]
        refine ⟨by omega, ?_⟩
        rcases Nat.lt_or_gt_of_ne hne with hlt | hgt
        · have := probedSlots_strict host (k1 - 1) (k2 - 1) (by omega) (by omega)
          rw [cycleMapped_at host s (k1 - 1) (by omega), cycleMapped_at host s (k2 - 1) (by omega)]
          omega
        · have := probedSlots_strict host (k2 - 1) (k1 - 1) (by omega) (by omega)
          rw [cycleMapped_at host s (k1 - 1) (by omega), cycleMapped_at host s (k2 - 1) (by omega)]
          omega

theorem default_events_distinct_counters_witness :
    (get_pmu_resource archA hostA driverA).1 = NTSTATUS.STATUS_SUCCESS ∧
      1 < (get_pmu_resource archA hostA driverA).2.numCores ∧
      0 < ((get_pmu_resource archA hostA driverA).2.core_info 1).events_num ∧
      2 < ((get_pmu_resource archA hostA driverA).2.core_info 1).events_num ∧
      (((get_pmu_resource archA hostA driverA).2.core_info 1).events 0).counter_idx ≠
        (((get_pmu_resource archA hostA driverA).2.core_info 1).events 2).counter_idx :=
  ⟨by decide, by decide, by decide, by decide,
    ((default_events_distinct_counters archA hostA driverA).2.2.2 (by decide) 1 (by decide)
      0 2 (by decide) (by decide) (by decide)).1⟩

/-- C20: after a successful `get_pmu_resource` the host has granted the bulk
request listing `counter_idx_map[0..numFreeGPC-1]`, and for every core and every
`k < events_num`, `events[k].counter_idx` is `CYCLE_COUNTER_IDX` or a logical
index `< numFreeGPC` whose physical slot `counter_idx_map[counter_idx]` is one
of the slots of that request. -/
theorem assigned_counters_are_reserved (A : ArchDefs) (host : Host) (s : Driver)
    (hok : (get_pmu_resource A host s).1 = NTSTATUS.STATUS_SUCCESS) :
    DevEffect.HalAllocateHardwareCounters
        ((List.range (get_pmu_resource A host s).2.numFreeGPC).map
          (get_pmu_resource A host s).2.counter_idx_map) NTSTATUS.STATUS_SUCCESS ∈
      (get_pmu_resource A host s).2.calls ∧
    (∀ i, i < (get_pmu_resource A host s).2.numCores →
      ∀ k, k < ((get_pmu_resource A host s).2.core_info i).events_num →
        (((get_pmu_resource A host s).2.core_info i).events k).counter_idx = CYCLE_COUNTER_IDX ∨
        ((((get_pmu_resource A host s).2.core_info i).events k).counter_idx <
            (get_pmu_resource A host s).2.numFreeGPC ∧
          (get_pmu_resource A host s).2.counter_idx_map
              (((get_pmu_resource A host s).2.core_info i).events k).counter_idx ∈
            (List.range (get_pmu_resource A host s).2.numFreeGPC).map
              (get_pmu_resource A host s).2.counter_idx_map)) := by
  obtain ⟨hm, hmap, _⟩ := gpr_success_core A host s hok
  obtain ⟨h0, hp, hb, hall⟩ := gpr_success_inv A host s hok
  constructor
  · rw [hm, hmap, cycleMapped_list host s, gpr_success A host s h0 hp hb hall]
    simp [bulkCalls]
  · intro i hi k hk
    obtain ⟨hbk, hc⟩ := gpr_success_event_counter A host s hok i hi k hk
    rw [hc, hm]
    unfold numFPC at hbk
    by_cases hk0 : k = 0
    · left; simp [hk0]
    · right
      simp only [hk0, if_false]
      refine ⟨by omega, ?_⟩
      exact List.mem_map.mpr ⟨k - 1, List.mem_range.mpr (by omega), rfl⟩

theorem assigned_counters_are_reserved_witness :
    (get_pmu_resource archA hostA driverA).1 = NTSTATUS.STATUS_SUCCESS ∧
      DevEffect.HalAllocateHardwareCounters
          ((List.range (get_pmu_resource archA hostA driverA).2.numFreeGPC).map
            (get_pmu_resource archA hostA driverA).2.counter_idx_map)
          NTSTATUS.STATUS_SUCCESS ∈ (get_pmu_resource archA hostA driverA).2.calls :=
  ⟨by decide, (assigned_counters_are_reserved archA hostA driverA (by decide)).1⟩

/-! ## Order of the capture path -/

theorem withLock_append_free (a b : List Effect)
    (ha : ∀ e ∈ a, isLockOp e = false) (held : Bool) :
    withLock held (a ++ b) = a.map (fun e => (e, held)) ++ withLock held b := by
  induction a with
  | nil => rfl
  | cons e a ih =>
    have he := ha e (List.mem_cons_self _ _)
    have ha' : ∀ x ∈ a, isLockOp x = false := fun x hx => ha x (List.mem_cons_of_mem _ hx)
    cases e <;> simp_all [withLock, isLockOp]

theorem withLock_free (a : List Effect) (ha : ∀ e ∈ a, isLockOp e = false) (held : Bool) :
    withLock held a = a.map (fun e => (e, held)) := by
  have := withLock_append_free a [] ha held
  simpa [withLock] using this

/-- C26, as stated, fails: in a capture on `coreA` with overflow flags 7 the
effects are stop, ring store, release of `SampleLock`, then the two counter
reloads, then start; both reloads are made after the release. -/
theorem capture_reloads_after_release :
    (arm64_pmi_ISR 128 7 frameA coreA).2 =
      [Effect.readPMOVSCLR, Effect.writePMOVSCLR 7, Effect.isb,
        Effect.tryAcquireSampleLock true, Effect.CoreCounterStop,
        Effect.sampleStore 0 { lr := 0x2000, pc := 0x1000, ov_flags := 5 },
        Effect.releaseSampleLock,
        Effect.CoreWriteCounter 0 4294867295, Effect.CoreWriteCounter 2 4294867295,
        Effect.CoreCounterStart] ∧
    writesUnderLock (arm64_pmi_ISR 128 7 frameA coreA).2 = 0 ∧
    writesWithoutLock (arm64_pmi_ISR 128 7 frameA coreA).2 = 2 := by
  decide

/-- C26, amended: in the capture path the effects are, in order: counters
stopped, the sample stored at the old `sample_idx` (the index is advanced),
`SampleLock` released, every overflowed counter reloaded, counters restarted.
No counter is written while the ISR holds `SampleLock`. -/
theorem capture_order (N pmov : Nat) (tf : KTRAP_FRAME) (core : CoreInfo)
    (hov : maskedOv pmov core ≠ 0)
    (hacq : (KeTryToAcquireSpinLockAtDpcLevel core.SampleLock).1 = true)
    (hidx : core.sample_idx ≠ N) :
    (arm64_pmi_ISR N pmov tf core).2 =
      [Effect.readPMOVSCLR, Effect.writePMOVSCLR (pmov &&& 0xffffffff), Effect.isb,
        Effect.tryAcquireSampleLock true, Effect.CoreCounterStop,
        Effect.sampleStore core.sample_idx
          { lr := tf.Lr, pc := tf.Pc, ov_flags := maskedOv pmov core },
        Effect.releaseSampleLock]
        ++ reloadLoop core.sample_interval (maskedOv pmov core)
        ++ [Effect.CoreCounterStart] ∧
    (arm64_pmi_ISR N pmov tf core).1.sample_idx = core.sample_idx + 1 ∧
    (arm64_pmi_ISR N pmov tf core).1.SampleLock = false ∧
    writesUnderLock (arm64_pmi_ISR N pmov tf core).2 = 0 ∧
    writesWithoutLock (arm64_pmi_ISR N pmov tf core).2 =
      (reloadLoop core.sample_interval (maskedOv pmov core)).length := by
  have hl := (tryAcquire_succeeds_iff _).mp hacq
  rw [isr_capture N pmov tf core hov hl hidx]
  have hfree : ∀ e ∈ reloadLoop core.sample_interval (maskedOv pmov core) ++
      [Effect.CoreCounterStart], isLockOp e = false := by
    intro e he
    rcases List.mem_append.mp he with he | he
    · exact (reloadLoop_no_stopStart _ _ e he).2.1
    · simp only [List.mem_singleton] at he
      subst he
      rfl
  have hw : withLock false
      ([Effect.readPMOVSCLR, Effect.writePMOVSCLR (pmov &&& 0xffffffff), Effect.isb,
        Effect.tryAcquireSampleLock true, Effect.CoreCounterStop,
        Effect.sampleStore core.sample_idx ⟨tf.Lr, tf.Pc, maskedOv pmov core⟩,
        Effect.releaseSampleLock]
        ++ reloadLoop core.sample_interval (maskedOv pmov core)
        ++ [Effect.CoreCounterStart]) =
      [(Effect.readPMOVSCLR, false), (Effect.writePMOVSCLR (pmov &&& 0xffffffff), false),
        (Effect.isb, false), (Effect.tryAcquireSampleLock true, false),
        (Effect.CoreCounterStop, true),
        (Effect.sampleStore core.sample_idx ⟨tf.Lr, tf.Pc, maskedOv pmov core⟩, true),
        (Effect.releaseSampleLock, true)] ++
      (reloadLoop core.sample_interval (maskedOv pmov core) ++
        [Effect.CoreCounterStart]).map (fun e => (e, false)) := by
    rw [List.append_assoc]
    simp only [List.cons_append, List.nil_append, withLock, List.append_eq]
    rw [withLock_free _ hfree false]
  have hcount : ∀ l : List Effect, (∀ e ∈ l, ∃ j, counterWritten e = some j) →
      (l.map (fun e => (e, false))).countP
        (fun p => (counterWritten p.1).isSome && !p.2) = l.length := by
    intro l hl
    induction l with
    | nil => rfl
    | cons e l ih =>
      obtain ⟨j, hj⟩ := hl e (List.mem_cons_self _ _)
      simp [List.countP_cons, hj, ih (fun x hx => hl x (List.mem_cons_of_mem _ hx))]
  refine ⟨rfl, rfl, hl, ?_, ?_⟩
  · unfold writesUnderLock
    rw [hw, List.countP_append, List.countP_eq_zero.mpr, List.countP_eq_zero.mpr]
    · intro p hp
      obtain ⟨e, _, rfl⟩ := List.mem_map.mp hp
      simp
    · intro p hp
      simp only [List.mem_cons, List.mem_singleton, List.not_mem_nil, or_false] at hp
      rcases hp with rfl | rfl | rfl | rfl | rfl | rfl | rfl <;> simp [counterWritten]
  · unfold writesWithoutLock
    rw [hw, List.countP_append, List.map_append, List.countP_append,
      hcount _ (fun e he => by
        obtain ⟨j, _, _, rfl⟩ := (mem_reloadLoop _ _ e).mp he
        exact ⟨j, counterWritten_reloadCounter _ j⟩)]
    simp [counterWritten]

theorem capture_order_witness :
    maskedOv 7 coreA ≠ 0 ∧
      (KeTryToAcquireSpinLockAtDpcLevel coreA.SampleLock).1 = true ∧
      coreA.sample_idx ≠ 128 ∧
      writesUnderLock (arm64_pmi_ISR 128 7 frameA coreA).2 = 0 :=
  ⟨by decide, by decide, by decide,
    (capture_order 128 7 frameA coreA (by decide) (by decide) (by decide)).2.2.2.1⟩

/-! ## Reservations held after `get_pmu_resource` -/

theorem heldCount_append (a b : List DevEffect) :
    ∀ n, heldCount (a ++ b) n = heldCount b (heldCount a n) := by
  induction a with
  | nil => intro n; rfl
  | cons e a ih =>
    intro n
    cases e with
    | HalAllocateHardwareCounters l st => cases st <;> simp [heldCount, ih]
    | _ => simp [heldCount, ih]

theorem heldCount_probe (host : Host) (l : List Nat) :
    ∀ n, heldCount (l.flatMap (probeCalls host)) n = n := by
  induction l with
  | nil => intro n; rfl
  | cons i l ih =>
    intro n
    rw [List.flatMap_cons, heldCount_append, ih]
    unfold probeCalls
    split
    · simp [heldCount]
    · rename_i h
      cases hst : (host.HalAllocateSingle i).1 <;> simp_all [heldCount]

theorem heldCount_bulk (slots : List Nat) (st : NTSTATUS) (n : Nat) :
    heldCount (bulkCalls slots st) n = if st = NTSTATUS.STATUS_SUCCESS then n + 1 else n := by
  cases st <;> simp [bulkCalls, heldCount]

theorem heldCount_config (host : Host) (s : Driver) (l : List Nat) :
    ∀ n, heldCount (l.map (configCall host s)) n = n := by
  induction l with
  | nil => intro n; rfl
  | cons i l ih => intro n; simp [configCall, heldCount, ih]

theorem freedHandles_append (a b : List DevEffect) :
    freedHandles (a ++ b) = freedHandles a ++ freedHandles b := by
  induction a with
  | nil => rfl
  | cons e a ih => cases e <;> simp [freedHandles, ih]

theorem freedHandles_cancel (l : List Nat) : freedHandles (l.flatMap cancelCalls) = [] := by
  induction l with
  | nil => rfl
  | cons i l ih =>
    rw [List.flatMap_cons, freedHandles_append, ih]
    rfl

/-- C21, as stated, fails: when the first thread-profiling call fails,
`get_pmu_resource` returns that failure while the bulk reservation it has just
obtained (handle 200) is still held. -/
theorem config_failure_keeps_reservation :
    (get_pmu_resource archA hostConfigFails driverA).1 = NTSTATUS.other 0xC0000001 ∧
    (get_pmu_resource archA hostConfigFails driverA).1 ≠ NTSTATUS.STATUS_SUCCESS ∧
    heldCount (get_pmu_resource archA hostConfigFails driverA).2.calls 0 = 1 ∧
    (get_pmu_resource archA hostConfigFails driverA).2.pmc_resource_handle = some 200 ∧
    freedHandles (get_pmu_resource archA hostConfigFails driverA).2.calls =
      [some 100, some 102, some 103] := by
  decide

/-- C21, amended: when `get_pmu_resource` returns a failure status without
having obtained the bulk reservation (no free slot, pool allocation failed, or
bulk request failed), no reservation obtained during the call is held: each
probe reservation was given back right after it was obtained. When it fails
after the bulk reservation succeeded (a thread-profiling call failed), that
reservation is still held, its handle is in `pmc_resource_handle`, and the next
`free_pmu_resource` passes it to `HalFreeHardwareCounters` and clears the
handle. -/
theorem failure_and_reservation (A : ArchDefs) (host : Host) (s : Driver)
    (hfail : (get_pmu_resource A host s).1 ≠ NTSTATUS.STATUS_SUCCESS) :
    (¬ (probedSlots host ≠ [] ∧ host.ExAllocatePool2 = true ∧
        (host.HalAllocateBulk (probedSlots host)).1 = NTSTATUS.STATUS_SUCCESS) →
      heldCount (get_pmu_resource A host s).2.calls 0 = heldCount s.calls 0) ∧
    (probedSlots host ≠ [] → host.ExAllocatePool2 = true →
      (host.HalAllocateBulk (probedSlots host)).1 = NTSTATUS.STATUS_SUCCESS →
        heldCount (get_pmu_resource A host s).2.calls 0 = heldCount s.calls 0 + 1 ∧
        (get_pmu_resource A host s).2.pmc_resource_handle =
          some (host.HalAllocateBulk (probedSlots host)).2 ∧
        ∀ st, freedHandles (free_pmu_resource st (get_pmu_resource A host s).2).calls =
            freedHandles (get_pmu_resource A host s).2.calls ++
              [some (host.HalAllocateBulk (probedSlots host)).2] ∧
          (free_pmu_resource st (get_pmu_resource A host s).2).pmc_resource_handle = none) := by
  obtain ⟨_, _, hcalls, _, _, _, _⟩ := queryFree_spec host s
  constructor
  · intro hnot
    by_cases h0 : probedSlots host = []
    · rw [gpr_no_free A host s h0, hcalls, heldCount_append, heldCount_probe]
    · cases hp : host.ExAllocatePool2
      · rw [gpr_pool_fails A host s h0 hp]
        simp only [Driver.call, cycleMapped, hcalls, heldCount_append, heldCount_probe]
        rfl
      · have hb : (host.HalAllocateBulk (probedSlots host)).1 ≠ NTSTATUS.STATUS_SUCCESS :=
          fun hb => hnot ⟨h0, hp, hb⟩
        rw [gpr_bulk_fails A host s h0 hp hb]
        simp only [hcalls, heldCount_append, heldCount_probe, heldCount_bulk, hb, if_false]
  · intro h0 hp hb
    have hall : ¬ ∀ j, j < (probedSlots host).length →
        tolerated (host.KeSetHardwareCounterConfiguration j) = true := by
      intro hall
      rw [gpr_success A host s h0 hp hb hall] at hfail
      exact hfail rfl
    obtain ⟨i, hi, hpre, hf⟩ := first_not_tolerated host _ hall
    rw [gpr_config_fails A host s h0 hp hb i hi hpre hf]
    refine ⟨?_, rfl, ?_⟩
    · simp only [hcalls, heldCount_append, heldCount_probe, heldCount_bulk, heldCount_config,
        if_true]
    · intro st
      rw [free_pmu_resource_eq]
      simp [freedHandles_append, freedHandles_cancel, freedHandles]

theorem failure_and_reservation_witness :
    (get_pmu_resource archA hostConfigFails driverA).1 ≠ NTSTATUS.STATUS_SUCCESS ∧
      probedSlots hostConfigFails ≠ [] ∧ hostConfigFails.ExAllocatePool2 = true ∧
      (hostConfigFails.HalAllocateBulk (probedSlots hostConfigFails)).1 =
        NTSTATUS.STATUS_SUCCESS ∧
      heldCount (get_pmu_resource archA hostConfigFails driverA).2.calls 0 =
        heldCount driverA.calls 0 + 1 :=
  ⟨by decide, by decide, by decide, by decide,
    ((failure_and_reservation archA hostConfigFails driverA (by decide)).2 (by decide)
      (by decide) (by decide)).1⟩

/-- C27: the code at a failing input. Slots 0, 2 and 3 are free and probed with
handles 100, 102 and 103, each released in the probing loop; the bulk request
then fails and leaves `pmc_resource_handle` at 103; `free_pmu_resource` passes
103 to `HalFreeHardwareCounters` a second time. -/
theorem stale_probe_handle_freed_twice :
    (get_pmu_resource archA hostBulkFails driverA).1 =
        NTSTATUS.STATUS_INSUFFICIENT_RESOURCES ∧
    (get_pmu_resource archA hostBulkFails driverA).2.pmc_resource_handle = some 103 ∧
    freedHandles (get_pmu_resource archA hostBulkFails driverA).2.calls =
        [some 100, some 102, some 103] ∧
    freedHandles (free_pmu_resource NTSTATUS.STATUS_SUCCESS
        (get_pmu_resource archA hostBulkFails driverA).2).calls =
        [some 100, some 102, some 103, some 103] := by
  decide

/-! ## Teardown -/

theorem fileEvents_InUse (evs : List FileEvent) :
    ∀ d : DEVICE_EXTENSION, (fileEvents evs d).InUse =
      d.InUse + (evs.count FileEvent.create : Int) - (evs.count FileEvent.close : Int) := by
  induction evs with
  | nil => intro d; simp [fileEvents]
  | cons e evs ih =>
    intro d
    have hstep : fileEvents (e :: evs) d = fileEvents evs (match e with
        | FileEvent.create => FileCreate d
        | FileEvent.close => FileClose d) := rfl
    rw [hstep, ih]
    cases e
    · simp [FileCreate, List.count_cons]
      omega
    · simp [FileClose, List.count_cons]
      omega

theorem pollInUse_some (env : List (List FileEvent)) :
    ∀ (d : DEVICE_EXTENSION) (w : Nat) (r : DEVICE_EXTENSION × List (List FileEvent) × Nat),
      pollInUse env d w = some r → r.1.InUse = 0 ∧ r.1.AskedToRemove = d.AskedToRemove := by
  induction env with
  | nil =>
    intro d w r h
    by_cases h0 : d.InUse = 0
    · simp [pollInUse, h0] at h
      subst h
      exact ⟨h0, rfl⟩
    · simp [pollInUse, h0] at h
  | cons b env ih =>
    intro d w r h
    by_cases h0 : d.InUse = 0
    · simp [pollInUse, h0] at h
      subst h
      exact ⟨h0, rfl⟩
    · simp only [pollInUse, h0, if_false] at h
      obtain ⟨h1, h2⟩ := ih _ _ r h
      refine ⟨h1, h2.trans ?_⟩
      clear h ih h1 h2 h0
      induction b generalizing d with
      | nil => rfl
      | cons e b ihb =>
        have hstep : fileEvents (e :: b) d = fileEvents b (match e with
            | FileEvent.create => FileCreate d
            | FileEvent.close => FileClose d) := rfl
        rw [hstep, ihb]
        cases e <;> rfl

theorem pollInUse_returns (env : List (List FileEvent)) :
    ∀ (d : DEVICE_EXTENSION) (w k : Nat), k ≤ env.length →
      (fileEvents (env.take k).flatten d).InUse = 0 → (pollInUse env d w).isSome = true := by
  induction env with
  | nil =>
    intro d w k _ h
    simp [fileEvents] at h
    simp [pollInUse, h]
  | cons b env ih =>
    intro d w k hk h
    by_cases h0 : d.InUse = 0
    · simp [pollInUse, h0]
    · simp only [pollInUse, h0, if_false]
      cases k with
      | zero =>
        simp [fileEvents] at h
        exact absurd h h0
      | succ k =>
        apply ih _ _ k (Nat.le_of_succ_le_succ hk)
        simp only [List.take_succ_cons, List.flatten_cons] at h
        have : fileEvents (b ++ (env.take k).flatten) d =
            fileEvents (env.take k).flatten (fileEvents b d) := by
          simp [fileEvents, List.foldl_append]
        rw [this] at h
        exact h

theorem fileEvents_AskedToRemove (evs : List FileEvent) :
    ∀ d : DEVICE_EXTENSION, (fileEvents evs d).AskedToRemove = d.AskedToRemove := by
  induction evs with
  | nil => intro d; rfl
  | cons e evs ih =>
    intro d
    have hstep : fileEvents (e :: evs) d = fileEvents evs (match e with
        | FileEvent.create => FileCreate d
        | FileEvent.close => FileClose d) := rfl
    rw [hstep, ih]
    cases e <;> rfl

/-- C25, as stated, fails: asked to remove a device with one core while no
client is attached, the polling loop reads `InUse == 0` at once; a client that
attaches during the wait on `sync_reset_dpc` that follows makes `InUse` 1, and
the DPCs and the timer are cancelled and `STATUS_SUCCESS` returned with
`InUse == 1`. -/
theorem unload_cancels_with_client_attached :
    (WindowsPerfDeviceQueryRemove 1 [[FileEvent.create]] ext0).map
        (fun r => (r.status, r.observed, r.ext.InUse, r.steps)) =
      some (NTSTATUS.STATUS_SUCCESS, 0, 1,
        [RemoveStep.setAskedToRemove, RemoveStep.setRunning 0, RemoveStep.waitSyncResetDpc,
         RemoveStep.KeRemoveQueueDpc 0 Dpc.dpc_queue, RemoveStep.KeRemoveQueueDpc 0 Dpc.dpc_reset,
         RemoveStep.KeRemoveQueueDpc 0 Dpc.dpc_overflow,
         RemoveStep.KeRemoveQueueDpc 0 Dpc.dpc_multiplex,
         RemoveStep.KeCancelTimer 0, RemoveStep.WdfWorkItemFlush]) := by
  decide

/-- C25, amended: device creation leaves `InUse` at 0 and after any sequence of
`FileCreate` and `FileClose` calls `InUse` is the number of the former minus the
number of the latter. `WindowsPerfDeviceQueryRemove` sets `AskedToRemove = 1`
and `running = 0`, then waits until it reads `InUse == 0`, then waits on
`sync_reset_dpc`, and only then removes the queued DPCs and cancels the timer of
every core, flushes the work item and returns `STATUS_SUCCESS`; it does return
whenever the file-object callbacks bring `InUse` to 0 at one of its reads.
`InUse` is not read again after the polling loop. -/
theorem unload_waits_for_clients (numCores : Nat) (env : List (List FileEvent))
    (host : CreateHost) (g : DeviceGlobals) (d : DEVICE_EXTENSION) :
    (NT_SUCCESS host.WdfDeviceCreate = true → (frameworkSteps host g).2.ext = some ext0) ∧
    (∀ evs : List FileEvent, (fileEvents evs ext0).InUse =
      (evs.count FileEvent.create : Int) - (evs.count FileEvent.close : Int)) ∧
    (∀ r, WindowsPerfDeviceQueryRemove numCores env d = some r →
      r.status = NTSTATUS.STATUS_SUCCESS ∧ r.observed = 0 ∧ r.running = 0 ∧
      r.ext.AskedToRemove = 1 ∧
      ∃ waits, r.steps =
        [RemoveStep.setAskedToRemove, RemoveStep.setRunning 0] ++
        List.replicate waits RemoveStep.waitEvt ++ [RemoveStep.waitSyncResetDpc] ++
        (List.range numCores).flatMap removeCalls ++ [RemoveStep.WdfWorkItemFlush]) ∧
    (∀ k, k ≤ env.length → (fileEvents (env.take k).flatten d).InUse = 0 →
      (WindowsPerfDeviceQueryRemove numCores env d).isSome = true) := by
  refine ⟨?_, ?_, ?_, ?_⟩
  · intro h
    unfold frameworkSteps
    simp only [h, if_true]
    split_ifs <;> rfl
  · intro evs
    rw [fileEvents_InUse]
    simp [ext0]
  · intro r h
    unfold WindowsPerfDeviceQueryRemove at h
    simp only [] at h
    cases hp : pollInUse env { d with AskedToRemove := 1 } 0 with
    | none => rw [hp] at h; simp at h
    | some x =>
      obtain ⟨d1, rest, waits⟩ := x
      rw [hp] at h
      simp only [Option.some.injEq] at h
      obtain ⟨h1, h2⟩ := pollInUse_some env _ 0 _ hp
      subst h
      refine ⟨rfl, h1, rfl, ?_, waits, rfl⟩
      simp only [fileEvents_AskedToRemove]
      exact h2
  · intro k hk h
    have hp : (pollInUse env { d with AskedToRemove := 1 } 0).isSome = true := by
      apply pollInUse_returns env _ 0 k hk
      rw [fileEvents_InUse] at h ⊢
      exact h
    unfold WindowsPerfDeviceQueryRemove
    simp only []
    cases hq : pollInUse env { d with AskedToRemove := 1 } 0 with
    | none => rw [hq] at hp; simp at hp
    | some x => rfl

/-- C25 (amended) on an unload with one client attached that closes its handle
during the first wait: the loop waits once and the cancellations follow. -/
theorem unload_waits_for_clients_witness :
    (fileEvents ((([[FileEvent.close], []] : List (List FileEvent)).take 1).flatten)
        (FileCreate ext0)).InUse = 0 ∧
    (WindowsPerfDeviceQueryRemove 1 [[FileEvent.close], []] (FileCreate ext0)).isSome = true :=
  ⟨by decide,
   (unload_waits_for_clients 1 [[FileEvent.close], []] createHostA globals0
      (FileCreate ext0)).2.2.2 1 (by decide) (by decide)⟩

/-! ## Device creation -/

theorem frameworkSteps_any (host : CreateHost) (g : DeviceGlobals) :
    (frameworkSteps host g).2.calls.any isLongEventSet = g.calls.any isLongEventSet := by
  unfold frameworkSteps
  simp only []
  split_ifs <;> simp [DeviceGlobals.call, isLongEventSet]

theorem perCoreInit_any (host : CreateHost) (l : List Nat) :
    ∀ g : DeviceGlobals,
      (perCoreInit host l g).2.calls.any isLongEventSet = g.calls.any isLongEventSet := by
  induction l with
  | nil => intro g; rfl
  | cons i rest ih =>
    intro g
    simp only [perCoreInit]
    split_ifs
    · simp [DeviceGlobals.call, isLongEventSet]
    · simp [DeviceGlobals.call, isLongEventSet]
    · rw [ih]
      simp [DeviceGlobals.call, isLongEventSet, coreDpcCalls]

theorem create_any (host : CreateHost) (g : DeviceGlobals) :
    (WindowsPerfDeviceCreate host g).2.calls.any isLongEventSet =
      (g.calls.any isLongEventSet ||
        decide (pmu_ver_of host.ID_DFR0_EL1 = 6 ∨ pmu_ver_of host.ID_DFR0_EL1 = 7)) := by
  have hf := frameworkSteps_any host g
  unfold WindowsPerfDeviceCreate
  simp only []
  by_cases h0 : pmu_ver_of host.ID_DFR0_EL1 = 0
  · simp [h0, hf]
  · simp only [h0, if_false]
    by_cases h67 : pmu_ver_of host.ID_DFR0_EL1 = 6 ∨ pmu_ver_of host.ID_DFR0_EL1 = 7
    · simp only [h67, if_true]
      split_ifs
      all_goals first
        | (simp [DeviceGlobals.call, isLongEventSet, hf, h67]; done)
        | (split <;> rename_i heq <;>
            (have hp := congrArg
               (fun r : Option NTSTATUS × DeviceGlobals => r.2.calls.any isLongEventSet) heq
             simp only [perCoreInit_any] at hp
             simp [DeviceGlobals.call, isLongEventSet, hf, h67] at hp ⊢
             exact hp))
    · simp only [h67, if_false]
      split_ifs
      all_goals first
        | (simp [DeviceGlobals.call, isLongEventSet, hf, h67]; done)
        | (split <;> rename_i heq <;>
            (have hp := congrArg
               (fun r : Option NTSTATUS × DeviceGlobals => r.2.calls.any isLongEventSet) heq
             simp only [perCoreInit_any] at hp
             simp [DeviceGlobals.call, isLongEventSet, hf, h67] at hp ⊢
             simp [← hp]))

/-- C23, as stated, fails: on a host whose ID_AA64DFR0_EL1.PMUVer is 6 but whose
ID_DFR0_EL1 has 1 in bits [11:8], device creation succeeds without enabling
long-event support; on a host whose ID_AA64DFR0_EL1.PMUVer is 1 but whose
ID_DFR0_EL1 has 6 in bits [11:8], it is enabled. -/
theorem long_event_support_ignores_aa64dfr0 :
    createHostA.PMUVer createHostA.ID_AA64DFR0_EL1 = 6 ∧
    (WindowsPerfDeviceCreate createHostA globals0).1 = NTSTATUS.STATUS_SUCCESS ∧
    (WindowsPerfDeviceCreate createHostA globals0).2.calls.any isLongEventSet = false ∧
    createHostV6.PMUVer createHostV6.ID_AA64DFR0_EL1 = 1 ∧
    (WindowsPerfDeviceCreate createHostV6 globals0).1 = NTSTATUS.STATUS_SUCCESS ∧
    (WindowsPerfDeviceCreate createHostV6 globals0).2.calls.any isLongEventSet = true := by
  decide

/-- C23, amended: the PMU version `WindowsPerfDeviceCreate` acts on is bits
[11:8] of ID_DFR0_EL1, whatever ID_AA64DFR0_EL1 holds. If it is 0 the function
returns `STATUS_FAIL_CHECK`; if it is at most 7, long-event support is enabled
exactly when it is 6 or 7. -/
theorem long_event_support_from_dfr0 (host : CreateHost) (g : DeviceGlobals)
    (hg : g.calls.any isLongEventSet = false) (hle : pmu_ver_of host.ID_DFR0_EL1 ≤ 7) :
    (pmu_ver_of host.ID_DFR0_EL1 = 0 →
      (WindowsPerfDeviceCreate host g).1 = STATUS_FAIL_CHECK) ∧
    ((WindowsPerfDeviceCreate host g).2.calls.any isLongEventSet = true ↔
      6 ≤ pmu_ver_of host.ID_DFR0_EL1) := by
  constructor
  · intro h0
    unfold WindowsPerfDeviceCreate
    simp [h0]
  · rw [create_any, hg]
    simp only [Bool.false_or, decide_eq_true_eq]
    omega

/-- C23 (amended) on a host with 6 in bits [11:8] of ID_DFR0_EL1 and PMUVer 1 in
ID_AA64DFR0_EL1: long-event support is enabled. -/
theorem long_event_support_from_dfr0_witness :
    globals0.calls.any isLongEventSet = false ∧ pmu_ver_of createHostV6.ID_DFR0_EL1 ≤ 7 ∧
    (WindowsPerfDeviceCreate createHostV6 globals0).2.calls.any isLongEventSet = true :=
  ⟨by decide, by decide,
   (long_event_support_from_dfr0 createHostV6 globals0 (by decide) (by decide)).2.2 (by decide)⟩

/-- C28: a failure of a framework step is not propagated. With `WdfDeviceCreate`
failing with 0xC0000001, and with `WindowsPerfQueueInitialize` failing with
`STATUS_INSUFFICIENT_RESOURCES`, `WindowsPerfDeviceCreate` goes on with the
hardware initialisation and returns the status of `HalSetSystemInformation`,
`STATUS_SUCCESS`. -/
theorem framework_failure_not_propagated :
    NT_SUCCESS createHostWdfFails.WdfDeviceCreate = false ∧
    (frameworkSteps createHostWdfFails globals0).1 = NTSTATUS.other 0xC0000001 ∧
    (WindowsPerfDeviceCreate createHostWdfFails globals0).1 = NTSTATUS.STATUS_SUCCESS ∧
    (WindowsPerfDeviceCreate createHostWdfFails globals0).2.calls.getLast? =
      some (CreateCall.HalSetSystemInformation NTSTATUS.STATUS_SUCCESS) ∧
    NT_SUCCESS createHostQueueFails.WindowsPerfQueueInitialize = false ∧
    (frameworkSteps createHostQueueFails globals0).1 = NTSTATUS.STATUS_INSUFFICIENT_RESOURCES ∧
    (WindowsPerfDeviceCreate createHostQueueFails globals0).1 = NTSTATUS.STATUS_SUCCESS := by
  decide

/-- C29: when the allocation of `core_info` fails on a host with 2 processors,
`WindowsPerfDeviceCreate` returns `STATUS_INSUFFICIENT_RESOURCES` with
`numCores == 2` and `core_info == NULL`: `numCores` is assigned before the
allocation and not reset. Teardown on that state enters the per-core loop of
`free_pmu_resource` (bounded by `numCores`) and ends in its first pass, at the
store to `core->timer_running` through the NULL `core_info`; core 1 is never
reached and the handler is not uninstalled. -/
theorem numCores_set_without_core_info :
    (WindowsPerfDeviceCreate createHostNoPool globals0).1 =
      NTSTATUS.STATUS_INSUFFICIENT_RESOURCES ∧
    (WindowsPerfDeviceCreate createHostNoPool globals0).2.numCores = 2 ∧
    (WindowsPerfDeviceCreate createHostNoPool globals0).2.core_info = false ∧
    WindowsPerfDeviceIOCleanup cleanupNoPool =
      [CleanupStep.setAskedToRemove, CleanupStep.setRunning 0,
       CleanupStep.pmu (DevEffect.KeCancelTimer 0), CleanupStep.nullAccess 0] := by
  decide

/-! ## The counting client -/

theorem statesAt_append (a b : List PmuCall) :
    ∀ s, statesAt s (a ++ b) = statesAt s a ++ statesAt (stateAfter s a) b := by
  induction a with
  | nil => intro s; rfl
  | cons c a ih =>
    intro s
    simp [statesAt, ih, stateAfter]

theorem stateAfter_append (a b : List PmuCall) (s : PmuState) :
    stateAfter s (a ++ b) = stateAfter (stateAfter s a) b := by
  simp [stateAfter, List.foldl_append]

theorem statesAt_fst_mem (calls : List PmuCall) :
    ∀ s p, p ∈ statesAt s calls → p.1 ∈ calls := by
  induction calls with
  | nil => intro s p h; simp [statesAt] at h
  | cons c calls ih =>
    intro s p h
    simp only [statesAt, List.mem_cons] at h
    rcases h with h | h
    · subst h; simp
    · exact List.mem_cons_of_mem _ (ih _ _ h)

theorem countingBody_states (F : CtlFlags) (enable_bits : Nat) (s : PmuState) :
    stateAfter s (countingBody F enable_bits) = PmuState.IDLE ∧
    ∀ p ∈ statesAt s (countingBody F enable_bits),
      p.1 = PmuCall.core_events_read → p.2 = PmuState.IDLE := by
  unfold countingBody
  constructor
  · split_ifs <;> cases s <;> rfl
  · intro p hp hr
    split_ifs at hp <;> simp [statesAt, commandStep] at hp <;>
      (rcases p with ⟨c, st⟩
       simp only at hr
       subst hr
       simp at hp
       try exact hp)

theorem countingLoop_states (F : CtlFlags) (enable_bits : Nat) (do_timeline : Bool)
    (ctrl : List Bool) :
    ∀ (times : Int) (calls : List PmuCall) (s : PmuState),
      countingLoop F enable_bits do_timeline times ctrl = some calls →
      ∀ p ∈ statesAt s calls, p.1 = PmuCall.core_events_read → p.2 = PmuState.IDLE := by
  induction ctrl with
  | nil =>
    intro times calls s h
    simp only [countingLoop] at h
    split_ifs at h <;> simp only [Option.some.injEq] at h <;> subst h <;>
      exact (countingBody_states F enable_bits s).2
  | cons c ctrl ih =>
    intro times calls s h
    simp only [countingLoop] at h
    split_ifs at h
    all_goals first
      | (simp only [Option.some.injEq] at h
         subst h
         exact (countingBody_states F enable_bits s).2)
      | (simp only [Option.map_eq_some'] at h
         obtain ⟨rest, hrest, hcalls⟩ := h
         subst hcalls
         intro p hp hr
         rw [statesAt_append, List.mem_append] at hp
         rcases hp with hp | hp
         · exact (countingBody_states F enable_bits s).2 p hp hr
         · exact ih _ rest _ hrest p hp hr)

theorem countingLoop_returns (F : CtlFlags) (enable_bits : Nat) (do_timeline : Bool)
    (ctrl : List Bool) :
    ∀ times : Int, (do_timeline = false ∨ false ∈ ctrl) →
      (countingLoop F enable_bits do_timeline times ctrl).isSome = true := by
  induction ctrl with
  | nil =>
    intro times h
    simp only [List.not_mem_nil, or_false] at h
    subst h
    simp only [countingLoop]
    split_ifs <;> first | rfl | contradiction
  | cons c ctrl ih =>
    intro times h
    simp only [countingLoop]
    by_cases h1 : times > 0 ∧ times - 1 ≤ 0
    · simp [h1]
    · by_cases h2 : (do_timeline && c) = true
      · simp only [h1, h2, if_true, if_false, Option.isSome_map']
        apply ih
        simp only [Bool.and_eq_true] at h2
        rcases h with h | h
        · exact Or.inl h
        · simp only [List.mem_cons] at h
          rcases h with h | h
          · rw [← h] at h2
            simp at h2
          · exact Or.inr h
      · simp [h1, h2]

/-- C24, as stated, fails: in a plain counting run on core 0 the client calls
`stop`, `timeline_params`, `events_assign`, `timeline_header`, `reset`, `start`,
`stop` and then `core_events_read`; under the command state machine the state
at that last call is IDLE, not COUNTING. -/
theorem read_counting_issued_after_stop :
    (wmainCount flagsA 1 1 [0] false 0 []).map (statesAt PmuState.IDLE) =
      some [(PmuCall.stop 1, PmuState.IDLE), (PmuCall.timeline_params, PmuState.IDLE),
        (PmuCall.events_assign 0, PmuState.IDLE), (PmuCall.timeline_header, PmuState.IDLE),
        (PmuCall.reset 1, PmuState.IDLE), (PmuCall.start 1, PmuState.IDLE),
        (PmuCall.stop 1, PmuState.COUNTING), (PmuCall.core_events_read, PmuState.IDLE)] := by
  decide

/-- C24, amended: under the command state machine (START moves to COUNTING,
STOP returns to IDLE), every `core_events_read` (READ_COUNTING) of the counting
branch of `wmain` is issued in state IDLE: each pass of the counting loop calls
`reset`, `start`, `stop` and only then reads the counters. The branch comes to
an end when the run is not a timeline or when ctrl-c is seen. -/
theorem read_counting_in_idle (F : CtlFlags) (stop_bits enable_bits : Nat)
    (cores_idx : List Nat) (do_timeline : Bool) (count_timeline : Int) (ctrl : List Bool)
    (s0 : PmuState) :
    ((do_timeline = false ∨ false ∈ ctrl) →
      (wmainCount F stop_bits enable_bits cores_idx do_timeline count_timeline ctrl).isSome
        = true) ∧
    ∀ calls, wmainCount F stop_bits enable_bits cores_idx do_timeline count_timeline ctrl
        = some calls →
      ∀ p ∈ statesAt s0 calls, p.1 = PmuCall.core_events_read → p.2 = PmuState.IDLE := by
  constructor
  · intro h
    unfold wmainCount
    simp only [Option.isSome_map']
    exact countingLoop_returns F enable_bits do_timeline ctrl count_timeline h
  · intro calls h p hp hr
    unfold wmainCount at h
    simp only [Option.map_eq_some'] at h
    obtain ⟨loop, hloop, hcalls⟩ := h
    subst hcalls
    rw [statesAt_append, List.mem_append] at hp
    rcases hp with hp | hp
    · have hm := statesAt_fst_mem _ _ _ hp
      rw [hr] at hm
      simp at hm
    · exact countingLoop_states F enable_bits do_timeline ctrl count_timeline loop _ hloop p hp hr

/-- C24 (amended) on a timeline run of three passes ended by ctrl-c, with all
three classes enabled: the run ends and its reads are issued in state IDLE. -/
theorem read_counting_in_idle_witness :
    (wmainCount flagsA 1 7 [0, 1] true 0 [true, true, false]).isSome = true ∧
    ((wmainCount flagsA 1 7 [0, 1] true 0 [true, true, false]).map (fun calls =>
      ((statesAt PmuState.COUNTING calls).filter
        (fun p => p.1 = PmuCall.core_events_read)).length)) = some 3 :=
  ⟨(read_counting_in_idle flagsA 1 7 [0, 1] true 0 [true, true, false] PmuState.COUNTING).1
      (Or.inr (by decide)), by decide⟩

/-! ## The client's sample aggregation -/

/-- C30: on one raw sample at PC 0x1000 whose `ov_flags` has bits 0 and 1 set,
with nothing aggregated before, the loop leaves two entries; the second one
(event source 0x11) has `freq == 1` and the per-PC list
`[(0x1000, 1), (0x1000, 1)]`: the PC occurs twice and the hit counts sum to 2,
because the local `sd` keeps the pair pushed for bit 0 when it is pushed again
for bit 1. -/
theorem aggregation_repeats_pc_for_second_bit :
    aggregate 0xffffffff (fun i => 0x10 + i) (fun _ => "main") [⟨0, 0x1000, 3⟩] =
      [{ name := "main", event_src := 0x10, freq := 1, pc := [(0x1000, 1)] },
       { name := "main", event_src := 0x11, freq := 1, pc := [(0x1000, 1), (0x1000, 1)] }] ∧
    (aggregate 0xffffffff (fun i => 0x10 + i) (fun _ => "main") [⟨0, 0x1000, 3⟩]).map
      (fun c => (c.freq, hitSum c.pc, decide (c.pc.map (fun p => p.1)).Nodup)) =
      [(1, 1, true), (1, 2, false)] := by
  decide

end WPerf
